import Mathlib

/-!
Power Management Controller driver (`drivers/peripherals/pmc.c`)

A shallow embedding of the PMC driver: the clock-frequency resolvers, the
master-clock switch sequencer and the peripheral clock gate.

* `uint32_t` values are natural numbers; arithmetic that can wrap is reduced
  modulo `2^32` explicitly (`add32`, `mul32`, `shl32`, `not32`).
* The register-field constants of `chip.h` and the oscillator frequencies of
  `board.h` are not part of the sources at hand; they are the fields of `Chip`
  and every function takes the chip as its first argument.
* The memory-mapped registers and the driver's one static variable are the
  fields of `State`.
-/

namespace PMC

/-! ## Constants of `chip.h` and `board.h` -/

/-- Constants that `pmc.c` takes from `chip.h` and `board.h`. Each field has the
name of the C preprocessor symbol it stands for. -/
structure Chip where
  /- PMC_MCKR: master clock register -/
  PMC_MCKR_CSS_Msk : Nat
  PMC_MCKR_CSS_Pos : Nat
  PMC_MCKR_CSS_SLOW_CLK : Nat
  PMC_MCKR_CSS_MAIN_CLK : Nat
  PMC_MCKR_CSS_PLLA_CLK : Nat
  PMC_MCKR_CSS_UPLL_CLK : Nat
  PMC_MCKR_PRES_Msk : Nat
  PMC_MCKR_PRES_CLOCK : Nat
  PMC_MCKR_PRES_CLOCK_DIV2 : Nat
  PMC_MCKR_PRES_CLOCK_DIV4 : Nat
  PMC_MCKR_PRES_CLOCK_DIV8 : Nat
  PMC_MCKR_PRES_CLOCK_DIV16 : Nat
  PMC_MCKR_PRES_CLOCK_DIV32 : Nat
  PMC_MCKR_PRES_CLOCK_DIV64 : Nat
  PMC_MCKR_MDIV_Msk : Nat
  PMC_MCKR_MDIV_EQ_PCK : Nat
  PMC_MCKR_MDIV_PCK_DIV2 : Nat
  PMC_MCKR_MDIV_PCK_DIV4 : Nat
  PMC_MCKR_MDIV_PCK_DIV3 : Nat
  PMC_MCKR_PLLADIV2 : Nat
  PMC_MCKR_H32MXDIV : Nat
  /- PMC_PCK[n]: programmable clock registers -/
  PMC_PCK_CSS_Msk : Nat
  PMC_PCK_CSS_SLOW_CLK : Nat
  PMC_PCK_CSS_MAIN_CLK : Nat
  PMC_PCK_CSS_PLLA_CLK : Nat
  PMC_PCK_CSS_UPLL_CLK : Nat
  PMC_PCK_CSS_MCK_CLK : Nat
  PMC_PCK_PRES_Msk : Nat
  PMC_PCK_PRES_Pos : Nat
  /- SCKC_CR: slow clock controller -/
  SCKC_CR_OSCSEL : Nat
  SCKC_CR_OSCSEL_RC : Nat
  SCKC_CR_OSCSEL_XTAL : Nat
  /- CKGR_MOR: main oscillator register -/
  CKGR_MOR_MOSCSEL : Nat
  CKGR_MOR_MOSCXTEN : Nat
  CKGR_MOR_KEY_PASSWD : Nat
  CKGR_MOR_MOSCXTST_Msk : Nat
  CKGR_MOR_MOSCXTST_Pos : Nat
  /- CKGR_PLLAR: PLL-A register -/
  CKGR_PLLAR_MULA_Msk : Nat
  CKGR_PLLAR_MULA_Pos : Nat
  CKGR_PLLAR_DIVA_Msk : Nat
  CKGR_PLLAR_DIVA_Pos : Nat
  CKGR_PLLAR_DIVA_0 : Nat
  /- PMC_SR: status register bits -/
  PMC_SR_MOSCXTS : Nat
  PMC_SR_MOSCSELS : Nat
  PMC_SR_MOSCRCS : Nat
  PMC_SR_MCKRDY : Nat
  PMC_SR_LOCKA : Nat
  PMC_SR_PCKRDY0 : Nat
  PMC_SR_PCKRDY1 : Nat
  PMC_SR_PCKRDY2 : Nat
  PMC_SR_GCKRDY : Nat
  /- PMC_SCER / PMC_SCDR / PMC_SCSR: system clock enable, disable, status -/
  PMC_SCER_PCK0 : Nat
  PMC_SCER_PCK1 : Nat
  PMC_SCER_PCK2 : Nat
  PMC_SCDR_PCK0 : Nat
  PMC_SCDR_PCK1 : Nat
  PMC_SCDR_PCK2 : Nat
  PMC_SCSR_PCK0 : Nat
  PMC_SCSR_PCK1 : Nat
  PMC_SCSR_PCK2 : Nat
  /- PMC_PCR: peripheral control register -/
  PMC_PCR_PID_Msk : Nat
  PMC_PCR_PID_Pos : Nat
  PMC_PCR_CMD : Nat
  PMC_PCR_EN : Nat
  PMC_PCR_GCKEN : Nat
  PMC_PCR_GCKCSS_Msk : Nat
  PMC_PCR_GCKCSS_SLOW_CLK : Nat
  PMC_PCR_GCKCSS_MAIN_CLK : Nat
  PMC_PCR_GCKCSS_PLLA_CLK : Nat
  PMC_PCR_GCKCSS_UPLL_CLK : Nat
  PMC_PCR_GCKCSS_MCK_CLK : Nat
  PMC_PCR_GCKDIV_Msk : Nat
  PMC_PCR_GCKDIV_Pos : Nat
  /- peripheral identifiers -/
  ID_PERIPH_COUNT : Nat
  /- board.h / chip.h oscillator frequencies, in Hz -/
  BOARD_MAIN_CLOCK_EXT_OSC : Nat
  MAIN_CLOCK_INT_OSC : Nat
  BOARD_SLOW_CLOCK_EXT_OSC : Nat
  SLOW_CLOCK_INT_OSC : Nat
  /- audio clock source: present only under CONFIG_HAVE_PMC_AUDIO_CLOCK -/
  CONFIG_HAVE_PMC_AUDIO_CLOCK : Bool
  PMC_PCK_CSS_AUDIO_CLK : Nat
  PMC_PCR_GCKCSS_AUDIO_CLK : Nat

/-! ## Machine state -/

/-- The registers `pmc.c` touches, and its static variable `_pmc_mck` (line 80).

Ordinary registers hold the last value written. The status registers `PMC_SR`
and `PMC_SCSR` are owned by the hardware: `PMC_SR n` is the value the `n`-th
status read will return, and `polls` counts the status reads made so far.
`PMC_PCR` is a command register, split into the selected identifier `pcr_sel`
and one control word per identifier, `pcr_ctl`. -/
structure State where
  _pmc_mck : Nat
  PMC_MCKR : Nat
  CKGR_MOR : Nat
  CKGR_PLLAR : Nat
  PMC_PLLICPR : Nat
  SCKC_CR : Nat
  PMC_PCK : Nat → Nat
  PMC_SCER : Nat
  PMC_SCDR : Nat
  pcr_sel : Nat
  pcr_ctl : Nat → Nat
  PMC_SR : Nat → Nat
  PMC_SCSR : Nat → Nat
  polls : Nat

/-- Result of running a driver function.

* `ret v st`: the function returned `v`, leaving the machine in `st`;
* `assert_failed st`: an `assert` did not hold; `st` is the machine state at
  that moment;
* `div_by_zero`: a division with a zero divisor was evaluated;
* `spinning`: a busy-wait loop had not finished when the fuel ran out. -/
inductive Outcome (α : Type) where
  | ret (v : α) (st : State) : Outcome α
  | assert_failed (st : State) : Outcome α
  | div_by_zero : Outcome α
  | spinning : Outcome α

/-- Sequencing: run `k` on the value and state `r` returned, pass a failure on. -/
def Outcome.bind {α β : Type} (r : Outcome α) (k : α → State → Outcome β) : Outcome β :=
  match r with
  | .ret v st => k v st
  | .assert_failed st => .assert_failed st
  | .div_by_zero => .div_by_zero
  | .spinning => .spinning

/-- The returned value, when the function returned. -/
def Outcome.val? {α : Type} : Outcome α → Option α
  | .ret v _ => some v
  | _ => none

/-- The final state, when the function returned. -/
def Outcome.state? {α : Type} : Outcome α → Option State
  | .ret _ st => some st
  | _ => none

/-- The machine state at a failed assertion, when an assertion failed. -/
def Outcome.aborted? {α : Type} : Outcome α → Option State
  | .assert_failed st => some st
  | _ => none

/-! ## 32-bit arithmetic -/

/-- The C operator `~` on a `uint32_t`. -/
def not32 (x : Nat) : Nat := 0xFFFFFFFF ^^^ (x % 2 ^ 32)

/-- The C operator `+` on `uint32_t`. -/
def add32 (x y : Nat) : Nat := (x + y) % 2 ^ 32

/-- The C operator `*` on `uint32_t`. -/
def mul32 (x y : Nat) : Nat := (x * y) % 2 ^ 32

/-- The C operator `<<` on `uint32_t`. -/
def shl32 (x n : Nat) : Nat := (x <<< n) % 2 ^ 32

/-- The C operator `/` on `uint32_t`: dividing by zero has no result. -/
def div32 (x y : Nat) : Option Nat := if y = 0 then none else some (x / y)

/-! ## Resolvers (lines 86-156, 272-344) -/

/-- Function `pmc_get_slow_clock` (lines 280-286). -/
def pmc_get_slow_clock (c : Chip) (st : State) : Nat :=
  if st.SCKC_CR &&& c.SCKC_CR_OSCSEL ≠ 0 then
    c.SLOW_CLOCK_INT_OSC
  else
    c.BOARD_SLOW_CLOCK_EXT_OSC

/-- Function `pmc_get_main_clock` (lines 288-294). -/
def pmc_get_main_clock (c : Chip) (st : State) : Nat :=
  if st.CKGR_MOR &&& c.CKGR_MOR_MOSCSEL ≠ 0 then
    c.MAIN_CLOCK_INT_OSC
  else
    c.BOARD_MAIN_CLOCK_EXT_OSC

/-- Function `pmc_get_plla_clock` (lines 296-317). The result is `none` when a division
by zero is evaluated. -/
def pmc_get_plla_clock (c : Chip) (st : State) : Option Nat :=
  let pllaclk :=
    if st.CKGR_MOR &&& c.CKGR_MOR_MOSCSEL ≠ 0 then c.MAIN_CLOCK_INT_OSC
    else c.BOARD_MAIN_CLOCK_EXT_OSC
  let pllar := st.CKGR_PLLAR
  let pllmula := (pllar &&& c.CKGR_PLLAR_MULA_Msk) >>> c.CKGR_PLLAR_MULA_Pos
  let plldiva := (pllar &&& c.CKGR_PLLAR_DIVA_Msk) >>> c.CKGR_PLLAR_DIVA_Pos
  if plldiva = 0 then
    some 0
  else
    (div32 (mul32 pllaclk (add32 pllmula 1)) plldiva).map fun pllaclk =>
      if st.PMC_MCKR &&& c.PMC_MCKR_PLLADIV2 ≠ 0 then pllaclk >>> 1 else pllaclk

/-- First `switch` of `_pmc_compute_mck` (lines 91-108): the frequency of the
source selected by the CSS field. -/
def mck_css_clk (c : Chip) (st : State) : Option Nat :=
  let css := st.PMC_MCKR &&& c.PMC_MCKR_CSS_Msk
  if css = c.PMC_MCKR_CSS_SLOW_CLK then some (pmc_get_slow_clock c st)
  else if css = c.PMC_MCKR_CSS_MAIN_CLK then some (pmc_get_main_clock c st)
  else if css = c.PMC_MCKR_CSS_PLLA_CLK then pmc_get_plla_clock c st
  else if css = c.PMC_MCKR_CSS_UPLL_CLK then some c.BOARD_MAIN_CLOCK_EXT_OSC
  else some 0

/-- Second `switch` of `_pmc_compute_mck` (lines 110-135): the prescaler. -/
def mck_pres_clk (c : Chip) (mckr clk : Nat) : Nat :=
  let pres := mckr &&& c.PMC_MCKR_PRES_Msk
  if pres = c.PMC_MCKR_PRES_CLOCK then clk
  else if pres = c.PMC_MCKR_PRES_CLOCK_DIV2 then clk >>> 1
  else if pres = c.PMC_MCKR_PRES_CLOCK_DIV4 then clk >>> 2
  else if pres = c.PMC_MCKR_PRES_CLOCK_DIV8 then clk >>> 3
  else if pres = c.PMC_MCKR_PRES_CLOCK_DIV16 then clk >>> 4
  else if pres = c.PMC_MCKR_PRES_CLOCK_DIV32 then clk >>> 5
  else if pres = c.PMC_MCKR_PRES_CLOCK_DIV64 then clk >>> 6
  else clk

/-- Third `switch` of `_pmc_compute_mck` (lines 137-153): the MDIV divider. -/
def mck_mdiv_clk (c : Chip) (mckr clk : Nat) : Option Nat :=
  let mdiv := mckr &&& c.PMC_MCKR_MDIV_Msk
  if mdiv = c.PMC_MCKR_MDIV_EQ_PCK then some clk
  else if mdiv = c.PMC_MCKR_MDIV_PCK_DIV2 then some (clk >>> 1)
  else if mdiv = c.PMC_MCKR_MDIV_PCK_DIV4 then some (clk >>> 2)
  else if mdiv = c.PMC_MCKR_MDIV_PCK_DIV3 then div32 clk 3
  else some clk

/-- The value of `clk` after the first two switches of `_pmc_compute_mck`
(line 136): the prescaled source frequency, the input of the MDIV step. -/
def mck_prescaled (c : Chip) (st : State) : Option Nat :=
  (mck_css_clk c st).map (mck_pres_clk c st.PMC_MCKR)

/-- The value of `clk` at the end of `_pmc_compute_mck` (line 155): source,
then prescaler, then MDIV divider, all read from the registers. -/
def mck_value (c : Chip) (st : State) : Option Nat :=
  (mck_prescaled c st).bind (mck_mdiv_clk c st.PMC_MCKR)

/-- Function `_pmc_compute_mck` (lines 86-156). -/
def _pmc_compute_mck (c : Chip) (st : State) : Outcome Unit :=
  match mck_value c st with
  | none => .div_by_zero
  | some clk => .ret () { st with _pmc_mck := clk }

/-- Function `pmc_get_master_clock` (lines 272-278). -/
def pmc_get_master_clock (c : Chip) (st : State) : Outcome Nat :=
  (if st._pmc_mck = 0 then _pmc_compute_mck c st else .ret () st).bind
    fun _ st => .ret st._pmc_mck st

/-- Function `pmc_get_processor_clock` (lines 319-344). -/
def pmc_get_processor_clock (c : Chip) (st : State) : Outcome Nat :=
  (pmc_get_master_clock c st).bind fun procclk st =>
    let mdiv := st.PMC_MCKR &&& c.PMC_MCKR_MDIV_Msk
    if mdiv = c.PMC_MCKR_MDIV_EQ_PCK then .ret procclk st
    else if mdiv = c.PMC_MCKR_MDIV_PCK_DIV2 then .ret (shl32 procclk 1) st
    else if mdiv = c.PMC_MCKR_MDIV_PCK_DIV3 then .ret (mul32 procclk 3) st
    else if mdiv = c.PMC_MCKR_MDIV_PCK_DIV4 then .ret (shl32 procclk 2) st
    else .ret procclk st

/-! ## Master-clock switch sequencer (lines 430-497) -/

/-- The busy-wait `while (!(PMC->PMC_SR & bit));`. Every iteration reads the
status register once; `fuel` bounds the number of iterations. -/
def wait_sr (bit : Nat) : Nat → State → Outcome Unit
  | 0, _ => .spinning
  | fuel + 1, st =>
    let sr := st.PMC_SR st.polls
    let st := { st with polls := st.polls + 1 }
    if sr &&& bit ≠ 0 then .ret () st else wait_sr bit fuel st

/-- Function `pmc_switch_mck_to_pll` (lines 430-437). -/
def pmc_switch_mck_to_pll (c : Chip) (fuel : Nat) (st : State) : Outcome Unit :=
  let st := { st with
    PMC_MCKR := (st.PMC_MCKR &&& not32 c.PMC_MCKR_CSS_Msk) ||| c.PMC_MCKR_CSS_PLLA_CLK }
  (wait_sr c.PMC_SR_MCKRDY fuel st).bind fun _ st =>
    .ret () { st with _pmc_mck := 0 }

/-- Function `pmc_switch_mck_to_main` (lines 439-446). The source writes the
programmable-clock constant `PMC_PCK_CSS_MAIN_CLK` into `PMC_MCKR`. -/
def pmc_switch_mck_to_main (c : Chip) (fuel : Nat) (st : State) : Outcome Unit :=
  let st := { st with
    PMC_MCKR := (st.PMC_MCKR &&& not32 c.PMC_MCKR_CSS_Msk) ||| c.PMC_PCK_CSS_MAIN_CLK }
  (wait_sr c.PMC_SR_MCKRDY fuel st).bind fun _ st =>
    .ret () { st with _pmc_mck := 0 }

/-- Function `pmc_switch_mck_to_slck` (lines 448-455). The source writes the
programmable-clock constant `PMC_PCK_CSS_SLOW_CLK` into `PMC_MCKR`. -/
def pmc_switch_mck_to_slck (c : Chip) (fuel : Nat) (st : State) : Outcome Unit :=
  let st := { st with
    PMC_MCKR := (st.PMC_MCKR &&& not32 c.PMC_MCKR_CSS_Msk) ||| c.PMC_PCK_CSS_SLOW_CLK }
  (wait_sr c.PMC_SR_MCKRDY fuel st).bind fun _ st =>
    .ret () { st with _pmc_mck := 0 }

/-- Function `pmc_set_mck_prescaler` (lines 457-462). -/
def pmc_set_mck_prescaler (c : Chip) (fuel : Nat) (prescaler : Nat) (st : State) :
    Outcome Unit :=
  let st := { st with
    PMC_MCKR := (st.PMC_MCKR &&& not32 c.PMC_MCKR_PRES_Msk) ||| prescaler }
  wait_sr c.PMC_SR_MCKRDY fuel st

/-- Function `pmc_set_mck_divider` (lines 492-497). -/
def pmc_set_mck_divider (c : Chip) (fuel : Nat) (divider : Nat) (st : State) :
    Outcome Unit :=
  let st := { st with
    PMC_MCKR := (st.PMC_MCKR &&& not32 c.PMC_MCKR_MDIV_Msk) ||| divider }
  wait_sr c.PMC_SR_MCKRDY fuel st

/-! ## Peripheral clock gate (lines 538-566) -/

/-- Modelled from the spec: the macro `PMC_PCR_PID(value)` of `chip.h`, which
places a peripheral identifier in the PID field of a `PMC_PCR` word. -/
def PMC_PCR_PID (c : Chip) (value : Nat) : Nat :=
  c.PMC_PCR_PID_Msk &&& shl32 value c.PMC_PCR_PID_Pos

/-- Modelled from the spec: the hardware behind a write to `PMC_PCR`. A word
with the command flag `PMC_PCR_CMD` is stored as the control word of the
selected identifier; a word without it selects the identifier in its PID field
for read-back. -/
def pcr_write (c : Chip) (w : Nat) (st : State) : State :=
  if w &&& c.PMC_PCR_CMD ≠ 0 then
    { st with pcr_ctl := Function.update st.pcr_ctl st.pcr_sel w }
  else
    { st with pcr_sel := w &&& c.PMC_PCR_PID_Msk }

/-- Modelled from the spec: the hardware behind a read of `PMC_PCR`, the
control word of the selected identifier. -/
def pcr_read (st : State) : Nat :=
  st.pcr_ctl st.pcr_sel

/-- Function `pmc_enable_peripheral` (lines 538-546). -/
def pmc_enable_peripheral (c : Chip) (id : Nat) (st : State) : Outcome Unit :=
  if ¬ (id > 1 ∧ id < c.ID_PERIPH_COUNT) then .assert_failed st
  else
    let st := pcr_write c (PMC_PCR_PID c id) st
    let pcr := pcr_read st
    .ret () (pcr_write c (pcr ||| c.PMC_PCR_CMD ||| c.PMC_PCR_EN) st)

/-- Function `pmc_disable_peripheral` (lines 548-556). -/
def pmc_disable_peripheral (c : Chip) (id : Nat) (st : State) : Outcome Unit :=
  if ¬ (id > 1 ∧ id < c.ID_PERIPH_COUNT) then .assert_failed st
  else
    let st := pcr_write c (PMC_PCR_PID c id) st
    let pcr := pcr_read st
    .ret () (pcr_write c (c.PMC_PCR_CMD ||| (pcr &&& not32 c.PMC_PCR_EN)) st)

/-- Function `pmc_is_peripheral_enabled` (lines 558-566). -/
def pmc_is_peripheral_enabled (c : Chip) (id : Nat) (st : State) : Outcome Nat :=
  if ¬ (id > 1 ∧ id < c.ID_PERIPH_COUNT) then .assert_failed st
  else
    let st := pcr_write c (PMC_PCR_PID c id) st
    let pcr := pcr_read st
    .ret (if pcr &&& c.PMC_PCR_EN ≠ 0 then 1 else 0) st

/-- Function `pmc_disable_all_peripherals` (lines 579-584): the loop
`for (i = 2; i < ID_PERIPH_COUNT; i++) pmc_disable_peripheral(i);` entered with
loop variable `i`. -/
def disable_all_loop (c : Chip) (i : Nat) (st : State) : Outcome Unit :=
  if i < c.ID_PERIPH_COUNT then
    match pmc_disable_peripheral c i st with
    | .ret _ st => disable_all_loop c (i + 1) st
    | .assert_failed st => .assert_failed st
    | .div_by_zero => .div_by_zero
    | .spinning => .spinning
  else
    .ret () st
termination_by c.ID_PERIPH_COUNT - i

/-- Function `pmc_disable_all_peripherals` (lines 579-584). -/
def pmc_disable_all_peripherals (c : Chip) (st : State) : Outcome Unit :=
  disable_all_loop c 2 st

/-- Calling `f` on every identifier of a list, in the order of the list: what
"`f` is issued for exactly these ids, each once, in this order" means. -/
def call_each (f : Nat → State → Outcome Unit) : List Nat → State → Outcome Unit
  | [], st => .ret () st
  | i :: is, st => (f i st).bind fun _ st => call_each f is st

/-! ## Slow-clock oscillator selection (lines 346-387) -/

/-- Modelled from the spec: the macro `PMC_MCKR_CSS(value)` of `chip.h`, which
places a value in the CSS field of a `PMC_MCKR` word. -/
def PMC_MCKR_CSS (c : Chip) (value : Nat) : Nat :=
  c.PMC_MCKR_CSS_Msk &&& shl32 value c.PMC_MCKR_CSS_Pos

/-- Function `pmc_select_external_crystal` (lines 346-365). The delay loop of
line 360 touches no register and is left out. -/
def pmc_select_external_crystal (c : Chip) (fuel : Nat) (st : State) : Outcome Unit :=
  let return_to_sclock := decide (st.PMC_MCKR = PMC_MCKR_CSS c c.PMC_MCKR_CSS_SLOW_CLK)
  (if return_to_sclock then pmc_switch_mck_to_main c fuel st else .ret () st).bind
    fun _ st =>
      let st := { st with
        SCKC_CR := (st.SCKC_CR &&& not32 c.SCKC_CR_OSCSEL) ||| c.SCKC_CR_OSCSEL_XTAL }
      if return_to_sclock then pmc_switch_mck_to_slck c fuel st else .ret () st

/-- Function `pmc_select_internal_crystal` (lines 367-387). The delay loop of
line 382 touches no register and is left out. -/
def pmc_select_internal_crystal (c : Chip) (fuel : Nat) (st : State) : Outcome Unit :=
  let return_to_sclock := decide (st.PMC_MCKR = PMC_MCKR_CSS c c.PMC_MCKR_CSS_SLOW_CLK)
  (if return_to_sclock then pmc_switch_mck_to_main c fuel st else .ret () st).bind
    fun _ st =>
      let st := { st with
        SCKC_CR := (st.SCKC_CR &&& not32 c.SCKC_CR_OSCSEL) ||| c.SCKC_CR_OSCSEL_RC }
      if return_to_sclock then pmc_switch_mck_to_slck c fuel st else .ret () st

/-! ## PLL-A configuration (lines 499-512) -/

/-- Modelled from the spec: the macro `CKGR_PLLAR_MULA(value)` of `chip.h`,
which places a value in the MULA field of a `CKGR_PLLAR` word. -/
def CKGR_PLLAR_MULA (c : Chip) (value : Nat) : Nat :=
  c.CKGR_PLLAR_MULA_Msk &&& shl32 value c.CKGR_PLLAR_MULA_Pos

/-- Function `pmc_set_plla` (lines 499-507). -/
def pmc_set_plla (c : Chip) (fuel : Nat) (pll cpcr : Nat) (st : State) : Outcome Unit :=
  let st := { st with CKGR_PLLAR := pll }
  let st := { st with PMC_PLLICPR := cpcr }
  if pll &&& c.CKGR_PLLAR_DIVA_Msk ≠ c.CKGR_PLLAR_DIVA_0 then
    wait_sr c.PMC_SR_LOCKA fuel st
  else
    .ret () st

/-- Function `pmc_disable_plla` (lines 509-512). -/
def pmc_disable_plla (c : Chip) (st : State) : Outcome Unit :=
  .ret () { st with
    CKGR_PLLAR := (st.CKGR_PLLAR &&& not32 c.CKGR_PLLAR_MULA_Msk) ||| CKGR_PLLAR_MULA c 0 }

/-! ## Programmable clocks (lines 158-190, 608-657) -/

/-- A value that a division produced, or the failure of that division. -/
def Outcome.of_div {α : Type} (o : Option α) (st : State) : Outcome α :=
  match o with
  | some v => .ret v st
  | none => .div_by_zero

/-- The `switch` of `_pmc_get_pck_clock` (lines 163-186): the frequency of the
source selected by the CSS field of the word `pck`. The audio case exists only
under `CONFIG_HAVE_PMC_AUDIO_CLOCK`; without a matching case `clk` keeps its
initial value 0. -/
def pck_css_clk (c : Chip) (pck : Nat) (st : State) : Outcome Nat :=
  let css := pck &&& c.PMC_PCK_CSS_Msk
  if css = c.PMC_PCK_CSS_SLOW_CLK then .ret (pmc_get_slow_clock c st) st
  else if css = c.PMC_PCK_CSS_MAIN_CLK then .ret (pmc_get_main_clock c st) st
  else if css = c.PMC_PCK_CSS_PLLA_CLK then Outcome.of_div (pmc_get_plla_clock c st) st
  else if css = c.PMC_PCK_CSS_UPLL_CLK then .ret 0 st
  else if css = c.PMC_PCK_CSS_MCK_CLK then pmc_get_master_clock c st
  else if c.CONFIG_HAVE_PMC_AUDIO_CLOCK = true ∧ css = c.PMC_PCK_CSS_AUDIO_CLK then .ret 0 st
  else .ret 0 st

/-- Function `_pmc_get_pck_clock` (lines 158-190). -/
def _pmc_get_pck_clock (c : Chip) (index : Nat) (st : State) : Outcome Nat :=
  let pck := st.PMC_PCK index
  (pck_css_clk c pck st).bind fun clk st =>
    let prescaler := (pck &&& c.PMC_PCK_PRES_Msk) >>> c.PMC_PCK_PRES_Pos
    Outcome.of_div (div32 clk (add32 prescaler 1)) st

/-- Function `pmc_get_pck0_clock` (lines 608-611). -/
def pmc_get_pck0_clock (c : Chip) (st : State) : Outcome Nat :=
  _pmc_get_pck_clock c 0 st

/-- Function `pmc_get_pck1_clock` (lines 631-634). -/
def pmc_get_pck1_clock (c : Chip) (st : State) : Outcome Nat :=
  _pmc_get_pck_clock c 1 st

/-- Function `pmc_get_pck2_clock` (lines 654-657). -/
def pmc_get_pck2_clock (c : Chip) (st : State) : Outcome Nat :=
  _pmc_get_pck_clock c 2 st

/-! ## Generated clocks (lines 679-749, under CONFIG_HAVE_PMC_GENERATED_CLOCKS) -/

/-- Modelled from the spec: the macro `PMC_PCR_GCKDIV(value)` of `chip.h`, which
places a value in the GCKDIV field of a `PMC_PCR` word. -/
def PMC_PCR_GCKDIV (c : Chip) (value : Nat) : Nat :=
  c.PMC_PCR_GCKDIV_Msk &&& shl32 value c.PMC_PCR_GCKDIV_Pos

/-- Modelled from the spec: the macro `ROUND_INT_DIV(n, d)`, defined outside
the sources at hand. The spec has the generated-clock frequency rounded to the
nearest integer, halves rounded up: the quotient `(2 n + d) / (2 d)`. Overflow
inside the macro is not modelled; a zero `d` is a division by zero. -/
def ROUND_INT_DIV (n d : Nat) : Option Nat :=
  div32 (2 * n + d) (2 * d)

/-- Function `pmc_disable_gck` (lines 703-711). -/
def pmc_disable_gck (c : Chip) (fuel : Nat) (id : Nat) (st : State) : Outcome Unit :=
  if ¬ (id > 1 ∧ id < c.ID_PERIPH_COUNT) then .assert_failed st
  else
    let st := pcr_write c (PMC_PCR_PID c id) st
    let pcr := pcr_read st
    let st := pcr_write c (c.PMC_PCR_CMD ||| (pcr &&& not32 c.PMC_PCR_GCKEN)) st
    wait_sr c.PMC_SR_GCKRDY fuel st

/-- Function `pmc_configure_gck` (lines 680-691). -/
def pmc_configure_gck (c : Chip) (fuel : Nat) (id clock_source div : Nat) (st : State) :
    Outcome Unit :=
  if ¬ (id > 1 ∧ id < c.ID_PERIPH_COUNT) then .assert_failed st
  else if clock_source &&& not32 c.PMC_PCR_GCKCSS_Msk ≠ 0 then .assert_failed st
  else if shl32 div c.PMC_PCR_GCKDIV_Pos &&& not32 c.PMC_PCR_GCKDIV_Msk ≠ 0 then
    .assert_failed st
  else
    (pmc_disable_gck c fuel id st).bind fun _ st =>
      let st := pcr_write c (PMC_PCR_PID c id) st
      let pcr := pcr_read st
      .ret () (pcr_write c
        (pcr ||| (clock_source &&& c.PMC_PCR_GCKCSS_Msk) ||| c.PMC_PCR_CMD |||
          PMC_PCR_GCKDIV c div) st)

/-- The `switch` of `pmc_get_gck_clock` (lines 721-744): the frequency of the
source selected by the GCKCSS field of the control word `pcr`. -/
def gck_css_clk (c : Chip) (pcr : Nat) (st : State) : Outcome Nat :=
  let css := pcr &&& c.PMC_PCR_GCKCSS_Msk
  if css = c.PMC_PCR_GCKCSS_SLOW_CLK then .ret (pmc_get_slow_clock c st) st
  else if css = c.PMC_PCR_GCKCSS_MAIN_CLK then .ret (pmc_get_main_clock c st) st
  else if css = c.PMC_PCR_GCKCSS_PLLA_CLK then Outcome.of_div (pmc_get_plla_clock c st) st
  else if css = c.PMC_PCR_GCKCSS_UPLL_CLK then .ret 0 st
  else if css = c.PMC_PCR_GCKCSS_MCK_CLK then pmc_get_master_clock c st
  else if c.CONFIG_HAVE_PMC_AUDIO_CLOCK = true ∧ css = c.PMC_PCR_GCKCSS_AUDIO_CLK then
    .ret 0 st
  else .ret 0 st

/-- Function `pmc_get_gck_clock` (lines 713-748). -/
def pmc_get_gck_clock (c : Chip) (id : Nat) (st : State) : Outcome Nat :=
  if ¬ (id > 1 ∧ id < c.ID_PERIPH_COUNT) then .assert_failed st
  else
    let st := pcr_write c (PMC_PCR_PID c id) st
    let pcr := pcr_read st
    (gck_css_clk c pcr st).bind fun clk st =>
      let div := (pcr &&& c.PMC_PCR_GCKDIV_Msk) >>> c.PMC_PCR_GCKDIV_Pos
      Outcome.of_div (ROUND_INT_DIV clk (add32 div 1)) st

/-! ## Main oscillator selection (lines 389-428) -/

/-- Modelled from the spec: the macro `CKGR_MOR_MOSCXTST(value)` of `chip.h`,
which places a start-up time in the MOSCXTST field of a `CKGR_MOR` word. -/
def CKGR_MOR_MOSCXTST (c : Chip) (value : Nat) : Nat :=
  c.CKGR_MOR_MOSCXTST_Msk &&& shl32 value c.CKGR_MOR_MOSCXTST_Pos

/-- The busy-wait `while ((PMC->CKGR_MOR & CKGR_MOR_MOSCSEL) != CKGR_MOR_MOSCSEL);`
of line 406. `CKGR_MOR` holds the last value written, so an iteration that does
not leave the loop is followed by an identical one. -/
def wait_moscsel (c : Chip) : Nat → State → Outcome Unit
  | 0, _ => .spinning
  | fuel + 1, st =>
    if st.CKGR_MOR &&& c.CKGR_MOR_MOSCSEL ≠ c.CKGR_MOR_MOSCSEL then wait_moscsel c fuel st
    else .ret () st

/-- Function `pmc_select_external_osc` (lines 389-411). -/
def pmc_select_external_osc (c : Chip) (fuel : Nat) (st : State) : Outcome Unit :=
  if st.CKGR_MOR &&& c.CKGR_MOR_MOSCSEL = c.CKGR_MOR_MOSCSEL then .ret () st
  else
    let st := { st with
      CKGR_MOR := st.CKGR_MOR |||
        (shl32 1 5 ||| CKGR_MOR_MOSCXTST c 18 ||| c.CKGR_MOR_MOSCXTEN |||
          c.CKGR_MOR_KEY_PASSWD) }
    (wait_sr c.PMC_SR_MOSCXTS fuel st).bind fun _ st =>
      let st := { st with
        CKGR_MOR := st.CKGR_MOR ||| (c.CKGR_MOR_MOSCSEL ||| c.CKGR_MOR_KEY_PASSWD) }
      (wait_moscsel c fuel st).bind fun _ st =>
        wait_sr c.PMC_SR_MOSCSELS fuel st

/-- Function `pmc_select_internal_osc` (lines 413-428). -/
def pmc_select_internal_osc (c : Chip) (fuel : Nat) (st : State) : Outcome Unit :=
  (wait_sr c.PMC_SR_MOSCRCS fuel st).bind fun _ st =>
    let st := { st with
      CKGR_MOR := (st.CKGR_MOR &&& not32 c.CKGR_MOR_MOSCSEL) ||| c.CKGR_MOR_KEY_PASSWD }
    (wait_sr c.PMC_SR_MCKRDY fuel st).bind fun _ st =>
      let st := { st with
        CKGR_MOR := (st.CKGR_MOR &&& not32 c.CKGR_MOR_MOSCXTEN) ||| c.CKGR_MOR_KEY_PASSWD }
      wait_sr c.PMC_SR_MCKRDY fuel st

/-! ## Programmable clock configuration (lines 590-657) -/

/-- Modelled from the spec: the macro `PMC_PCK_PRES(value)` of `chip.h`, which
places a prescaler in the PRES field of a `PMC_PCK` word. -/
def PMC_PCK_PRES (c : Chip) (value : Nat) : Nat :=
  c.PMC_PCK_PRES_Msk &&& shl32 value c.PMC_PCK_PRES_Pos

/-- The busy-wait `while (PMC->PMC_SCSR & bit);`. Every iteration reads the
status register `PMC_SCSR` once; `fuel` bounds the number of iterations. -/
def wait_scsr_clear (bit : Nat) : Nat → State → Outcome Unit
  | 0, _ => .spinning
  | fuel + 1, st =>
    let scsr := st.PMC_SCSR st.polls
    let st := { st with polls := st.polls + 1 }
    if scsr &&& bit ≠ 0 then wait_scsr_clear bit fuel st else .ret () st

/-- Function `pmc_disable_pck0` (lines 602-606). -/
def pmc_disable_pck0 (c : Chip) (fuel : Nat) (st : State) : Outcome Unit :=
  wait_scsr_clear c.PMC_SCSR_PCK0 fuel { st with PMC_SCDR := c.PMC_SCDR_PCK0 }

/-- Function `pmc_disable_pck1` (lines 625-629). -/
def pmc_disable_pck1 (c : Chip) (fuel : Nat) (st : State) : Outcome Unit :=
  wait_scsr_clear c.PMC_SCSR_PCK1 fuel { st with PMC_SCDR := c.PMC_SCDR_PCK1 }

/-- Function `pmc_disable_pck2` (lines 648-652). -/
def pmc_disable_pck2 (c : Chip) (fuel : Nat) (st : State) : Outcome Unit :=
  wait_scsr_clear c.PMC_SCSR_PCK2 fuel { st with PMC_SCDR := c.PMC_SCDR_PCK2 }

/-- Function `pmc_configure_pck0` (lines 590-594). -/
def pmc_configure_pck0 (c : Chip) (fuel : Nat) (clock_source prescaler : Nat) (st : State) :
    Outcome Unit :=
  (pmc_disable_pck0 c fuel st).bind fun _ st =>
    .ret () { st with
      PMC_PCK := Function.update st.PMC_PCK 0
        ((clock_source &&& c.PMC_PCK_CSS_Msk) ||| PMC_PCK_PRES c prescaler) }

/-- Function `pmc_configure_pck1` (lines 613-617). -/
def pmc_configure_pck1 (c : Chip) (fuel : Nat) (clock_source prescaler : Nat) (st : State) :
    Outcome Unit :=
  (pmc_disable_pck1 c fuel st).bind fun _ st =>
    .ret () { st with
      PMC_PCK := Function.update st.PMC_PCK 1
        ((clock_source &&& c.PMC_PCK_CSS_Msk) ||| PMC_PCK_PRES c prescaler) }

/-- Function `pmc_configure_pck2` (lines 636-640). -/
def pmc_configure_pck2 (c : Chip) (fuel : Nat) (clock_source prescaler : Nat) (st : State) :
    Outcome Unit :=
  (pmc_disable_pck2 c fuel st).bind fun _ st =>
    .ret () { st with
      PMC_PCK := Function.update st.PMC_PCK 2
        ((clock_source &&& c.PMC_PCK_CSS_Msk) ||| PMC_PCK_PRES c prescaler) }

/-! ## A concrete chip and concrete states -/

/-- Modelled from the spec: `chip.h` and `board.h` are not among the sources, so
this instance fixes one concrete assignment of their constants: a register
layout in the style of the SAMA5D2, with 12 MHz main and 32.768 kHz slow
crystals. It is used only to evaluate the driver on concrete inputs. -/
def sama5d2 : Chip where
  PMC_MCKR_CSS_Msk := 0x3
  PMC_MCKR_CSS_Pos := 0
  PMC_MCKR_CSS_SLOW_CLK := 0x0
  PMC_MCKR_CSS_MAIN_CLK := 0x1
  PMC_MCKR_CSS_PLLA_CLK := 0x2
  PMC_MCKR_CSS_UPLL_CLK := 0x3
  PMC_MCKR_PRES_Msk := 0x70
  PMC_MCKR_PRES_CLOCK := 0x00
  PMC_MCKR_PRES_CLOCK_DIV2 := 0x10
  PMC_MCKR_PRES_CLOCK_DIV4 := 0x20
  PMC_MCKR_PRES_CLOCK_DIV8 := 0x30
  PMC_MCKR_PRES_CLOCK_DIV16 := 0x40
  PMC_MCKR_PRES_CLOCK_DIV32 := 0x50
  PMC_MCKR_PRES_CLOCK_DIV64 := 0x60
  PMC_MCKR_MDIV_Msk := 0x300
  PMC_MCKR_MDIV_EQ_PCK := 0x000
  PMC_MCKR_MDIV_PCK_DIV2 := 0x100
  PMC_MCKR_MDIV_PCK_DIV4 := 0x200
  PMC_MCKR_MDIV_PCK_DIV3 := 0x300
  PMC_MCKR_PLLADIV2 := 0x1000
  PMC_MCKR_H32MXDIV := 0x1000000
  PMC_PCK_CSS_Msk := 0x7
  PMC_PCK_CSS_SLOW_CLK := 0x0
  PMC_PCK_CSS_MAIN_CLK := 0x1
  PMC_PCK_CSS_PLLA_CLK := 0x2
  PMC_PCK_CSS_UPLL_CLK := 0x3
  PMC_PCK_CSS_MCK_CLK := 0x4
  PMC_PCK_PRES_Msk := 0xFF0
  PMC_PCK_PRES_Pos := 4
  SCKC_CR_OSCSEL := 0x8
  SCKC_CR_OSCSEL_RC := 0x0
  SCKC_CR_OSCSEL_XTAL := 0x8
  CKGR_MOR_MOSCSEL := 0x1000000
  CKGR_MOR_MOSCXTEN := 0x1
  CKGR_MOR_KEY_PASSWD := 0x370000
  CKGR_MOR_MOSCXTST_Msk := 0xFF00
  CKGR_MOR_MOSCXTST_Pos := 8
  CKGR_PLLAR_MULA_Msk := 0x1FC0000
  CKGR_PLLAR_MULA_Pos := 18
  CKGR_PLLAR_DIVA_Msk := 0xFF
  CKGR_PLLAR_DIVA_Pos := 0
  CKGR_PLLAR_DIVA_0 := 0x0
  PMC_SR_MOSCXTS := 0x1
  PMC_SR_MOSCSELS := 0x10000
  PMC_SR_MOSCRCS := 0x20000
  PMC_SR_MCKRDY := 0x8
  PMC_SR_LOCKA := 0x2
  PMC_SR_PCKRDY0 := 0x100
  PMC_SR_PCKRDY1 := 0x200
  PMC_SR_PCKRDY2 := 0x400
  PMC_SR_GCKRDY := 0x1000000
  PMC_SCER_PCK0 := 0x100
  PMC_SCER_PCK1 := 0x200
  PMC_SCER_PCK2 := 0x400
  PMC_SCDR_PCK0 := 0x100
  PMC_SCDR_PCK1 := 0x200
  PMC_SCDR_PCK2 := 0x400
  PMC_SCSR_PCK0 := 0x100
  PMC_SCSR_PCK1 := 0x200
  PMC_SCSR_PCK2 := 0x400
  PMC_PCR_PID_Msk := 0x7F
  PMC_PCR_PID_Pos := 0
  PMC_PCR_CMD := 0x1000
  PMC_PCR_EN := 0x10000000
  PMC_PCR_GCKEN := 0x20000000
  PMC_PCR_GCKCSS_Msk := 0x700
  PMC_PCR_GCKCSS_SLOW_CLK := 0x000
  PMC_PCR_GCKCSS_MAIN_CLK := 0x100
  PMC_PCR_GCKCSS_PLLA_CLK := 0x200
  PMC_PCR_GCKCSS_UPLL_CLK := 0x300
  PMC_PCR_GCKCSS_MCK_CLK := 0x400
  PMC_PCR_GCKDIV_Msk := 0xFF00000
  PMC_PCR_GCKDIV_Pos := 20
  ID_PERIPH_COUNT := 79
  BOARD_MAIN_CLOCK_EXT_OSC := 12000000
  MAIN_CLOCK_INT_OSC := 12000000
  BOARD_SLOW_CLOCK_EXT_OSC := 32768
  SLOW_CLOCK_INT_OSC := 32000
  CONFIG_HAVE_PMC_AUDIO_CLOCK := true
  PMC_PCK_CSS_AUDIO_CLK := 0x5
  PMC_PCR_GCKCSS_AUDIO_CLK := 0x500

/-- A machine whose registers and cached master clock are all zero and whose
status registers read as `sr` at every poll. -/
def State.quiet (sr : Nat) : State where
  _pmc_mck := 0
  PMC_MCKR := 0
  CKGR_MOR := 0
  CKGR_PLLAR := 0
  PMC_PLLICPR := 0
  SCKC_CR := 0
  PMC_PCK := fun _ => 0
  PMC_SCER := 0
  PMC_SCDR := 0
  pcr_sel := 0
  pcr_ctl := fun _ => 0
  PMC_SR := fun _ => sr
  PMC_SCSR := fun _ => sr
  polls := 0

/-! ## Case labels

The case labels of one C `switch` are pairwise distinct constants (the program
would not compile otherwise). -/

/-- Case labels of the prescaler `switch` (lines 111-135). -/
def Chip.pres_labels (c : Chip) : List Nat :=
  [c.PMC_MCKR_PRES_CLOCK, c.PMC_MCKR_PRES_CLOCK_DIV2, c.PMC_MCKR_PRES_CLOCK_DIV4,
   c.PMC_MCKR_PRES_CLOCK_DIV8, c.PMC_MCKR_PRES_CLOCK_DIV16, c.PMC_MCKR_PRES_CLOCK_DIV32,
   c.PMC_MCKR_PRES_CLOCK_DIV64]

/-- Case labels of the two MDIV `switch`es (lines 138-153 and 326-341). -/
def Chip.mdiv_labels (c : Chip) : List Nat :=
  [c.PMC_MCKR_MDIV_EQ_PCK, c.PMC_MCKR_MDIV_PCK_DIV2, c.PMC_MCKR_MDIV_PCK_DIV4,
   c.PMC_MCKR_MDIV_PCK_DIV3]

/-- Case labels of the source `switch` (lines 92-108). -/
def Chip.css_labels (c : Chip) : List Nat :=
  [c.PMC_MCKR_CSS_SLOW_CLK, c.PMC_MCKR_CSS_MAIN_CLK, c.PMC_MCKR_CSS_PLLA_CLK,
   c.PMC_MCKR_CSS_UPLL_CLK]

/-- Case labels of the source `switch` of `_pmc_get_pck_clock` (lines 163-186);
the audio label counts only under `CONFIG_HAVE_PMC_AUDIO_CLOCK`. -/
def Chip.pck_css_labels (c : Chip) : List Nat :=
  [c.PMC_PCK_CSS_SLOW_CLK, c.PMC_PCK_CSS_MAIN_CLK, c.PMC_PCK_CSS_PLLA_CLK,
   c.PMC_PCK_CSS_UPLL_CLK, c.PMC_PCK_CSS_MCK_CLK] ++
    (if c.CONFIG_HAVE_PMC_AUDIO_CLOCK = true then [c.PMC_PCK_CSS_AUDIO_CLK] else [])

/-- Case labels of the source `switch` of `pmc_get_gck_clock` (lines 721-744);
the audio label counts only under `CONFIG_HAVE_PMC_AUDIO_CLOCK`. -/
def Chip.gck_css_labels (c : Chip) : List Nat :=
  [c.PMC_PCR_GCKCSS_SLOW_CLK, c.PMC_PCR_GCKCSS_MAIN_CLK, c.PMC_PCR_GCKCSS_PLLA_CLK,
   c.PMC_PCR_GCKCSS_UPLL_CLK, c.PMC_PCR_GCKCSS_MCK_CLK] ++
    (if c.CONFIG_HAVE_PMC_AUDIO_CLOCK = true then [c.PMC_PCR_GCKCSS_AUDIO_CLK] else [])

/-- Everything but the cached master clock `_pmc_mck` and the `PMC_PCR`
selection: the clock configuration registers, the stored control words, the
status streams and the poll counter agree. -/
def State.same_config (s t : State) : Prop :=
  s.PMC_MCKR = t.PMC_MCKR ∧ s.CKGR_MOR = t.CKGR_MOR ∧ s.CKGR_PLLAR = t.CKGR_PLLAR ∧
  s.PMC_PLLICPR = t.PMC_PLLICPR ∧ s.SCKC_CR = t.SCKC_CR ∧ s.PMC_PCK = t.PMC_PCK ∧
  s.PMC_SCER = t.PMC_SCER ∧ s.PMC_SCDR = t.PMC_SCDR ∧ s.pcr_ctl = t.pcr_ctl ∧
  s.PMC_SR = t.PMC_SR ∧ s.PMC_SCSR = t.PMC_SCSR ∧ s.polls = t.polls

/-- The hardware registers agree: `same_config` and the same `PMC_PCR`
selection. Only the driver's variable `_pmc_mck` may differ. -/
def State.same_regs (s t : State) : Prop :=
  s.same_config t ∧ s.pcr_sel = t.pcr_sel

/-! ## Theorems -/

/-- Division `div32` by a non-zero divisor is ordinary truncating division. -/
theorem div32_of_ne_zero (x y : Nat) (h : y ≠ 0) : div32 x y = some (x / y) := by
  simp [div32, h]

/-- Function `pmc_get_plla_clock` never divides by zero: it always has a value. -/
theorem pmc_get_plla_clock_isSome (c : Chip) (st : State) :
    ∃ v, pmc_get_plla_clock c st = some v := by
  unfold pmc_get_plla_clock
  by_cases h : (st.CKGR_PLLAR &&& c.CKGR_PLLAR_DIVA_Msk) >>> c.CKGR_PLLAR_DIVA_Pos = 0
  · exact ⟨0, by simp [h]⟩
  · simp [h, div32]

/-- The source `switch` always yields a frequency. -/
theorem mck_css_clk_isSome (c : Chip) (st : State) : ∃ v, mck_css_clk c st = some v := by
  unfold mck_css_clk
  obtain ⟨v, hv⟩ := pmc_get_plla_clock_isSome c st
  simp only [hv]
  split_ifs <;> exact ⟨_, rfl⟩

/-- The MDIV `switch` always yields a frequency. -/
theorem mck_mdiv_clk_isSome (c : Chip) (mckr clk : Nat) :
    ∃ v, mck_mdiv_clk c mckr clk = some v := by
  unfold mck_mdiv_clk
  simp only [div32_of_ne_zero clk 3 (by decide)]
  split_ifs <;> exact ⟨_, rfl⟩

/-- The master-clock computation always yields a frequency. -/
theorem mck_value_isSome (c : Chip) (st : State) : ∃ v, mck_value c st = some v := by
  obtain ⟨f, hf⟩ := mck_css_clk_isSome c st
  obtain ⟨v, hv⟩ := mck_mdiv_clk_isSome c st.PMC_MCKR (mck_pres_clk c st.PMC_MCKR f)
  exact ⟨v, by simp [mck_value, mck_prescaled, hf, hv]⟩

/-- With the cache unset, `pmc_get_master_clock` computes, stores and returns
the value read from the registers. -/
theorem pmc_get_master_clock_fresh (c : Chip) (st : State) (v : Nat)
    (hcache : st._pmc_mck = 0) (hv : mck_value c st = some v) :
    pmc_get_master_clock c st = .ret v { st with _pmc_mck := v } := by
  simp [pmc_get_master_clock, _pmc_compute_mck, hcache, hv, Outcome.bind]

/-- With the cache set, `pmc_get_master_clock` returns the cached value. -/
theorem pmc_get_master_clock_cached (c : Chip) (st : State)
    (hcache : st._pmc_mck ≠ 0) :
    pmc_get_master_clock c st = .ret st._pmc_mck st := by
  simp [pmc_get_master_clock, hcache, Outcome.bind]

/-- C1. With the cache unset and the divider code x1 (`MDIV_EQ_PCK`),
`pmc_get_master_clock` returns the source frequency `F` shifted right by
0, 1, 2, 3, 4, 5, 6 for the prescaler codes CLOCK, DIV2, DIV4, DIV8, DIV16,
DIV32, DIV64 respectively (and leaves that value in the cache). -/
theorem master_clock_prescaler_shift (c : Chip) (st : State) (F : Nat)
    (hlabels : c.pres_labels.Nodup)
    (hcache : st._pmc_mck = 0)
    (hsrc : mck_css_clk c st = some F)
    (hmdiv : st.PMC_MCKR &&& c.PMC_MCKR_MDIV_Msk = c.PMC_MCKR_MDIV_EQ_PCK) :
    (st.PMC_MCKR &&& c.PMC_MCKR_PRES_Msk = c.PMC_MCKR_PRES_CLOCK →
      pmc_get_master_clock c st = .ret F { st with _pmc_mck := F }) ∧
    (st.PMC_MCKR &&& c.PMC_MCKR_PRES_Msk = c.PMC_MCKR_PRES_CLOCK_DIV2 →
      pmc_get_master_clock c st = .ret (F >>> 1) { st with _pmc_mck := F >>> 1 }) ∧
    (st.PMC_MCKR &&& c.PMC_MCKR_PRES_Msk = c.PMC_MCKR_PRES_CLOCK_DIV4 →
      pmc_get_master_clock c st = .ret (F >>> 2) { st with _pmc_mck := F >>> 2 }) ∧
    (st.PMC_MCKR &&& c.PMC_MCKR_PRES_Msk = c.PMC_MCKR_PRES_CLOCK_DIV8 →
      pmc_get_master_clock c st = .ret (F >>> 3) { st with _pmc_mck := F >>> 3 }) ∧
    (st.PMC_MCKR &&& c.PMC_MCKR_PRES_Msk = c.PMC_MCKR_PRES_CLOCK_DIV16 →
      pmc_get_master_clock c st = .ret (F >>> 4) { st with _pmc_mck := F >>> 4 }) ∧
    (st.PMC_MCKR &&& c.PMC_MCKR_PRES_Msk = c.PMC_MCKR_PRES_CLOCK_DIV32 →
      pmc_get_master_clock c st = .ret (F >>> 5) { st with _pmc_mck := F >>> 5 }) ∧
    (st.PMC_MCKR &&& c.PMC_MCKR_PRES_Msk = c.PMC_MCKR_PRES_CLOCK_DIV64 →
      pmc_get_master_clock c st = .ret (F >>> 6) { st with _pmc_mck := F >>> 6 }) := by
  simp only [Chip.pres_labels, List.nodup_cons, List.mem_cons, List.mem_singleton,
    not_or, List.not_mem_nil, not_false_eq_true, List.nodup_nil, and_true] at hlabels
  obtain ⟨⟨h01, h02, h03, h04, h05, h06⟩, ⟨h12, h13, h14, h15, h16⟩, ⟨h23, h24, h25, h26⟩,
    ⟨h34, h35, h36⟩, ⟨h45, h46⟩, h56⟩ := hlabels
  refine ⟨?_, ?_, ?_, ?_, ?_, ?_, ?_⟩ <;> intro hp <;>
    apply pmc_get_master_clock_fresh c st _ hcache <;>
    simp [mck_value, mck_prescaled, hsrc, mck_mdiv_clk, hmdiv, mck_pres_clk, hp,
      Ne.symm h01, Ne.symm h02, Ne.symm h03, Ne.symm h04, Ne.symm h05, Ne.symm h06,
      Ne.symm h12, Ne.symm h13, Ne.symm h14, Ne.symm h15, Ne.symm h16, Ne.symm h23,
      Ne.symm h24, Ne.symm h25, Ne.symm h26, Ne.symm h34, Ne.symm h35, Ne.symm h36,
      Ne.symm h45, Ne.symm h46, Ne.symm h56]

/-- C1 at a concrete input: 12 MHz source, prescaler code DIV4, divider x1. -/
theorem master_clock_prescaler_shift_witness :
    pmc_get_master_clock sama5d2 { State.quiet 0 with PMC_MCKR := 0x23 } =
      .ret (12000000 >>> 2) { State.quiet 0 with PMC_MCKR := 0x23, _pmc_mck := 12000000 >>> 2 } :=
  (master_clock_prescaler_shift sama5d2 { State.quiet 0 with PMC_MCKR := 0x23 } 12000000
    (by decide) rfl rfl (by decide)).2.2.1 (by decide)

/-- C2. With the cache unset and prescaled frequency `P`, the MDIV step makes
`pmc_get_master_clock` return `P` for code x1, `P >> 1` for code /2, `P >> 2`
for code /4 and the truncated quotient `P / 3` for code /3; a prescaled
frequency of 100 with code /3 gives 33. -/
theorem master_clock_mdiv_step (c : Chip) (st : State) (P : Nat)
    (hlabels : c.mdiv_labels.Nodup)
    (hcache : st._pmc_mck = 0)
    (hP : mck_prescaled c st = some P) :
    (st.PMC_MCKR &&& c.PMC_MCKR_MDIV_Msk = c.PMC_MCKR_MDIV_EQ_PCK →
      pmc_get_master_clock c st = .ret P { st with _pmc_mck := P }) ∧
    (st.PMC_MCKR &&& c.PMC_MCKR_MDIV_Msk = c.PMC_MCKR_MDIV_PCK_DIV2 →
      pmc_get_master_clock c st = .ret (P >>> 1) { st with _pmc_mck := P >>> 1 }) ∧
    (st.PMC_MCKR &&& c.PMC_MCKR_MDIV_Msk = c.PMC_MCKR_MDIV_PCK_DIV4 →
      pmc_get_master_clock c st = .ret (P >>> 2) { st with _pmc_mck := P >>> 2 }) ∧
    (st.PMC_MCKR &&& c.PMC_MCKR_MDIV_Msk = c.PMC_MCKR_MDIV_PCK_DIV3 →
      pmc_get_master_clock c st = .ret (P / 3) { st with _pmc_mck := P / 3 }) ∧
    (st.PMC_MCKR &&& c.PMC_MCKR_MDIV_Msk = c.PMC_MCKR_MDIV_PCK_DIV3 →
      mck_mdiv_clk c st.PMC_MCKR 100 = some 33) := by
  simp only [Chip.mdiv_labels, List.nodup_cons, List.mem_cons, List.mem_singleton,
    not_or, List.not_mem_nil, not_false_eq_true, List.nodup_nil, and_true] at hlabels
  obtain ⟨⟨h01, h02, h03⟩, ⟨h12, h13⟩, h23⟩ := hlabels
  refine ⟨?_, ?_, ?_, ?_, ?_⟩ <;> intro hm
  · exact pmc_get_master_clock_fresh c st _ hcache (by simp [mck_value, hP, mck_mdiv_clk, hm])
  · exact pmc_get_master_clock_fresh c st _ hcache
      (by simp [mck_value, hP, mck_mdiv_clk, hm, Ne.symm h01])
  · exact pmc_get_master_clock_fresh c st _ hcache
      (by simp [mck_value, hP, mck_mdiv_clk, hm, Ne.symm h02, Ne.symm h12])
  · exact pmc_get_master_clock_fresh c st _ hcache
      (by simp [mck_value, hP, mck_mdiv_clk, hm, Ne.symm h03, Ne.symm h13, Ne.symm h23, div32])
  · simp [mck_mdiv_clk, hm, Ne.symm h03, Ne.symm h13, Ne.symm h23, div32]

/-- C2 at a concrete input: a 100 Hz source, prescaler code CLOCK, divider
code /3, gives 33. -/
theorem master_clock_mdiv_step_witness :
    pmc_get_master_clock { sama5d2 with BOARD_MAIN_CLOCK_EXT_OSC := 100 }
        { State.quiet 0 with PMC_MCKR := 0x303 } =
      .ret 33 { State.quiet 0 with PMC_MCKR := 0x303, _pmc_mck := 33 } :=
  (master_clock_mdiv_step { sama5d2 with BOARD_MAIN_CLOCK_EXT_OSC := 100 }
    { State.quiet 0 with PMC_MCKR := 0x303 } 100 (by decide) rfl rfl).2.2.2.1 (by decide)

/-! ### The busy-wait loop -/

/-- A finished busy-wait has only advanced the poll counter, and its last poll
saw the awaited bit. -/
theorem wait_sr_ret (bit : Nat) :
    ∀ (fuel : Nat) (st st' : State), wait_sr bit fuel st = .ret () st' →
      st' = { st with polls := st'.polls } ∧ st.polls < st'.polls ∧
        st.PMC_SR (st'.polls - 1) &&& bit ≠ 0 := by
  intro fuel
  induction fuel with
  | zero => intro st st' h; simp [wait_sr] at h
  | succ k ih =>
    intro st st' h
    by_cases hb : st.PMC_SR st.polls &&& bit = 0
    · simp only [wait_sr, hb, ne_eq, not_true_eq_false, if_false] at h
      obtain ⟨h1, h2, h3⟩ := ih _ _ h
      refine ⟨?_, ?_, ?_⟩
      · rw [h1]
      · simp only at h2; omega
      · simpa using h3
    · simp only [wait_sr, ne_eq, hb, not_false_eq_true, if_true, Outcome.ret.injEq,
        true_and] at h
      subst h
      exact ⟨rfl, by simp, by simpa using hb⟩

/-- The busy-wait finishes once the hardware shows the awaited bit. -/
theorem wait_sr_ready (bit : Nat) :
    ∀ (d : Nat) (st : State), st.PMC_SR (st.polls + d) &&& bit ≠ 0 →
      ∃ fuel st', wait_sr bit fuel st = .ret () st' := by
  intro d
  induction d with
  | zero =>
    intro st h
    exact ⟨1, { st with polls := st.polls + 1 }, by simpa [wait_sr] using h⟩
  | succ k ih =>
    intro st h
    by_cases hb : st.PMC_SR st.polls &&& bit = 0
    · obtain ⟨fuel, st', hw⟩ := ih { st with polls := st.polls + 1 }
        (by simpa [Nat.add_assoc, Nat.add_comm 1 k] using h)
      exact ⟨fuel + 1, st', by simpa [wait_sr, hb] using hw⟩
    · exact ⟨1, { st with polls := st.polls + 1 }, by simp [wait_sr, hb]⟩

/-- The state a busy-wait returns does not depend on the fuel. -/
theorem wait_sr_det (bit : Nat) :
    ∀ (f1 f2 : Nat) (st s1 s2 : State), wait_sr bit f1 st = .ret () s1 →
      wait_sr bit f2 st = .ret () s2 → s1 = s2 := by
  intro f1
  induction f1 with
  | zero => intro f2 st s1 s2 h; simp [wait_sr] at h
  | succ k ih =>
    intro f2 st s1 s2 h1 h2
    cases f2 with
    | zero => simp [wait_sr] at h2
    | succ j =>
      by_cases hb : st.PMC_SR st.polls &&& bit = 0
      · simp only [wait_sr, hb, ne_eq, not_true_eq_false, if_false] at h1 h2
        exact ih _ _ _ _ h1 h2
      · simp only [wait_sr, ne_eq, hb, not_false_eq_true, if_true, Outcome.ret.injEq,
          true_and] at h1 h2
        rw [← h1, ← h2]

/-! ### Register fields -/

/-- Bit `i` of the 32-bit complement. -/
theorem testBit_not32 (x i : Nat) :
    (not32 x).testBit i = (decide (i < 32) && !x.testBit i) := by
  have h : (0xFFFFFFFF : Nat) = 2 ^ 32 - 1 := by norm_num
  unfold not32
  rw [h, Nat.testBit_xor, Nat.testBit_two_pow_sub_one, Nat.testBit_mod_two_pow]
  by_cases hi : i < 32 <;> simp [hi]

/-- Reading back a field that was just replaced: clearing the field `m` of `a`
and or-ing `k` in leaves, under the mask `m`, the bits of `k`. -/
theorem field_replace_read (a m k : Nat) : ((a &&& not32 m) ||| k) &&& m = k &&& m := by
  apply Nat.eq_of_testBit_eq
  intro i
  simp only [Nat.testBit_and, Nat.testBit_or, testBit_not32]
  cases a.testBit i <;> cases m.testBit i <;> cases k.testBit i <;> simp

/-- The common body of the three `pmc_switch_mck_to_*` functions: write the
CSS field, wait for `MCKRDY`, clear the cache. -/
theorem switch_mck_ret (c : Chip) (code fuel : Nat) (st st' : State)
    (h : (wait_sr c.PMC_SR_MCKRDY fuel { st with
            PMC_MCKR := (st.PMC_MCKR &&& not32 c.PMC_MCKR_CSS_Msk) ||| code }).bind
          (fun _ st => Outcome.ret () { st with _pmc_mck := 0 }) = .ret () st') :
    st' = { st with
      PMC_MCKR := (st.PMC_MCKR &&& not32 c.PMC_MCKR_CSS_Msk) ||| code,
      polls := st'.polls, _pmc_mck := 0 } := by
  cases hw : wait_sr c.PMC_SR_MCKRDY fuel { st with
      PMC_MCKR := (st.PMC_MCKR &&& not32 c.PMC_MCKR_CSS_Msk) ||| code } with
  | ret v s =>
    rw [hw] at h
    simp only [Outcome.bind, Outcome.ret.injEq, true_and] at h
    obtain ⟨h1, -, -⟩ := wait_sr_ret _ _ _ _ hw
    rw [← h, h1]
  | assert_failed s => rw [hw] at h; simp [Outcome.bind] at h
  | div_by_zero => rw [hw] at h; simp [Outcome.bind] at h
  | spinning => rw [hw] at h; simp [Outcome.bind] at h

/-- The common body of the three `pmc_switch_mck_to_*` functions returns once
the hardware shows `MCKRDY`. -/
theorem switch_mck_returns (c : Chip) (code n : Nat) (st : State)
    (hn : st.polls ≤ n) (hrdy : st.PMC_SR n &&& c.PMC_SR_MCKRDY ≠ 0) :
    ∃ fuel st', (wait_sr c.PMC_SR_MCKRDY fuel { st with
            PMC_MCKR := (st.PMC_MCKR &&& not32 c.PMC_MCKR_CSS_Msk) ||| code }).bind
          (fun _ st => Outcome.ret () { st with _pmc_mck := 0 }) = .ret () st' := by
  obtain ⟨fuel, s, hw⟩ := wait_sr_ready c.PMC_SR_MCKRDY (n - st.polls)
    { st with PMC_MCKR := (st.PMC_MCKR &&& not32 c.PMC_MCKR_CSS_Msk) ||| code }
    (by simpa [Nat.add_sub_cancel' hn] using hrdy)
  exact ⟨fuel, { s with _pmc_mck := 0 }, by simp [hw, Outcome.bind]⟩

/-- After a switch the cache is unset, so the next `pmc_get_master_clock`
recomputes from the registers. -/
theorem master_clock_after_invalidate (c : Chip) (st' : State) (h : st'._pmc_mck = 0) :
    ∃ v, mck_value c st' = some v ∧
      pmc_get_master_clock c st' = .ret v { st' with _pmc_mck := v } := by
  obtain ⟨v, hv⟩ := mck_value_isSome c st'
  exact ⟨v, hv, pmc_get_master_clock_fresh c st' v h hv⟩

/-- The master-clock computation reads four registers and nothing else; in
particular it does not read the cache. -/
theorem mck_value_congr (c : Chip) (s1 s2 : State)
    (h1 : s1.PMC_MCKR = s2.PMC_MCKR) (h2 : s1.CKGR_MOR = s2.CKGR_MOR)
    (h3 : s1.CKGR_PLLAR = s2.CKGR_PLLAR) (h4 : s1.SCKC_CR = s2.SCKC_CR) :
    mck_value c s1 = mck_value c s2 := by
  simp [mck_value, mck_prescaled, mck_css_clk, pmc_get_slow_clock, pmc_get_main_clock,
    pmc_get_plla_clock, h1, h2, h3, h4]

/-- C3. Each of `pmc_switch_mck_to_pll`, `pmc_switch_mck_to_main` and
`pmc_switch_mck_to_slck` returns once the hardware shows `MCKRDY`; whenever it
returns, whatever was cached before, the state differs from the one on entry
only in the CSS field of `PMC_MCKR`, the poll counter and the cache, the cache
is 0, and the next `pmc_get_master_clock` returns the frequency computed from
the registers as they now are, with the new source (PLL-A, main, slow). -/
theorem switch_mck_invalidates_cache (c : Chip) (st : State) (n : Nat)
    (hlabels : c.css_labels.Nodup)
    (hpll : c.PMC_MCKR_CSS_PLLA_CLK &&& c.PMC_MCKR_CSS_Msk = c.PMC_MCKR_CSS_PLLA_CLK)
    (hmain : c.PMC_PCK_CSS_MAIN_CLK &&& c.PMC_MCKR_CSS_Msk = c.PMC_MCKR_CSS_MAIN_CLK)
    (hslow : c.PMC_PCK_CSS_SLOW_CLK &&& c.PMC_MCKR_CSS_Msk = c.PMC_MCKR_CSS_SLOW_CLK)
    (hn : st.polls ≤ n) (hrdy : st.PMC_SR n &&& c.PMC_SR_MCKRDY ≠ 0) :
    ((∃ fuel st', pmc_switch_mck_to_pll c fuel st = .ret () st') ∧
      ∀ fuel st', pmc_switch_mck_to_pll c fuel st = .ret () st' →
        st' = { st with
          PMC_MCKR := (st.PMC_MCKR &&& not32 c.PMC_MCKR_CSS_Msk) ||| c.PMC_MCKR_CSS_PLLA_CLK,
          polls := st'.polls, _pmc_mck := 0 } ∧
        st'._pmc_mck = 0 ∧
        mck_css_clk c st' = pmc_get_plla_clock c st' ∧
        ∃ v, mck_value c st' = some v ∧
          pmc_get_master_clock c st' = .ret v { st' with _pmc_mck := v }) ∧
    ((∃ fuel st', pmc_switch_mck_to_main c fuel st = .ret () st') ∧
      ∀ fuel st', pmc_switch_mck_to_main c fuel st = .ret () st' →
        st' = { st with
          PMC_MCKR := (st.PMC_MCKR &&& not32 c.PMC_MCKR_CSS_Msk) ||| c.PMC_PCK_CSS_MAIN_CLK,
          polls := st'.polls, _pmc_mck := 0 } ∧
        st'._pmc_mck = 0 ∧
        mck_css_clk c st' = some (pmc_get_main_clock c st') ∧
        ∃ v, mck_value c st' = some v ∧
          pmc_get_master_clock c st' = .ret v { st' with _pmc_mck := v }) ∧
    ((∃ fuel st', pmc_switch_mck_to_slck c fuel st = .ret () st') ∧
      ∀ fuel st', pmc_switch_mck_to_slck c fuel st = .ret () st' →
        st' = { st with
          PMC_MCKR := (st.PMC_MCKR &&& not32 c.PMC_MCKR_CSS_Msk) ||| c.PMC_PCK_CSS_SLOW_CLK,
          polls := st'.polls, _pmc_mck := 0 } ∧
        st'._pmc_mck = 0 ∧
        mck_css_clk c st' = some (pmc_get_slow_clock c st') ∧
        ∃ v, mck_value c st' = some v ∧
          pmc_get_master_clock c st' = .ret v { st' with _pmc_mck := v }) := by
  simp only [Chip.css_labels, List.nodup_cons, List.mem_cons, List.mem_singleton,
    not_or, List.not_mem_nil, not_false_eq_true, List.nodup_nil, and_true] at hlabels
  obtain ⟨⟨h01, h02, h03⟩, ⟨h12, h13⟩, h23⟩ := hlabels
  refine ⟨⟨switch_mck_returns c _ n st hn hrdy, ?_⟩, ⟨switch_mck_returns c _ n st hn hrdy, ?_⟩,
    ⟨switch_mck_returns c _ n st hn hrdy, ?_⟩⟩
  · intro fuel st' h
    have hst := switch_mck_ret c _ fuel st st' h
    have hc : st'._pmc_mck = 0 := by rw [hst]
    have hm : st'.PMC_MCKR &&& c.PMC_MCKR_CSS_Msk = c.PMC_MCKR_CSS_PLLA_CLK := by
      rw [hst]; simp only; rw [field_replace_read, hpll]
    refine ⟨hst, hc, ?_, master_clock_after_invalidate c st' hc⟩
    simp [mck_css_clk, hm, Ne.symm h02, Ne.symm h12]
  · intro fuel st' h
    have hst := switch_mck_ret c _ fuel st st' h
    have hc : st'._pmc_mck = 0 := by rw [hst]
    have hm : st'.PMC_MCKR &&& c.PMC_MCKR_CSS_Msk = c.PMC_MCKR_CSS_MAIN_CLK := by
      rw [hst]; simp only; rw [field_replace_read, hmain]
    refine ⟨hst, hc, ?_, master_clock_after_invalidate c st' hc⟩
    simp [mck_css_clk, hm, Ne.symm h01]
  · intro fuel st' h
    have hst := switch_mck_ret c _ fuel st st' h
    have hc : st'._pmc_mck = 0 := by rw [hst]
    have hm : st'.PMC_MCKR &&& c.PMC_MCKR_CSS_Msk = c.PMC_MCKR_CSS_SLOW_CLK := by
      rw [hst]; simp only; rw [field_replace_read, hslow]
    refine ⟨hst, hc, ?_, master_clock_after_invalidate c st' hc⟩
    simp [mck_css_clk, hm]

/-- C3 at a concrete input: the master clock runs from the 12 MHz main clock
with prescaler DIV2 and 6 MHz is cached; PLL-A is set to x10. After
`pmc_switch_mck_to_pll` the cache is 0 and the next query returns 60 MHz. -/
theorem switch_mck_invalidates_cache_witness :
    ∃ fuel st',
      pmc_switch_mck_to_pll sama5d2 fuel
        { State.quiet 8 with PMC_MCKR := 0x11, CKGR_PLLAR := 0x240001, _pmc_mck := 6000000 } =
          .ret () st' ∧
      st'._pmc_mck = 0 ∧ (pmc_get_master_clock sama5d2 st').val? = some 60000000 := by
  have h := switch_mck_invalidates_cache sama5d2
    { State.quiet 8 with PMC_MCKR := 0x11, CKGR_PLLAR := 0x240001, _pmc_mck := 6000000 } 0
    (by decide) (by decide) (by decide) (by decide) (by decide) (by decide)
  obtain ⟨fuel, st', hr⟩ := h.1.1
  obtain ⟨hst, hc, -, v, hv, hget⟩ := h.1.2 fuel st' hr
  refine ⟨fuel, st', hr, hc, ?_⟩
  have hreg : mck_value sama5d2 st' =
      mck_value sama5d2 { State.quiet 8 with PMC_MCKR := 0x12, CKGR_PLLAR := 0x240001 } :=
    mck_value_congr sama5d2 _ _ (by rw [hst]; rfl) (by rw [hst]) (by rw [hst]) (by rw [hst])
  have hval : mck_value sama5d2
      { State.quiet 8 with PMC_MCKR := 0x12, CKGR_PLLAR := 0x240001 } = some 60000000 := by
    decide
  have hv' : v = 60000000 := Option.some.inj (hv.symm.trans (hreg.trans hval))
  rw [hget, hv']
  rfl

/-- C4 (the code at a failing input). The master clock runs from the 12 MHz
main clock and has been queried, so 12 MHz is cached. `pmc_set_mck_prescaler`
with code DIV2, and likewise `pmc_set_mck_divider` with code /2, returns with
the cache still holding 12 MHz: the next `pmc_get_master_clock` returns the
stale 12 MHz, while the registers now give 6 MHz. -/
theorem set_mck_prescaler_divider_keep_stale_cache :
    (pmc_get_master_clock sama5d2 { State.quiet 8 with PMC_MCKR := 0x1 }).state?.map
        (fun s => s._pmc_mck) = some 12000000 ∧
    ((pmc_set_mck_prescaler sama5d2 1 0x10
        { State.quiet 8 with PMC_MCKR := 0x1, _pmc_mck := 12000000 }).state?.map
        (fun s => (s.PMC_MCKR, s._pmc_mck, (pmc_get_master_clock sama5d2 s).val?,
          mck_value sama5d2 s))
      = some (0x11, 12000000, some 12000000, some 6000000)) ∧
    ((pmc_set_mck_divider sama5d2 1 0x100
        { State.quiet 8 with PMC_MCKR := 0x1, _pmc_mck := 12000000 }).state?.map
        (fun s => (s.PMC_MCKR, s._pmc_mck, (pmc_get_master_clock sama5d2 s).val?,
          mck_value sama5d2 s))
      = some (0x101, 12000000, some 12000000, some 6000000)) := by
  refine ⟨by decide, by decide, by decide⟩

/-- C5. When the DIVA field of `CKGR_PLLAR` is 0, `pmc_get_plla_clock` returns 0
whatever the multiplier field, the main-oscillator selection and the PLLADIV2
bit are; and for every register state it has a value, that is, it never
evaluates a division by zero. -/
theorem plla_clock_zero_divider (c : Chip) (st : State) :
    ((st.CKGR_PLLAR &&& c.CKGR_PLLAR_DIVA_Msk) >>> c.CKGR_PLLAR_DIVA_Pos = 0 →
      pmc_get_plla_clock c st = some 0) ∧
    pmc_get_plla_clock c st ≠ none := by
  refine ⟨fun h => by simp [pmc_get_plla_clock, h], ?_⟩
  obtain ⟨v, hv⟩ := pmc_get_plla_clock_isSome c st
  simp [hv]

/-- C5 at a concrete input: multiplier field 9, divider field 0, PLLADIV2 set
and the main oscillator selection bit set. -/
theorem plla_clock_zero_divider_witness :
    pmc_get_plla_clock sama5d2
      { State.quiet 0 with CKGR_PLLAR := 0x240000, PMC_MCKR := 0x1002,
                           CKGR_MOR := 0x1000000 } = some 0 :=
  (plla_clock_zero_divider sama5d2
    { State.quiet 0 with CKGR_PLLAR := 0x240000, PMC_MCKR := 0x1002,
                         CKGR_MOR := 0x1000000 }).1 (by decide)

/-- C6. With input frequency `I` (the selected main oscillator), multiplier
field `m` and non-zero divider field `d` such that `I * (m + 1) < 2^32`,
`pmc_get_plla_clock` returns `I * (m + 1) / d` when PLLADIV2 is clear and that
value shifted right by 1 when PLLADIV2 is set. -/
theorem plla_clock_formula (c : Chip) (st : State) (I m d : Nat)
    (hI : pmc_get_main_clock c st = I)
    (hm : (st.CKGR_PLLAR &&& c.CKGR_PLLAR_MULA_Msk) >>> c.CKGR_PLLAR_MULA_Pos = m)
    (hd : (st.CKGR_PLLAR &&& c.CKGR_PLLAR_DIVA_Msk) >>> c.CKGR_PLLAR_DIVA_Pos = d)
    (hd0 : d ≠ 0) (hfit : I * (m + 1) < 2 ^ 32) :
    (st.PMC_MCKR &&& c.PMC_MCKR_PLLADIV2 = 0 →
      pmc_get_plla_clock c st = some (I * (m + 1) / d)) ∧
    (st.PMC_MCKR &&& c.PMC_MCKR_PLLADIV2 ≠ 0 →
      pmc_get_plla_clock c st = some ((I * (m + 1) / d) >>> 1)) := by
  have hmul : mul32 I (add32 m 1) = I * (m + 1) := by
    unfold mul32 add32
    rcases Nat.eq_zero_or_pos I with h0 | hpos
    · simp [h0]
    · have hm1 : m + 1 < 2 ^ 32 :=
        lt_of_le_of_lt (Nat.le_mul_of_pos_left (m + 1) hpos) hfit
      rw [Nat.mod_eq_of_lt hm1, Nat.mod_eq_of_lt hfit]
  have hI' : (if st.CKGR_MOR &&& c.CKGR_MOR_MOSCSEL ≠ 0 then c.MAIN_CLOCK_INT_OSC
      else c.BOARD_MAIN_CLOCK_EXT_OSC) = I := hI
  constructor
  · intro h2
    simp only [pmc_get_plla_clock, hI', hm, hd, hd0, if_false, hmul, div32, Option.map_some',
      h2, ne_eq, not_true_eq_false]
  · intro h2
    simp only [pmc_get_plla_clock, hI', hm, hd, hd0, if_false, hmul, div32, Option.map_some',
      h2, ne_eq, not_false_eq_true, if_true]

/-- C6 at the concrete inputs of the claim: input 12 MHz, multiplier field 9,
divider field 1 give 120 MHz, and 60 MHz with PLLADIV2 set. -/
theorem plla_clock_formula_witness :
    pmc_get_plla_clock sama5d2 { State.quiet 0 with CKGR_PLLAR := 0x240001 } =
      some 120000000 ∧
    pmc_get_plla_clock sama5d2
      { State.quiet 0 with CKGR_PLLAR := 0x240001, PMC_MCKR := 0x1000 } = some 60000000 :=
  ⟨(plla_clock_formula sama5d2 { State.quiet 0 with CKGR_PLLAR := 0x240001 }
      12000000 9 1 (by decide) (by decide) (by decide) (by decide) (by decide)).1 (by decide),
   (plla_clock_formula sama5d2
      { State.quiet 0 with CKGR_PLLAR := 0x240001, PMC_MCKR := 0x1000 }
      12000000 9 1 (by decide) (by decide) (by decide) (by decide) (by decide)).2 (by decide)⟩

/-- Function `pmc_get_master_clock` always returns, and leaves `PMC_MCKR` as it was. -/
theorem pmc_get_master_clock_returns (c : Chip) (st : State) :
    ∃ m st', pmc_get_master_clock c st = .ret m st' ∧ st'.PMC_MCKR = st.PMC_MCKR := by
  by_cases hc : st._pmc_mck = 0
  · obtain ⟨v, hv⟩ := mck_value_isSome c st
    exact ⟨v, _, pmc_get_master_clock_fresh c st v hc hv, rfl⟩
  · exact ⟨_, _, pmc_get_master_clock_cached c st hc, rfl⟩

/-- C7. For every state, `pmc_get_master_clock` returns some `m`, and
`pmc_get_processor_clock` returns `m` times 1, 2, 3 or 4 modulo `2^32` when the
MDIV code is x1, /2, /3 or /4 respectively. -/
theorem processor_clock_inverse_mdiv (c : Chip) (st : State)
    (hlabels : c.mdiv_labels.Nodup) :
    ∃ m st', pmc_get_master_clock c st = .ret m st' ∧
      (st.PMC_MCKR &&& c.PMC_MCKR_MDIV_Msk = c.PMC_MCKR_MDIV_EQ_PCK →
        pmc_get_processor_clock c st = .ret m st') ∧
      (st.PMC_MCKR &&& c.PMC_MCKR_MDIV_Msk = c.PMC_MCKR_MDIV_PCK_DIV2 →
        pmc_get_processor_clock c st = .ret (m * 2 % 2 ^ 32) st') ∧
      (st.PMC_MCKR &&& c.PMC_MCKR_MDIV_Msk = c.PMC_MCKR_MDIV_PCK_DIV3 →
        pmc_get_processor_clock c st = .ret (m * 3 % 2 ^ 32) st') ∧
      (st.PMC_MCKR &&& c.PMC_MCKR_MDIV_Msk = c.PMC_MCKR_MDIV_PCK_DIV4 →
        pmc_get_processor_clock c st = .ret (m * 4 % 2 ^ 32) st') := by
  simp only [Chip.mdiv_labels, List.nodup_cons, List.mem_cons, List.mem_singleton,
    not_or, List.not_mem_nil, not_false_eq_true, List.nodup_nil, and_true] at hlabels
  obtain ⟨⟨h01, h02, h03⟩, ⟨h12, h13⟩, h23⟩ := hlabels
  obtain ⟨m, st', hm, hr⟩ := pmc_get_master_clock_returns c st
  refine ⟨m, st', hm, ?_, ?_, ?_, ?_⟩ <;> intro hd
  · simp [pmc_get_processor_clock, hm, Outcome.bind, hr, hd]
  · simp [pmc_get_processor_clock, hm, Outcome.bind, hr, hd, Ne.symm h01, shl32,
      Nat.shiftLeft_eq]
  · simp [pmc_get_processor_clock, hm, Outcome.bind, hr, hd, Ne.symm h03, Ne.symm h13,
      mul32]
  · simp [pmc_get_processor_clock, hm, Outcome.bind, hr, hd, Ne.symm h02, Ne.symm h12,
      h23, shl32, Nat.shiftLeft_eq]

/-- C7 at a concrete input: main clock 12 MHz, divider /4, nothing cached: the
master clock is 3 MHz and the processor clock 3 MHz * 4. -/
theorem processor_clock_inverse_mdiv_witness :
    ∃ m st', pmc_get_master_clock sama5d2 { State.quiet 0 with PMC_MCKR := 0x201 } =
        .ret m st' ∧
      pmc_get_processor_clock sama5d2 { State.quiet 0 with PMC_MCKR := 0x201 } =
        .ret (m * 4 % 2 ^ 32) st' :=
  let ⟨m, st', hm, _, _, _, h4⟩ :=
    processor_clock_inverse_mdiv sama5d2 { State.quiet 0 with PMC_MCKR := 0x201 } (by decide)
  ⟨m, st', hm, h4 (by decide)⟩

/-- C8 (as stated, false). Slow crystal 32768 Hz, prescaler CLOCK, divider /3,
nothing cached: the pre-divider frequency is 32768 but
`pmc_get_processor_clock` returns 32766. -/
theorem processor_clock_loses_remainder :
    ({ State.quiet 0 with PMC_MCKR := 0x300 } : State)._pmc_mck = 0 ∧
    mck_prescaled sama5d2 { State.quiet 0 with PMC_MCKR := 0x300 } = some 32768 ∧
    (pmc_get_processor_clock sama5d2 { State.quiet 0 with PMC_MCKR := 0x300 }).val? =
      some 32766 ∧
    (pmc_get_processor_clock sama5d2 { State.quiet 0 with PMC_MCKR := 0x300 }).val? ≠
      some 32768 := by
  refine ⟨by decide, by decide, by decide, by decide⟩

/-- C8 (amended). With the cache unset and a 32-bit pre-divider frequency `P`,
`pmc_get_processor_clock` returns `P - P % k`, where `k` is 1, 2, 3, 4 for the
MDIV codes x1, /2, /3, /4: `P` rounded down to a multiple of the divider, which
is `P` itself exactly when the divider divides `P`. -/
theorem processor_clock_rounds_down (c : Chip) (st : State) (P : Nat)
    (hlabels : c.mdiv_labels.Nodup)
    (hcache : st._pmc_mck = 0)
    (hP : mck_prescaled c st = some P)
    (h32 : P < 2 ^ 32) :
    (st.PMC_MCKR &&& c.PMC_MCKR_MDIV_Msk = c.PMC_MCKR_MDIV_EQ_PCK →
      pmc_get_processor_clock c st = .ret P { st with _pmc_mck := P }) ∧
    (st.PMC_MCKR &&& c.PMC_MCKR_MDIV_Msk = c.PMC_MCKR_MDIV_PCK_DIV2 →
      pmc_get_processor_clock c st = .ret (P - P % 2) { st with _pmc_mck := P >>> 1 }) ∧
    (st.PMC_MCKR &&& c.PMC_MCKR_MDIV_Msk = c.PMC_MCKR_MDIV_PCK_DIV3 →
      pmc_get_processor_clock c st = .ret (P - P % 3) { st with _pmc_mck := P / 3 }) ∧
    (st.PMC_MCKR &&& c.PMC_MCKR_MDIV_Msk = c.PMC_MCKR_MDIV_PCK_DIV4 →
      pmc_get_processor_clock c st = .ret (P - P % 4) { st with _pmc_mck := P >>> 2 }) := by
  simp only [Chip.mdiv_labels, List.nodup_cons, List.mem_cons, List.mem_singleton,
    not_or, List.not_mem_nil, not_false_eq_true, List.nodup_nil, and_true] at hlabels
  obtain ⟨⟨h01, h02, h03⟩, ⟨h12, h13⟩, h23⟩ := hlabels
  have h32' : P < 4294967296 := by simpa using h32
  refine ⟨?_, ?_, ?_, ?_⟩ <;> intro hd
  · have hm := pmc_get_master_clock_fresh c st P hcache
      (by simp [mck_value, hP, mck_mdiv_clk, hd])
    simp [pmc_get_processor_clock, hm, Outcome.bind, hd]
  · have hm := pmc_get_master_clock_fresh c st (P >>> 1) hcache
      (by simp [mck_value, hP, mck_mdiv_clk, hd, Ne.symm h01])
    simp [pmc_get_processor_clock, hm, Outcome.bind, hd, Ne.symm h01, shl32,
      Nat.shiftLeft_eq, Nat.shiftRight_eq_div_pow]
    omega
  · have hm := pmc_get_master_clock_fresh c st (P / 3) hcache
      (by simp [mck_value, hP, mck_mdiv_clk, hd, Ne.symm h03, Ne.symm h13, Ne.symm h23,
        div32])
    simp [pmc_get_processor_clock, hm, Outcome.bind, hd, Ne.symm h03, Ne.symm h13,
      mul32]
    omega
  · have hm := pmc_get_master_clock_fresh c st (P >>> 2) hcache
      (by simp [mck_value, hP, mck_mdiv_clk, hd, Ne.symm h02, Ne.symm h12])
    simp [pmc_get_processor_clock, hm, Outcome.bind, hd, Ne.symm h02, Ne.symm h12, h23,
      shl32, Nat.shiftLeft_eq, Nat.shiftRight_eq_div_pow]
    omega

/-- C8 (amended) at a concrete input: 32768 Hz with divider /3 gives
32768 - 32768 % 3 = 32766. -/
theorem processor_clock_rounds_down_witness :
    pmc_get_processor_clock sama5d2 { State.quiet 0 with PMC_MCKR := 0x300 } =
      .ret (32768 - 32768 % 3)
        { State.quiet 0 with PMC_MCKR := 0x300, _pmc_mck := 32768 / 3 } :=
  (processor_clock_rounds_down sama5d2 { State.quiet 0 with PMC_MCKR := 0x300 } 32768
    (by decide) rfl (by decide) (by decide)).2.2.1 (by decide)

/-! ### Peripheral clock gate -/

/-- A word that has `y` or-ed in keeps every bit of `y` under the mask `y`. -/
theorem or_and_self_right (p y : Nat) : (p ||| y) &&& y = y := by
  apply Nat.eq_of_testBit_eq
  intro i
  simp only [Nat.testBit_and, Nat.testBit_or]
  cases p.testBit i <;> cases y.testBit i <;> rfl

/-- Clearing the bits of `e` (32-bit complement) leaves none of them. -/
theorem and_not32_and_self (p e : Nat) : (p &&& not32 e) &&& e = 0 := by
  apply Nat.eq_of_testBit_eq
  intro i
  simp only [Nat.testBit_and, testBit_not32, Nat.zero_testBit]
  cases p.testBit i <;> cases e.testBit i <;> simp

/-- The word `pcr | PMC_PCR_CMD | PMC_PCR_EN` carries the command flag. -/
theorem enable_word_cmd (pcr cmd en : Nat) (hcmd : cmd ≠ 0) :
    (pcr ||| cmd ||| en) &&& cmd ≠ 0 := by
  have h : (pcr ||| cmd ||| en) &&& cmd = cmd := by
    apply Nat.eq_of_testBit_eq
    intro i
    simp only [Nat.testBit_and, Nat.testBit_or]
    cases pcr.testBit i <;> cases cmd.testBit i <;> cases en.testBit i <;> rfl
  rw [h]; exact hcmd

/-- The word `PMC_PCR_CMD | (pcr & ~PMC_PCR_EN)` carries the command flag. -/
theorem disable_word_cmd (pcr cmd en : Nat) (hcmd : cmd ≠ 0) :
    (cmd ||| (pcr &&& not32 en)) &&& cmd ≠ 0 := by
  have h : (cmd ||| (pcr &&& not32 en)) &&& cmd = cmd := by
    apply Nat.eq_of_testBit_eq
    intro i
    simp only [Nat.testBit_and, Nat.testBit_or]
    cases cmd.testBit i <;> simp
  rw [h]; exact hcmd

/-- The word `PMC_PCR_CMD | (pcr & ~PMC_PCR_EN)` has no enable bit, provided the
command flag is not part of the enable bit. -/
theorem disable_word_en (pcr cmd en : Nat) (hdisj : cmd &&& en = 0) :
    (cmd ||| (pcr &&& not32 en)) &&& en = 0 := by
  apply Nat.eq_of_testBit_eq
  intro i
  have hi : (cmd.testBit i && en.testBit i) = false := by
    rw [← Nat.testBit_and, hdisj, Nat.zero_testBit]
  simp only [Nat.testBit_and, Nat.testBit_or, testBit_not32, Nat.zero_testBit]
  revert hi
  cases cmd.testBit i <;> cases en.testBit i <;> cases pcr.testBit i <;> simp

/-- The word `PMC_PCR_PID(id)` carries no command flag when the flag lies
outside the PID field. -/
theorem pid_word_no_cmd (c : Chip) (id : Nat)
    (hpid : c.PMC_PCR_PID_Msk &&& c.PMC_PCR_CMD = 0) :
    PMC_PCR_PID c id &&& c.PMC_PCR_CMD = 0 := by
  unfold PMC_PCR_PID
  rw [Nat.and_comm c.PMC_PCR_PID_Msk, Nat.and_assoc, hpid, Nat.and_zero]

/-- What `pmc_enable_peripheral` does for a valid id: it selects the id and
stores the control word read back, with the command flag and the enable bit
or-ed in. -/
theorem pmc_enable_peripheral_ret (c : Chip) (st : State) (id : Nat)
    (hcmd : c.PMC_PCR_CMD ≠ 0) (hpid : c.PMC_PCR_PID_Msk &&& c.PMC_PCR_CMD = 0)
    (hv : id > 1 ∧ id < c.ID_PERIPH_COUNT) :
    pmc_enable_peripheral c id st = .ret ()
      { st with
        pcr_sel := PMC_PCR_PID c id &&& c.PMC_PCR_PID_Msk,
        pcr_ctl := Function.update st.pcr_ctl (PMC_PCR_PID c id &&& c.PMC_PCR_PID_Msk)
          (st.pcr_ctl (PMC_PCR_PID c id &&& c.PMC_PCR_PID_Msk) ||| c.PMC_PCR_CMD |||
            c.PMC_PCR_EN) } := by
  have hsel := pid_word_no_cmd c id hpid
  simp [pmc_enable_peripheral, hv, pcr_write, pcr_read, hsel, enable_word_cmd _ _ _ hcmd]

/-- What `pmc_disable_peripheral` does for a valid id: it selects the id and
stores the control word read back, with the enable bit cleared and the command
flag set. -/
theorem pmc_disable_peripheral_ret (c : Chip) (st : State) (id : Nat)
    (hcmd : c.PMC_PCR_CMD ≠ 0) (hpid : c.PMC_PCR_PID_Msk &&& c.PMC_PCR_CMD = 0)
    (hv : id > 1 ∧ id < c.ID_PERIPH_COUNT) :
    pmc_disable_peripheral c id st = .ret ()
      { st with
        pcr_sel := PMC_PCR_PID c id &&& c.PMC_PCR_PID_Msk,
        pcr_ctl := Function.update st.pcr_ctl (PMC_PCR_PID c id &&& c.PMC_PCR_PID_Msk)
          (c.PMC_PCR_CMD |||
            (st.pcr_ctl (PMC_PCR_PID c id &&& c.PMC_PCR_PID_Msk) &&& not32 c.PMC_PCR_EN)) } := by
  have hsel := pid_word_no_cmd c id hpid
  simp [pmc_disable_peripheral, hv, pcr_write, pcr_read, hsel, disable_word_cmd _ _ _ hcmd]

/-- What `pmc_is_peripheral_enabled` does for a valid id: it selects the id and
tests the enable bit of the control word read back. -/
theorem pmc_is_peripheral_enabled_ret (c : Chip) (st : State) (id : Nat)
    (hpid : c.PMC_PCR_PID_Msk &&& c.PMC_PCR_CMD = 0)
    (hv : id > 1 ∧ id < c.ID_PERIPH_COUNT) :
    pmc_is_peripheral_enabled c id st = .ret
      (if st.pcr_ctl (PMC_PCR_PID c id &&& c.PMC_PCR_PID_Msk) &&& c.PMC_PCR_EN ≠ 0 then 1 else 0)
      { st with pcr_sel := PMC_PCR_PID c id &&& c.PMC_PCR_PID_Msk } := by
  have hsel := pid_word_no_cmd c id hpid
  simp [pmc_is_peripheral_enabled, hv, pcr_write, pcr_read, hsel]

/-- C9. For a valid peripheral id, over the `PMC_PCR` model (`pcr_write`,
`pcr_read`) and with the command flag, the enable bit and the PID field laid
out apart from one another: after `pmc_enable_peripheral(id)`,
`pmc_is_peripheral_enabled(id)` returns 1; after a following
`pmc_disable_peripheral(id)`, `pmc_is_peripheral_enabled(id)` returns 0. -/
theorem peripheral_gate_round_trip (c : Chip) (st : State) (id : Nat)
    (hcmd : c.PMC_PCR_CMD ≠ 0) (hen : c.PMC_PCR_EN ≠ 0)
    (hdisj : c.PMC_PCR_CMD &&& c.PMC_PCR_EN = 0)
    (hpid : c.PMC_PCR_PID_Msk &&& c.PMC_PCR_CMD = 0)
    (hlo : 1 < id) (hhi : id < c.ID_PERIPH_COUNT) :
    ∃ s1 s2 s3 s4,
      pmc_enable_peripheral c id st = .ret () s1 ∧
      pmc_is_peripheral_enabled c id s1 = .ret 1 s2 ∧
      pmc_disable_peripheral c id s2 = .ret () s3 ∧
      pmc_is_peripheral_enabled c id s3 = .ret 0 s4 := by
  have hv : id > 1 ∧ id < c.ID_PERIPH_COUNT := ⟨hlo, hhi⟩
  obtain ⟨s1, h1, e1⟩ : ∃ s1, pmc_enable_peripheral c id st = .ret () s1 ∧
      s1.pcr_ctl (PMC_PCR_PID c id &&& c.PMC_PCR_PID_Msk) &&& c.PMC_PCR_EN ≠ 0 :=
    ⟨_, pmc_enable_peripheral_ret c st id hcmd hpid hv, by
      simp only [Function.update_same, or_and_self_right]; exact hen⟩
  have h2 := pmc_is_peripheral_enabled_ret c s1 id hpid hv
  rw [if_pos e1] at h2
  obtain ⟨s3, h3, e3⟩ : ∃ s3, pmc_disable_peripheral c id
        { s1 with pcr_sel := PMC_PCR_PID c id &&& c.PMC_PCR_PID_Msk } = .ret () s3 ∧
      s3.pcr_ctl (PMC_PCR_PID c id &&& c.PMC_PCR_PID_Msk) &&& c.PMC_PCR_EN = 0 :=
    ⟨_, pmc_disable_peripheral_ret c _ id hcmd hpid hv, by
      simp only [Function.update_same, disable_word_en _ _ _ hdisj]⟩
  have h4 := pmc_is_peripheral_enabled_ret c s3 id hpid hv
  rw [if_neg (not_not.mpr e3)] at h4
  exact ⟨_, _, _, _, h1, h2, h3, h4⟩

/-- C9 at a concrete input: peripheral id 38 on a machine whose registers are
all zero. -/
theorem peripheral_gate_round_trip_witness :
    ∃ s1 s2 s3 s4,
      pmc_enable_peripheral sama5d2 38 (State.quiet 0) = .ret () s1 ∧
      pmc_is_peripheral_enabled sama5d2 38 s1 = .ret 1 s2 ∧
      pmc_disable_peripheral sama5d2 38 s2 = .ret () s3 ∧
      pmc_is_peripheral_enabled sama5d2 38 s3 = .ret 0 s4 :=
  peripheral_gate_round_trip sama5d2 (State.quiet 0) 38 (by decide) (by decide) (by decide)
    (by decide) (by decide) (by decide)

/-- C10. `pmc_enable_peripheral`, `pmc_disable_peripheral` and
`pmc_is_peripheral_enabled` fail their assertion exactly when `id <= 1` or
`id >= ID_PERIPH_COUNT`, and then the machine state is the one on entry: nothing
has been written. Otherwise they return. In particular they fail for the ids
0, 1 and `ID_PERIPH_COUNT`. -/
theorem peripheral_gate_rejects_bad_id (c : Chip) (st : State) (id : Nat) :
    ((pmc_enable_peripheral c id st = .assert_failed st ↔
        (id ≤ 1 ∨ c.ID_PERIPH_COUNT ≤ id)) ∧
      ((∃ s, pmc_enable_peripheral c id st = .ret () s) ↔
        ¬ (id ≤ 1 ∨ c.ID_PERIPH_COUNT ≤ id)) ∧
      (∀ s, pmc_enable_peripheral c id st = .assert_failed s ↔
        ((id ≤ 1 ∨ c.ID_PERIPH_COUNT ≤ id) ∧ s = st))) ∧
    ((pmc_disable_peripheral c id st = .assert_failed st ↔
        (id ≤ 1 ∨ c.ID_PERIPH_COUNT ≤ id)) ∧
      ((∃ s, pmc_disable_peripheral c id st = .ret () s) ↔
        ¬ (id ≤ 1 ∨ c.ID_PERIPH_COUNT ≤ id)) ∧
      (∀ s, pmc_disable_peripheral c id st = .assert_failed s ↔
        ((id ≤ 1 ∨ c.ID_PERIPH_COUNT ≤ id) ∧ s = st))) ∧
    ((pmc_is_peripheral_enabled c id st = .assert_failed st ↔
        (id ≤ 1 ∨ c.ID_PERIPH_COUNT ≤ id)) ∧
      ((∃ v s, pmc_is_peripheral_enabled c id st = .ret v s) ↔
        ¬ (id ≤ 1 ∨ c.ID_PERIPH_COUNT ≤ id)) ∧
      (∀ s, pmc_is_peripheral_enabled c id st = .assert_failed s ↔
        ((id ≤ 1 ∨ c.ID_PERIPH_COUNT ≤ id) ∧ s = st))) ∧
    (pmc_enable_peripheral c 0 st = .assert_failed st ∧
      pmc_enable_peripheral c 1 st = .assert_failed st ∧
      pmc_enable_peripheral c c.ID_PERIPH_COUNT st = .assert_failed st ∧
      pmc_disable_peripheral c 0 st = .assert_failed st ∧
      pmc_disable_peripheral c 1 st = .assert_failed st ∧
      pmc_disable_peripheral c c.ID_PERIPH_COUNT st = .assert_failed st ∧
      pmc_is_peripheral_enabled c 0 st = .assert_failed st ∧
      pmc_is_peripheral_enabled c 1 st = .assert_failed st ∧
      pmc_is_peripheral_enabled c c.ID_PERIPH_COUNT st = .assert_failed st) := by
  refine ⟨?_, ?_, ?_, ?_⟩
  · by_cases h : id > 1 ∧ id < c.ID_PERIPH_COUNT
    · have hb : ¬ (id ≤ 1 ∨ c.ID_PERIPH_COUNT ≤ id) := by omega
      simp [pmc_enable_peripheral, h, hb]
    · have hb : id ≤ 1 ∨ c.ID_PERIPH_COUNT ≤ id := by omega
      simp [pmc_enable_peripheral, h, hb, eq_comm]
  · by_cases h : id > 1 ∧ id < c.ID_PERIPH_COUNT
    · have hb : ¬ (id ≤ 1 ∨ c.ID_PERIPH_COUNT ≤ id) := by omega
      simp [pmc_disable_peripheral, h, hb]
    · have hb : id ≤ 1 ∨ c.ID_PERIPH_COUNT ≤ id := by omega
      simp [pmc_disable_peripheral, h, hb, eq_comm]
  · by_cases h : id > 1 ∧ id < c.ID_PERIPH_COUNT
    · have hb : ¬ (id ≤ 1 ∨ c.ID_PERIPH_COUNT ≤ id) := by omega
      simp [pmc_is_peripheral_enabled, h, hb]
    · have hb : id ≤ 1 ∨ c.ID_PERIPH_COUNT ≤ id := by omega
      simp [pmc_is_peripheral_enabled, h, hb, eq_comm]
  · simp [pmc_enable_peripheral, pmc_disable_peripheral, pmc_is_peripheral_enabled]

/-! ### Disabling every peripheral -/

/-- The loop of `pmc_disable_all_peripherals`, entered at `i`, calls
`pmc_disable_peripheral` on `i`, `i + 1`, ..., `ID_PERIPH_COUNT - 1`, in this
order. -/
theorem disable_all_loop_eq_call_each (c : Chip) :
    ∀ (n i : Nat) (st : State), c.ID_PERIPH_COUNT - i = n →
      disable_all_loop c i st =
        call_each (pmc_disable_peripheral c) (List.range' i n) st := by
  intro n
  induction n with
  | zero =>
    intro i st h
    have hi : ¬ i < c.ID_PERIPH_COUNT := by omega
    rw [disable_all_loop]
    simp [hi, call_each]
  | succ k ih =>
    intro i st h
    have hi : i < c.ID_PERIPH_COUNT := by omega
    rw [disable_all_loop]
    simp only [hi, if_true, List.range'_succ, call_each]
    cases hd : pmc_disable_peripheral c i st with
    | ret v s => simp only [Outcome.bind]; exact ih (i + 1) s (by omega)
    | assert_failed s => simp [Outcome.bind]
    | div_by_zero => simp [Outcome.bind]
    | spinning => simp [Outcome.bind]

/-- A call of `pmc_disable_peripheral` with a valid id clears the enable bit of
the control word of that id and sets no enable bit that was clear. -/
theorem pmc_disable_peripheral_clears (c : Chip) (st : State) (id : Nat)
    (hcmd : c.PMC_PCR_CMD ≠ 0) (hdisj : c.PMC_PCR_CMD &&& c.PMC_PCR_EN = 0)
    (hpid : c.PMC_PCR_PID_Msk &&& c.PMC_PCR_CMD = 0)
    (hv : id > 1 ∧ id < c.ID_PERIPH_COUNT) :
    ∃ s1, pmc_disable_peripheral c id st = .ret () s1 ∧
      ∀ k, (k = PMC_PCR_PID c id &&& c.PMC_PCR_PID_Msk ∨ st.pcr_ctl k &&& c.PMC_PCR_EN = 0) →
        s1.pcr_ctl k &&& c.PMC_PCR_EN = 0 := by
  refine ⟨_, pmc_disable_peripheral_ret c st id hcmd hpid hv, ?_⟩
  intro k hk
  simp only [Function.update_apply]
  split_ifs with hsame
  · exact disable_word_en _ _ _ hdisj
  · rcases hk with hk | hk
    · exact absurd hk hsame
    · exact hk

/-- The loop of `pmc_disable_all_peripherals` returns, and once it has passed an
identifier the enable bit of that identifier stays cleared. -/
theorem disable_all_loop_disables (c : Chip)
    (hcmd : c.PMC_PCR_CMD ≠ 0) (hdisj : c.PMC_PCR_CMD &&& c.PMC_PCR_EN = 0)
    (hpid : c.PMC_PCR_PID_Msk &&& c.PMC_PCR_CMD = 0) :
    ∀ (n i : Nat) (st : State), c.ID_PERIPH_COUNT - i = n → 2 ≤ i →
      (∀ id, 2 ≤ id → id < i → id < c.ID_PERIPH_COUNT →
        st.pcr_ctl (PMC_PCR_PID c id &&& c.PMC_PCR_PID_Msk) &&& c.PMC_PCR_EN = 0) →
      ∃ st', disable_all_loop c i st = .ret () st' ∧
        ∀ id, 2 ≤ id → id < c.ID_PERIPH_COUNT →
          st'.pcr_ctl (PMC_PCR_PID c id &&& c.PMC_PCR_PID_Msk) &&& c.PMC_PCR_EN = 0 := by
  intro n
  induction n with
  | zero =>
    intro i st h _ hinv
    have hi : ¬ i < c.ID_PERIPH_COUNT := by omega
    refine ⟨st, ?_, fun id h2 hc => hinv id h2 (by omega) hc⟩
    rw [disable_all_loop]
    simp [hi]
  | succ k ih =>
    intro i st h h2 hinv
    have hi : i < c.ID_PERIPH_COUNT := by omega
    obtain ⟨s1, hd, hs1⟩ := pmc_disable_peripheral_clears c st i hcmd hdisj hpid
      ⟨by omega, hi⟩
    obtain ⟨st', hloop, hall⟩ := ih (i + 1) s1 (by omega) (by omega) (by
      intro id hid2 hidi hidc
      by_cases hii : id = i
      · exact hs1 _ (Or.inl (by rw [hii]))
      · exact hs1 _ (Or.inr (hinv id hid2 (by omega) hidc)))
    refine ⟨st', ?_, hall⟩
    rw [disable_all_loop]
    simp only [hi, if_true, hd]
    exact hloop

/-- C11. `pmc_disable_all_peripherals` is the sequence of calls
`pmc_disable_peripheral(2)`, `pmc_disable_peripheral(3)`, ...,
`pmc_disable_peripheral(ID_PERIPH_COUNT - 1)`, each id once and in ascending
order; it returns (no assertion fails), and afterwards
`pmc_is_peripheral_enabled` returns 0 for every valid id. -/
theorem disable_all_peripherals_spec (c : Chip) (st : State)
    (hcmd : c.PMC_PCR_CMD ≠ 0) (hdisj : c.PMC_PCR_CMD &&& c.PMC_PCR_EN = 0)
    (hpid : c.PMC_PCR_PID_Msk &&& c.PMC_PCR_CMD = 0) :
    pmc_disable_all_peripherals c st =
      call_each (pmc_disable_peripheral c) (List.range' 2 (c.ID_PERIPH_COUNT - 2)) st ∧
    ∃ st', pmc_disable_all_peripherals c st = .ret () st' ∧
      ∀ id, 1 < id → id < c.ID_PERIPH_COUNT →
        ∃ s, pmc_is_peripheral_enabled c id st' = .ret 0 s := by
  refine ⟨disable_all_loop_eq_call_each c _ 2 st rfl, ?_⟩
  obtain ⟨st', hret, hall⟩ := disable_all_loop_disables c hcmd hdisj hpid _ 2 st rfl
    (le_refl 2) (fun id h2 hlt _ => by omega)
  refine ⟨st', hret, fun id hlo hhi => ?_⟩
  have h := pmc_is_peripheral_enabled_ret c st' id hpid ⟨hlo, hhi⟩
  rw [if_neg (not_not.mpr (hall id hlo hhi))] at h
  exact ⟨_, h⟩

/-- C11 at a concrete input: on a chip with `ID_PERIPH_COUNT = 5` the calls are
those for the ids 2, 3, 4, and afterwards id 4 reads as disabled although it was
enabled before. -/
theorem disable_all_peripherals_spec_witness :
    List.range' 2 (({ sama5d2 with ID_PERIPH_COUNT := 5 } : Chip).ID_PERIPH_COUNT - 2) =
      [2, 3, 4] ∧
    (pmc_is_peripheral_enabled { sama5d2 with ID_PERIPH_COUNT := 5 } 4
      { State.quiet 0 with pcr_ctl := fun _ => 0x10000000 }).val? = some 1 ∧
    pmc_disable_all_peripherals { sama5d2 with ID_PERIPH_COUNT := 5 }
        { State.quiet 0 with pcr_ctl := fun _ => 0x10000000 } =
      call_each (pmc_disable_peripheral { sama5d2 with ID_PERIPH_COUNT := 5 })
        (List.range' 2 (({ sama5d2 with ID_PERIPH_COUNT := 5 } : Chip).ID_PERIPH_COUNT - 2))
        { State.quiet 0 with pcr_ctl := fun _ => 0x10000000 } ∧
    ∃ st', pmc_disable_all_peripherals { sama5d2 with ID_PERIPH_COUNT := 5 }
        { State.quiet 0 with pcr_ctl := fun _ => 0x10000000 } = .ret () st' ∧
      ∃ s, pmc_is_peripheral_enabled { sama5d2 with ID_PERIPH_COUNT := 5 } 4 st' =
        .ret 0 s :=
  have h := disable_all_peripherals_spec { sama5d2 with ID_PERIPH_COUNT := 5 }
    { State.quiet 0 with pcr_ctl := fun _ => 0x10000000 } (by decide) (by decide) (by decide)
  ⟨by decide, by decide, h.1,
    let ⟨st', hr, hall⟩ := h.2
    ⟨st', hr, hall 4 (by decide) (by decide)⟩⟩

/-! ### Programmable and generated clock resolvers -/

/-- A register field is at most the largest value its mask allows. -/
theorem field_le_mask (x m k : Nat) : (x &&& m) >>> k ≤ m >>> k := by
  rw [Nat.shiftRight_eq_div_pow, Nat.shiftRight_eq_div_pow]
  exact Nat.div_le_div_right Nat.and_le_right

/-- Adding 1 to a field narrower than 32 bits does not wrap. -/
theorem add32_field (x m k : Nat) (hwidth : (m >>> k) + 1 < 2 ^ 32) :
    add32 ((x &&& m) >>> k) 1 = (x &&& m) >>> k + 1 := by
  have h := field_le_mask x m k
  unfold add32
  exact Nat.mod_eq_of_lt (by omega)

/-- The only thing `pmc_get_master_clock` may change is the cache `_pmc_mck`. -/
theorem pmc_get_master_clock_frame (c : Chip) (st st' : State) (v : Nat)
    (h : pmc_get_master_clock c st = .ret v st') :
    st' = { st with _pmc_mck := st'._pmc_mck } := by
  by_cases hc : st._pmc_mck = 0
  · obtain ⟨w, hw⟩ := mck_value_isSome c st
    rw [pmc_get_master_clock_fresh c st w hc hw] at h
    simp only [Outcome.ret.injEq] at h
    rw [← h.2]
  · rw [pmc_get_master_clock_cached c st hc] at h
    simp only [Outcome.ret.injEq] at h
    rw [← h.2]

/-- The source `switch` of `_pmc_get_pck_clock` always yields a frequency, and
may change nothing but the cache `_pmc_mck`. -/
theorem pck_css_clk_returns (c : Chip) (pck : Nat) (st : State) :
    ∃ F st', pck_css_clk c pck st = .ret F st' ∧
      st' = { st with _pmc_mck := st'._pmc_mck } := by
  obtain ⟨v, hv⟩ := pmc_get_plla_clock_isSome c st
  obtain ⟨m, sm, hm, -⟩ := pmc_get_master_clock_returns c st
  have hf := pmc_get_master_clock_frame c st sm m hm
  unfold pck_css_clk
  simp only [hv, hm, Outcome.of_div]
  split_ifs
  all_goals first
    | exact ⟨_, st, rfl, rfl⟩
    | exact ⟨m, sm, rfl, hf⟩

/-- The source `switch` of `pmc_get_gck_clock` always yields a frequency, and
may change nothing but the cache `_pmc_mck`. -/
theorem gck_css_clk_returns (c : Chip) (pcr : Nat) (st : State) :
    ∃ F st', gck_css_clk c pcr st = .ret F st' ∧
      st' = { st with _pmc_mck := st'._pmc_mck } := by
  obtain ⟨v, hv⟩ := pmc_get_plla_clock_isSome c st
  obtain ⟨m, sm, hm, -⟩ := pmc_get_master_clock_returns c st
  have hf := pmc_get_master_clock_frame c st sm m hm
  unfold gck_css_clk
  simp only [hv, hm, Outcome.of_div]
  split_ifs
  all_goals first
    | exact ⟨_, st, rfl, rfl⟩
    | exact ⟨m, sm, rfl, hf⟩

/-- What `_pmc_get_pck_clock` returns once the source is resolved: the
truncated quotient by the prescaler field plus one. -/
theorem _pmc_get_pck_clock_ret (c : Chip) (index : Nat) (st st' : State) (F : Nat)
    (hwidth : (c.PMC_PCK_PRES_Msk >>> c.PMC_PCK_PRES_Pos) + 1 < 2 ^ 32)
    (hF : pck_css_clk c (st.PMC_PCK index) st = .ret F st') :
    _pmc_get_pck_clock c index st = .ret
      (F / ((st.PMC_PCK index &&& c.PMC_PCK_PRES_Msk) >>> c.PMC_PCK_PRES_Pos + 1)) st' := by
  simp [_pmc_get_pck_clock, hF, Outcome.bind, add32_field _ _ _ hwidth, div32,
    Outcome.of_div]

/-- What `pmc_get_gck_clock` returns for a valid id once the source is
resolved: `ROUND_INT_DIV` by the divider field plus one. -/
theorem pmc_get_gck_clock_ret (c : Chip) (id : Nat) (st st' : State) (F : Nat)
    (hpid : c.PMC_PCR_PID_Msk &&& c.PMC_PCR_CMD = 0)
    (hwidth : (c.PMC_PCR_GCKDIV_Msk >>> c.PMC_PCR_GCKDIV_Pos) + 1 < 2 ^ 32)
    (hv : id > 1 ∧ id < c.ID_PERIPH_COUNT)
    (hF : gck_css_clk c (st.pcr_ctl (PMC_PCR_PID c id &&& c.PMC_PCR_PID_Msk))
      { st with pcr_sel := PMC_PCR_PID c id &&& c.PMC_PCR_PID_Msk } = .ret F st') :
    pmc_get_gck_clock c id st = .ret
      ((2 * F + ((st.pcr_ctl (PMC_PCR_PID c id &&& c.PMC_PCR_PID_Msk) &&&
          c.PMC_PCR_GCKDIV_Msk) >>> c.PMC_PCR_GCKDIV_Pos + 1)) /
        (2 * ((st.pcr_ctl (PMC_PCR_PID c id &&& c.PMC_PCR_PID_Msk) &&&
          c.PMC_PCR_GCKDIV_Msk) >>> c.PMC_PCR_GCKDIV_Pos + 1))) st' := by
  have hsel := pid_word_no_cmd c id hpid
  simp [pmc_get_gck_clock, hv, pcr_write, pcr_read, hsel, hF, Outcome.bind,
    add32_field _ _ _ hwidth, ROUND_INT_DIV, div32, Outcome.of_div]

/-- C12. For a valid peripheral id whose control word has divider field `d`
and whose source resolves to a frequency `F` below `2^31`, `pmc_get_gck_clock`
returns `(2 F + d + 1) / (2 (d + 1))`: the integer `r` nearest to `F / (d + 1)`,
halves rounded up, that is `2 r (d + 1) <= 2 F + (d + 1) < 2 (r + 1) (d + 1)`;
`r` fits in 32 bits. -/
theorem gck_clock_round_half_up (c : Chip) (id : Nat) (st st' : State) (F d : Nat)
    (hpid : c.PMC_PCR_PID_Msk &&& c.PMC_PCR_CMD = 0)
    (hwidth : (c.PMC_PCR_GCKDIV_Msk >>> c.PMC_PCR_GCKDIV_Pos) + 1 < 2 ^ 32)
    (hlo : 1 < id) (hhi : id < c.ID_PERIPH_COUNT)
    (hd : (st.pcr_ctl (PMC_PCR_PID c id &&& c.PMC_PCR_PID_Msk) &&&
      c.PMC_PCR_GCKDIV_Msk) >>> c.PMC_PCR_GCKDIV_Pos = d)
    (hF : gck_css_clk c (st.pcr_ctl (PMC_PCR_PID c id &&& c.PMC_PCR_PID_Msk))
      { st with pcr_sel := PMC_PCR_PID c id &&& c.PMC_PCR_PID_Msk } = .ret F st')
    (h31 : F < 2 ^ 31) :
    pmc_get_gck_clock c id st = .ret ((2 * F + d + 1) / (2 * (d + 1))) st' ∧
    2 * ((2 * F + d + 1) / (2 * (d + 1))) * (d + 1) ≤ 2 * F + (d + 1) ∧
    2 * F + (d + 1) < 2 * ((2 * F + d + 1) / (2 * (d + 1)) + 1) * (d + 1) ∧
    (2 * F + d + 1) / (2 * (d + 1)) < 2 ^ 32 := by
  have hret := pmc_get_gck_clock_ret c id st st' F hpid hwidth ⟨hlo, hhi⟩ hF
  rw [hd] at hret
  have hpos : 0 < 2 * (d + 1) := by omega
  have hle := Nat.div_mul_le_self (2 * F + d + 1) (2 * (d + 1))
  have hlt := Nat.lt_div_mul_add (a := 2 * F + d + 1) hpos
  have hfit : (2 * F + d + 1) / (2 * (d + 1)) ≤ F + 1 := by
    apply Nat.div_le_of_le_mul
    nlinarith
  refine ⟨hret, ?_, ?_, ?_⟩
  · calc 2 * ((2 * F + d + 1) / (2 * (d + 1))) * (d + 1)
        = (2 * F + d + 1) / (2 * (d + 1)) * (2 * (d + 1)) := by ring
      _ ≤ 2 * F + d + 1 := hle
      _ = 2 * F + (d + 1) := by ring
  · calc 2 * F + (d + 1) = 2 * F + d + 1 := by ring
      _ < (2 * F + d + 1) / (2 * (d + 1)) * (2 * (d + 1)) + 2 * (d + 1) := hlt
      _ = 2 * ((2 * F + d + 1) / (2 * (d + 1)) + 1) * (d + 1) := by ring
  · have : (2 : Nat) ^ 31 + 1 < 2 ^ 32 := by norm_num
    omega

/-- C12 at a concrete input: peripheral 38 with the 12 MHz main clock as source
and divider field 7 gives 12000000 / 8 = 1500000; with the 32768 Hz slow clock
and divider field 2 it gives 10923, the quotient 10922.67 rounded up. -/
theorem gck_clock_round_half_up_witness :
    pmc_get_gck_clock sama5d2 38 { State.quiet 0 with pcr_ctl := fun _ => 0x700100 } =
      .ret 1500000 { State.quiet 0 with pcr_ctl := fun _ => 0x700100, pcr_sel := 38 } ∧
    pmc_get_gck_clock sama5d2 38 { State.quiet 0 with pcr_ctl := fun _ => 0x200000 } =
      .ret 10923 { State.quiet 0 with pcr_ctl := fun _ => 0x200000, pcr_sel := 38 } :=
  ⟨(gck_clock_round_half_up sama5d2 38 { State.quiet 0 with pcr_ctl := fun _ => 0x700100 }
      { State.quiet 0 with pcr_ctl := fun _ => 0x700100, pcr_sel := 38 } 12000000 7
      (by decide) (by decide) (by decide) (by decide) (by decide) rfl (by decide)).1,
   (gck_clock_round_half_up sama5d2 38 { State.quiet 0 with pcr_ctl := fun _ => 0x200000 }
      { State.quiet 0 with pcr_ctl := fun _ => 0x200000, pcr_sel := 38 } 32768 2
      (by decide) (by decide) (by decide) (by decide) (by decide) rfl (by decide)).1⟩

/-- C13. For each of the channels 0, 1, 2, the source of the channel resolves
to some frequency `F`, the divisor `p + 1` built from the prescaler field `p`
of `PMC_PCK[n]` is not zero, and `pmc_get_pck0_clock`, `pmc_get_pck1_clock`,
`pmc_get_pck2_clock` return the truncated quotient `F / (p + 1)`. -/
theorem pck_clock_truncating (c : Chip) (st : State)
    (hwidth : (c.PMC_PCK_PRES_Msk >>> c.PMC_PCK_PRES_Pos) + 1 < 2 ^ 32) :
    (∃ F st', pck_css_clk c (st.PMC_PCK 0) st = .ret F st' ∧
      add32 ((st.PMC_PCK 0 &&& c.PMC_PCK_PRES_Msk) >>> c.PMC_PCK_PRES_Pos) 1 ≠ 0 ∧
      pmc_get_pck0_clock c st = .ret
        (F / ((st.PMC_PCK 0 &&& c.PMC_PCK_PRES_Msk) >>> c.PMC_PCK_PRES_Pos + 1)) st') ∧
    (∃ F st', pck_css_clk c (st.PMC_PCK 1) st = .ret F st' ∧
      add32 ((st.PMC_PCK 1 &&& c.PMC_PCK_PRES_Msk) >>> c.PMC_PCK_PRES_Pos) 1 ≠ 0 ∧
      pmc_get_pck1_clock c st = .ret
        (F / ((st.PMC_PCK 1 &&& c.PMC_PCK_PRES_Msk) >>> c.PMC_PCK_PRES_Pos + 1)) st') ∧
    (∃ F st', pck_css_clk c (st.PMC_PCK 2) st = .ret F st' ∧
      add32 ((st.PMC_PCK 2 &&& c.PMC_PCK_PRES_Msk) >>> c.PMC_PCK_PRES_Pos) 1 ≠ 0 ∧
      pmc_get_pck2_clock c st = .ret
        (F / ((st.PMC_PCK 2 &&& c.PMC_PCK_PRES_Msk) >>> c.PMC_PCK_PRES_Pos + 1)) st') := by
  have key : ∀ index, ∃ F st', pck_css_clk c (st.PMC_PCK index) st = .ret F st' ∧
      add32 ((st.PMC_PCK index &&& c.PMC_PCK_PRES_Msk) >>> c.PMC_PCK_PRES_Pos) 1 ≠ 0 ∧
      _pmc_get_pck_clock c index st = .ret
        (F / ((st.PMC_PCK index &&& c.PMC_PCK_PRES_Msk) >>> c.PMC_PCK_PRES_Pos + 1))
        st' := by
    intro index
    obtain ⟨F, st', hF, -⟩ := pck_css_clk_returns c (st.PMC_PCK index) st
    refine ⟨F, st', hF, ?_, _pmc_get_pck_clock_ret c index st st' F hwidth hF⟩
    rw [add32_field _ _ _ hwidth]
    exact Nat.succ_ne_zero _
  exact ⟨key 0, key 1, key 2⟩

/-- C13 at a concrete input: channel 1 on the 12 MHz main clock with prescaler
field 6 gives 12000000 / 7 = 1714285 (the exact quotient is 1714285.71). -/
theorem pck_clock_truncating_witness :
    ∃ F st', pck_css_clk sama5d2 0x61
        { State.quiet 0 with PMC_PCK := fun n => if n = 1 then 0x61 else 0 } = .ret F st' ∧
      pmc_get_pck1_clock sama5d2
        { State.quiet 0 with PMC_PCK := fun n => if n = 1 then 0x61 else 0 } =
          .ret (F / (6 + 1)) st' ∧
      (pmc_get_pck1_clock sama5d2
        { State.quiet 0 with PMC_PCK := fun n => if n = 1 then 0x61 else 0 }).val? =
          some 1714285 :=
  let ⟨F, st', hF, _, hret⟩ := (pck_clock_truncating sama5d2
    { State.quiet 0 with PMC_PCK := fun n => if n = 1 then 0x61 else 0 } (by decide)).2.1
  ⟨F, st', hF, hret, by decide⟩

/-- With distinct case labels, a word whose CSS field is the UPLL code, or the
audio code when the audio clock is configured, makes the source `switch` of
`_pmc_get_pck_clock` yield 0 and touch nothing. -/
theorem pck_css_clk_unsupported (c : Chip) (pck : Nat) (st : State)
    (hlab : c.pck_css_labels.Nodup)
    (h : pck &&& c.PMC_PCK_CSS_Msk = c.PMC_PCK_CSS_UPLL_CLK ∨
      (c.CONFIG_HAVE_PMC_AUDIO_CLOCK = true ∧
        pck &&& c.PMC_PCK_CSS_Msk = c.PMC_PCK_CSS_AUDIO_CLK)) :
    pck_css_clk c pck st = .ret 0 st := by
  rcases h with h | ⟨ha, h⟩
  · have hl : [c.PMC_PCK_CSS_SLOW_CLK, c.PMC_PCK_CSS_MAIN_CLK, c.PMC_PCK_CSS_PLLA_CLK,
        c.PMC_PCK_CSS_UPLL_CLK, c.PMC_PCK_CSS_MCK_CLK].Nodup :=
      (List.nodup_append.mp hlab).1
    simp only [List.nodup_cons, List.mem_cons, List.mem_singleton, not_or,
      List.not_mem_nil, not_false_eq_true, List.nodup_nil, and_true] at hl
    obtain ⟨⟨-, -, h03, -⟩, ⟨-, h13, -⟩, ⟨h23, -⟩, -⟩ := hl
    simp [pck_css_clk, h, Ne.symm h03, Ne.symm h13, Ne.symm h23]
  · simp only [Chip.pck_css_labels, ha, if_true, List.cons_append, List.nil_append,
      List.nodup_cons, List.mem_cons, List.mem_singleton, not_or,
      List.not_mem_nil, not_false_eq_true, List.nodup_nil, and_true] at hlab
    obtain ⟨⟨-, -, -, -, h05⟩, ⟨-, -, -, h15⟩, ⟨-, -, h25⟩, ⟨-, h35⟩, h45⟩ := hlab
    simp [pck_css_clk, h, Ne.symm h05, Ne.symm h15, Ne.symm h25, Ne.symm h35,
      Ne.symm h45]

/-- With distinct case labels, a control word whose GCKCSS field is the UPLL
code, or the audio code when the audio clock is configured, makes the source
`switch` of `pmc_get_gck_clock` yield 0 and touch nothing. -/
theorem gck_css_clk_unsupported (c : Chip) (pcr : Nat) (st : State)
    (hlab : c.gck_css_labels.Nodup)
    (h : pcr &&& c.PMC_PCR_GCKCSS_Msk = c.PMC_PCR_GCKCSS_UPLL_CLK ∨
      (c.CONFIG_HAVE_PMC_AUDIO_CLOCK = true ∧
        pcr &&& c.PMC_PCR_GCKCSS_Msk = c.PMC_PCR_GCKCSS_AUDIO_CLK)) :
    gck_css_clk c pcr st = .ret 0 st := by
  rcases h with h | ⟨ha, h⟩
  · have hl : [c.PMC_PCR_GCKCSS_SLOW_CLK, c.PMC_PCR_GCKCSS_MAIN_CLK,
        c.PMC_PCR_GCKCSS_PLLA_CLK, c.PMC_PCR_GCKCSS_UPLL_CLK,
        c.PMC_PCR_GCKCSS_MCK_CLK].Nodup :=
      (List.nodup_append.mp hlab).1
    simp only [List.nodup_cons, List.mem_cons, List.mem_singleton, not_or,
      List.not_mem_nil, not_false_eq_true, List.nodup_nil, and_true] at hl
    obtain ⟨⟨-, -, h03, -⟩, ⟨-, h13, -⟩, ⟨h23, -⟩, -⟩ := hl
    simp [gck_css_clk, h, Ne.symm h03, Ne.symm h13, Ne.symm h23]
  · simp only [Chip.gck_css_labels, ha, if_true, List.cons_append, List.nil_append,
      List.nodup_cons, List.mem_cons, List.mem_singleton, not_or,
      List.not_mem_nil, not_false_eq_true, List.nodup_nil, and_true] at hlab
    obtain ⟨⟨-, -, -, -, h05⟩, ⟨-, -, -, h15⟩, ⟨-, -, h25⟩, ⟨-, h35⟩, h45⟩ := hlab
    simp [gck_css_clk, h, Ne.symm h05, Ne.symm h15, Ne.symm h25, Ne.symm h35,
      Ne.symm h45]

/-- C14. A programmable-clock channel whose source selector is UPLL, or the
audio clock when it is configured, resolves to 0 for every prescaler field
value, and so does a generated clock with such a source for every divider field
value and every valid id; the call returns (no failed assertion, no division by
zero). The programmable-clock call leaves the state as it was, the
generated-clock call leaves it with the id selected in `PMC_PCR`. -/
theorem unsupported_source_resolves_to_zero (c : Chip) (st : State)
    (hlabP : c.pck_css_labels.Nodup) (hlabG : c.gck_css_labels.Nodup)
    (hwP : (c.PMC_PCK_PRES_Msk >>> c.PMC_PCK_PRES_Pos) + 1 < 2 ^ 32)
    (hwG : (c.PMC_PCR_GCKDIV_Msk >>> c.PMC_PCR_GCKDIV_Pos) + 1 < 2 ^ 32)
    (hpid : c.PMC_PCR_PID_Msk &&& c.PMC_PCR_CMD = 0) :
    (∀ index,
      (st.PMC_PCK index &&& c.PMC_PCK_CSS_Msk = c.PMC_PCK_CSS_UPLL_CLK ∨
        (c.CONFIG_HAVE_PMC_AUDIO_CLOCK = true ∧
          st.PMC_PCK index &&& c.PMC_PCK_CSS_Msk = c.PMC_PCK_CSS_AUDIO_CLK)) →
      _pmc_get_pck_clock c index st = .ret 0 st) ∧
    pmc_get_pck0_clock c st = _pmc_get_pck_clock c 0 st ∧
    pmc_get_pck1_clock c st = _pmc_get_pck_clock c 1 st ∧
    pmc_get_pck2_clock c st = _pmc_get_pck_clock c 2 st ∧
    (∀ id, 1 < id → id < c.ID_PERIPH_COUNT →
      (st.pcr_ctl (PMC_PCR_PID c id &&& c.PMC_PCR_PID_Msk) &&& c.PMC_PCR_GCKCSS_Msk =
          c.PMC_PCR_GCKCSS_UPLL_CLK ∨
        (c.CONFIG_HAVE_PMC_AUDIO_CLOCK = true ∧
          st.pcr_ctl (PMC_PCR_PID c id &&& c.PMC_PCR_PID_Msk) &&& c.PMC_PCR_GCKCSS_Msk =
            c.PMC_PCR_GCKCSS_AUDIO_CLK)) →
      pmc_get_gck_clock c id st =
        .ret 0 { st with pcr_sel := PMC_PCR_PID c id &&& c.PMC_PCR_PID_Msk }) := by
  refine ⟨?_, rfl, rfl, rfl, ?_⟩
  · intro index h
    have hF := pck_css_clk_unsupported c (st.PMC_PCK index) st hlabP h
    have hret := _pmc_get_pck_clock_ret c index st st 0 hwP hF
    rw [hret, Nat.zero_div]
  · intro id hlo hhi h
    have hF := gck_css_clk_unsupported c
      (st.pcr_ctl (PMC_PCR_PID c id &&& c.PMC_PCR_PID_Msk))
      { st with pcr_sel := PMC_PCR_PID c id &&& c.PMC_PCR_PID_Msk } hlabG h
    have hret := pmc_get_gck_clock_ret c id st _ 0 hpid hwG ⟨hlo, hhi⟩ hF
    rw [hret]
    have hz : ∀ d : Nat, (2 * 0 + (d + 1)) / (2 * (d + 1)) = 0 := fun d =>
      Nat.div_eq_of_lt (by omega)
    rw [hz]

/-- C14 at concrete inputs: channel 2 with source UPLL and prescaler field 255,
and peripheral 38 with source AUDIO and divider field 255, both resolve to 0. -/
theorem unsupported_source_resolves_to_zero_witness :
    pmc_get_pck2_clock sama5d2
        { State.quiet 0 with PMC_PCK := fun _ => 0xFF3 } =
      .ret 0 { State.quiet 0 with PMC_PCK := fun _ => 0xFF3 } ∧
    pmc_get_gck_clock sama5d2 38 { State.quiet 0 with pcr_ctl := fun _ => 0xFF00500 } =
      .ret 0 { State.quiet 0 with pcr_ctl := fun _ => 0xFF00500, pcr_sel := 38 } :=
  have h := unsupported_source_resolves_to_zero sama5d2
  ⟨(h { State.quiet 0 with PMC_PCK := fun _ => 0xFF3 } (by decide) (by decide) (by decide)
      (by decide) (by decide)).1 2 (Or.inl (by decide)),
   (h { State.quiet 0 with pcr_ctl := fun _ => 0xFF00500 } (by decide) (by decide)
      (by decide) (by decide) (by decide)).2.2.2.2 38 (by decide) (by decide)
      (Or.inr ⟨rfl, by decide⟩)⟩

/-! ### What the resolvers write -/

/-- A state that differs from `st` in the cache `_pmc_mck` only has the same
registers. -/
theorem same_regs_of_cache_only (st st' : State)
    (h : st' = { st with _pmc_mck := st'._pmc_mck }) : st.same_regs st' := by
  rw [h]
  simp [State.same_regs, State.same_config]

/-- Function `pmc_get_processor_clock` always returns, and may change nothing
but the cache `_pmc_mck`. -/
theorem pmc_get_processor_clock_returns (c : Chip) (st : State) :
    ∃ v st', pmc_get_processor_clock c st = .ret v st' ∧
      st' = { st with _pmc_mck := st'._pmc_mck } := by
  obtain ⟨m, sm, hm, -⟩ := pmc_get_master_clock_returns c st
  have hf := pmc_get_master_clock_frame c st sm m hm
  unfold pmc_get_processor_clock
  simp only [hm, Outcome.bind]
  split_ifs <;> exact ⟨_, sm, rfl, hf⟩

/-- Function `_pmc_get_pck_clock` always returns, and may change nothing but the
cache `_pmc_mck`. -/
theorem _pmc_get_pck_clock_returns (c : Chip) (index : Nat) (st : State)
    (hwidth : (c.PMC_PCK_PRES_Msk >>> c.PMC_PCK_PRES_Pos) + 1 < 2 ^ 32) :
    ∃ v st', _pmc_get_pck_clock c index st = .ret v st' ∧
      st' = { st with _pmc_mck := st'._pmc_mck } := by
  obtain ⟨F, st', hF, hf⟩ := pck_css_clk_returns c (st.PMC_PCK index) st
  exact ⟨_, st', _pmc_get_pck_clock_ret c index st st' F hwidth hF, hf⟩

/-- C15 (as stated, false). `pmc_get_gck_clock(38)` writes `PMC_PCR`: before the
call the register selects id 0 and reads back 0, after the call it selects id
38 and reads back the control word of id 38. -/
theorem gck_clock_writes_pcr :
    ({ State.quiet 0 with pcr_ctl := fun k => if k = 38 then 0x10000000 else 0 } :
      State).pcr_sel = 0 ∧
    pcr_read { State.quiet 0 with pcr_ctl := fun k => if k = 38 then 0x10000000 else 0 } =
      0 ∧
    (pmc_get_gck_clock sama5d2 38
      { State.quiet 0 with pcr_ctl := fun k => if k = 38 then 0x10000000 else 0 }).state?.map
        (fun s => (s.pcr_sel, pcr_read s)) = some (38, 0x10000000) := by
  refine ⟨by decide, by decide, by decide⟩

/-- C15 (amended). `pmc_get_master_clock`, `pmc_get_processor_clock` and
`pmc_get_pck0_clock`, `pmc_get_pck1_clock`, `pmc_get_pck2_clock` return and leave
every hardware register as it was (only the cache `_pmc_mck` may change);
`pmc_get_slow_clock`, `pmc_get_main_clock`, `pmc_get_plla_clock` are functions of
the state that have no state to return. `pmc_get_gck_clock` with a valid id
returns having written `PMC_PCR` once, without the command flag: the id is now
the selected one, and every other register and every control word is as it
was. -/
theorem resolvers_write_only_pcr_selection (c : Chip) (st : State)
    (hwP : (c.PMC_PCK_PRES_Msk >>> c.PMC_PCK_PRES_Pos) + 1 < 2 ^ 32)
    (hwG : (c.PMC_PCR_GCKDIV_Msk >>> c.PMC_PCR_GCKDIV_Pos) + 1 < 2 ^ 32)
    (hpid : c.PMC_PCR_PID_Msk &&& c.PMC_PCR_CMD = 0) :
    (∃ v st', pmc_get_master_clock c st = .ret v st' ∧ st.same_regs st') ∧
    (∃ v st', pmc_get_processor_clock c st = .ret v st' ∧ st.same_regs st') ∧
    (∃ v st', pmc_get_pck0_clock c st = .ret v st' ∧ st.same_regs st') ∧
    (∃ v st', pmc_get_pck1_clock c st = .ret v st' ∧ st.same_regs st') ∧
    (∃ v st', pmc_get_pck2_clock c st = .ret v st' ∧ st.same_regs st') ∧
    (∀ id, 1 < id → id < c.ID_PERIPH_COUNT →
      ∃ v st', pmc_get_gck_clock c id st = .ret v st' ∧ st.same_config st' ∧
        st'.pcr_sel = PMC_PCR_PID c id &&& c.PMC_PCR_PID_Msk) := by
  refine ⟨?_, ?_, ?_, ?_, ?_, ?_⟩
  · obtain ⟨m, sm, hm, -⟩ := pmc_get_master_clock_returns c st
    exact ⟨m, sm, hm, same_regs_of_cache_only st sm (pmc_get_master_clock_frame c st sm m hm)⟩
  · obtain ⟨v, s, h, hf⟩ := pmc_get_processor_clock_returns c st
    exact ⟨v, s, h, same_regs_of_cache_only st s hf⟩
  · obtain ⟨v, s, h, hf⟩ := _pmc_get_pck_clock_returns c 0 st hwP
    exact ⟨v, s, h, same_regs_of_cache_only st s hf⟩
  · obtain ⟨v, s, h, hf⟩ := _pmc_get_pck_clock_returns c 1 st hwP
    exact ⟨v, s, h, same_regs_of_cache_only st s hf⟩
  · obtain ⟨v, s, h, hf⟩ := _pmc_get_pck_clock_returns c 2 st hwP
    exact ⟨v, s, h, same_regs_of_cache_only st s hf⟩
  · intro id hlo hhi
    obtain ⟨F, st', hF, hf⟩ := gck_css_clk_returns c
      (st.pcr_ctl (PMC_PCR_PID c id &&& c.PMC_PCR_PID_Msk))
      { st with pcr_sel := PMC_PCR_PID c id &&& c.PMC_PCR_PID_Msk }
    refine ⟨_, st', pmc_get_gck_clock_ret c id st st' F hpid hwG ⟨hlo, hhi⟩ hF, ?_, ?_⟩
    · rw [hf]; simp [State.same_config]
    · rw [hf]

/-- C15 (amended) at a concrete input: the master clock query on a machine with
an empty cache, and the generated-clock query for peripheral 38. -/
theorem resolvers_write_only_pcr_selection_witness :
    (∃ v st', pmc_get_master_clock sama5d2 { State.quiet 0 with PMC_MCKR := 0x1 } =
        .ret v st' ∧
      ({ State.quiet 0 with PMC_MCKR := 0x1 } : State).same_regs st') ∧
    (∃ v st', pmc_get_gck_clock sama5d2 38 { State.quiet 0 with PMC_MCKR := 0x1 } =
        .ret v st' ∧
      ({ State.quiet 0 with PMC_MCKR := 0x1 } : State).same_config st' ∧
      st'.pcr_sel = 38) :=
  have h := resolvers_write_only_pcr_selection sama5d2
    { State.quiet 0 with PMC_MCKR := 0x1 } (by decide) (by decide) (by decide)
  ⟨h.1, h.2.2.2.2.2 38 (by decide) (by decide)⟩

/-! ### Slow-clock oscillator selection -/

/-- When `PMC_MCKR` as a whole differs from the word `PMC_MCKR_CSS(SLOW_CLK)`,
`pmc_select_external_crystal` and `pmc_select_internal_crystal` write `SCKC_CR`
and nothing else: no master-clock switch is made. -/
theorem select_crystal_without_switch (c : Chip) (fuel : Nat) (st : State)
    (h : st.PMC_MCKR ≠ PMC_MCKR_CSS c c.PMC_MCKR_CSS_SLOW_CLK) :
    pmc_select_external_crystal c fuel st = .ret () { st with
      SCKC_CR := (st.SCKC_CR &&& not32 c.SCKC_CR_OSCSEL) ||| c.SCKC_CR_OSCSEL_XTAL } ∧
    pmc_select_internal_crystal c fuel st = .ret () { st with
      SCKC_CR := (st.SCKC_CR &&& not32 c.SCKC_CR_OSCSEL) ||| c.SCKC_CR_OSCSEL_RC } := by
  simp [pmc_select_external_crystal, pmc_select_internal_crystal, h, Outcome.bind]

/-- C16 (the code at a failing input). With `PMC_MCKR = 0` (source slow clock,
prescaler CLOCK, divider x1) both functions switch the master clock to the main
clock and back: two `MCKRDY` polls are made, the cache is invalidated, and the
source selector ends as the slow clock. With `PMC_MCKR = 0x10` (source slow
clock, prescaler DIV2) the source selector is the slow clock as well, but no
switch is made: no poll, the cache is kept, only `SCKC_CR` is written while the
master clock runs from the slow clock. -/
theorem select_crystal_ignores_slow_source_with_prescaler :
    ((0x0 : Nat) &&& sama5d2.PMC_MCKR_CSS_Msk = sama5d2.PMC_MCKR_CSS_SLOW_CLK ∧
      (0x10 : Nat) &&& sama5d2.PMC_MCKR_CSS_Msk = sama5d2.PMC_MCKR_CSS_SLOW_CLK) ∧
    ((pmc_select_external_crystal sama5d2 1
        { State.quiet 8 with PMC_MCKR := 0x0, _pmc_mck := 32768 }).state?.map
        (fun s => (s.PMC_MCKR, s.SCKC_CR, s.polls, s._pmc_mck)) = some (0x0, 0x8, 2, 0) ∧
      (pmc_select_internal_crystal sama5d2 1
        { State.quiet 8 with PMC_MCKR := 0x0, SCKC_CR := 0x8, _pmc_mck := 32000 }).state?.map
        (fun s => (s.PMC_MCKR, s.SCKC_CR, s.polls, s._pmc_mck)) = some (0x0, 0x0, 2, 0)) ∧
    ((pmc_select_external_crystal sama5d2 1
        { State.quiet 8 with PMC_MCKR := 0x10, _pmc_mck := 16384 }).state?.map
        (fun s => (s.PMC_MCKR, s.SCKC_CR, s.polls, s._pmc_mck)) =
          some (0x10, 0x8, 0, 16384) ∧
      (pmc_select_internal_crystal sama5d2 1
        { State.quiet 8 with PMC_MCKR := 0x10, SCKC_CR := 0x8, _pmc_mck := 16000 }).state?.map
        (fun s => (s.PMC_MCKR, s.SCKC_CR, s.polls, s._pmc_mck)) =
          some (0x10, 0x0, 0, 16000)) := by
  refine ⟨⟨by decide, by decide⟩, ⟨by decide, by decide⟩, ⟨by decide, by decide⟩⟩

/-! ### Field writes -/

/-- A 32-bit value has no bit at position 32 or above. -/
theorem testBit_of_lt_two_pow_32 (a i : Nat) (ha : a < 2 ^ 32) (hi : a.testBit i = true) :
    i < 32 := by
  by_contra hge
  have hle : 2 ^ 32 ≤ 2 ^ i := Nat.pow_le_pow_right (by decide) (by omega)
  have := Nat.testBit_lt_two_pow (lt_of_lt_of_le ha hle)
  rw [this] at hi
  exact Bool.noConfusion hi

/-- Replacing the field `m` of a 32-bit word `a` by a code `k` that lies inside
the field leaves every bit outside the field as it was. -/
theorem field_replace_other_bits (a m k i : Nat) (ha : a < 2 ^ 32) (hk : k &&& m = k)
    (hi : m.testBit i = false) :
    ((a &&& not32 m) ||| k).testBit i = a.testBit i := by
  have hki : k.testBit i = false := by
    rw [← hk, Nat.testBit_and, hi, Bool.and_false]
  simp only [Nat.testBit_or, Nat.testBit_and, testBit_not32, hki, hi, Bool.not_false,
    Bool.and_true, Bool.or_false]
  by_cases hai : a.testBit i = true
  · simp [hai, testBit_of_lt_two_pow_32 a i ha hai]
  · simp [hai]

/-- Replacing the field `m` of a 32-bit word `a` by a code `k` that lies inside
the field leaves every field `f` disjoint from `m` as it was. -/
theorem field_replace_other_field (a m k f : Nat) (ha : a < 2 ^ 32) (hk : k &&& m = k)
    (hf : f &&& m = 0) :
    ((a &&& not32 m) ||| k) &&& f = a &&& f := by
  apply Nat.eq_of_testBit_eq
  intro i
  rw [Nat.testBit_and, Nat.testBit_and]
  by_cases hfi : f.testBit i = true
  · have hmi : m.testBit i = false := by
      have h0 : (f &&& m).testBit i = false := by rw [hf, Nat.zero_testBit]
      rw [Nat.testBit_and, hfi, Bool.true_and] at h0
      exact h0
    rw [field_replace_other_bits a m k i ha hk hmi]
  · simp [hfi]

/-- C17. Each of `pmc_switch_mck_to_pll`, `pmc_switch_mck_to_main` and
`pmc_switch_mck_to_slck` returns once the hardware shows `MCKRDY`, and whenever
it returns `PMC_MCKR` has been written once: its CSS field is the code of
PLL-A, of the main clock, of the slow clock respectively, every bit outside the
CSS field is as it was, and so is every field disjoint from the CSS field
(prescaler, divider, PLLADIV2, H32MXDIV). The constants `PMC_PCK_CSS_MAIN_CLK`
and `PMC_PCK_CSS_SLOW_CLK` that the source writes are taken to equal the
`PMC_MCKR` codes. -/
theorem switch_mck_writes_css_only (c : Chip) (st : State) (n : Nat)
    (h32 : st.PMC_MCKR < 2 ^ 32)
    (hpll : c.PMC_MCKR_CSS_PLLA_CLK &&& c.PMC_MCKR_CSS_Msk = c.PMC_MCKR_CSS_PLLA_CLK)
    (hmain : c.PMC_MCKR_CSS_MAIN_CLK &&& c.PMC_MCKR_CSS_Msk = c.PMC_MCKR_CSS_MAIN_CLK)
    (hslow : c.PMC_MCKR_CSS_SLOW_CLK &&& c.PMC_MCKR_CSS_Msk = c.PMC_MCKR_CSS_SLOW_CLK)
    (hmain_pck : c.PMC_PCK_CSS_MAIN_CLK = c.PMC_MCKR_CSS_MAIN_CLK)
    (hslow_pck : c.PMC_PCK_CSS_SLOW_CLK = c.PMC_MCKR_CSS_SLOW_CLK)
    (hn : st.polls ≤ n) (hrdy : st.PMC_SR n &&& c.PMC_SR_MCKRDY ≠ 0) :
    ((∃ fuel st', pmc_switch_mck_to_pll c fuel st = .ret () st') ∧
      ∀ fuel st', pmc_switch_mck_to_pll c fuel st = .ret () st' →
        st' = { st with PMC_MCKR := st'.PMC_MCKR, polls := st'.polls, _pmc_mck := 0 } ∧
        st'.PMC_MCKR &&& c.PMC_MCKR_CSS_Msk = c.PMC_MCKR_CSS_PLLA_CLK ∧
        (∀ i, c.PMC_MCKR_CSS_Msk.testBit i = false →
          st'.PMC_MCKR.testBit i = st.PMC_MCKR.testBit i) ∧
        (∀ f, f &&& c.PMC_MCKR_CSS_Msk = 0 → st'.PMC_MCKR &&& f = st.PMC_MCKR &&& f)) ∧
    ((∃ fuel st', pmc_switch_mck_to_main c fuel st = .ret () st') ∧
      ∀ fuel st', pmc_switch_mck_to_main c fuel st = .ret () st' →
        st' = { st with PMC_MCKR := st'.PMC_MCKR, polls := st'.polls, _pmc_mck := 0 } ∧
        st'.PMC_MCKR &&& c.PMC_MCKR_CSS_Msk = c.PMC_MCKR_CSS_MAIN_CLK ∧
        (∀ i, c.PMC_MCKR_CSS_Msk.testBit i = false →
          st'.PMC_MCKR.testBit i = st.PMC_MCKR.testBit i) ∧
        (∀ f, f &&& c.PMC_MCKR_CSS_Msk = 0 → st'.PMC_MCKR &&& f = st.PMC_MCKR &&& f)) ∧
    ((∃ fuel st', pmc_switch_mck_to_slck c fuel st = .ret () st') ∧
      ∀ fuel st', pmc_switch_mck_to_slck c fuel st = .ret () st' →
        st' = { st with PMC_MCKR := st'.PMC_MCKR, polls := st'.polls, _pmc_mck := 0 } ∧
        st'.PMC_MCKR &&& c.PMC_MCKR_CSS_Msk = c.PMC_MCKR_CSS_SLOW_CLK ∧
        (∀ i, c.PMC_MCKR_CSS_Msk.testBit i = false →
          st'.PMC_MCKR.testBit i = st.PMC_MCKR.testBit i) ∧
        (∀ f, f &&& c.PMC_MCKR_CSS_Msk = 0 → st'.PMC_MCKR &&& f = st.PMC_MCKR &&& f)) := by
  have key : ∀ code, code &&& c.PMC_MCKR_CSS_Msk = code → ∀ fuel st',
      (wait_sr c.PMC_SR_MCKRDY fuel { st with
            PMC_MCKR := (st.PMC_MCKR &&& not32 c.PMC_MCKR_CSS_Msk) ||| code }).bind
          (fun _ st => Outcome.ret () { st with _pmc_mck := 0 }) = .ret () st' →
        st' = { st with PMC_MCKR := st'.PMC_MCKR, polls := st'.polls, _pmc_mck := 0 } ∧
        st'.PMC_MCKR &&& c.PMC_MCKR_CSS_Msk = code ∧
        (∀ i, c.PMC_MCKR_CSS_Msk.testBit i = false →
          st'.PMC_MCKR.testBit i = st.PMC_MCKR.testBit i) ∧
        (∀ f, f &&& c.PMC_MCKR_CSS_Msk = 0 → st'.PMC_MCKR &&& f = st.PMC_MCKR &&& f) := by
    intro code hcode fuel st' h
    have hst := switch_mck_ret c code fuel st st' h
    have hm : st'.PMC_MCKR = (st.PMC_MCKR &&& not32 c.PMC_MCKR_CSS_Msk) ||| code := by
      rw [hst]
    refine ⟨?_, ?_, ?_, ?_⟩
    · rw [hst]
    · rw [hm, field_replace_read, hcode]
    · intro i hi
      rw [hm]
      exact field_replace_other_bits _ _ _ i h32 hcode hi
    · intro f hf
      rw [hm]
      exact field_replace_other_field _ _ _ f h32 hcode hf
  refine ⟨⟨switch_mck_returns c _ n st hn hrdy, ?_⟩, ⟨switch_mck_returns c _ n st hn hrdy, ?_⟩,
    ⟨switch_mck_returns c _ n st hn hrdy, ?_⟩⟩
  · exact key _ hpll
  · intro fuel st' h
    have := key c.PMC_PCK_CSS_MAIN_CLK (by rw [hmain_pck]; exact hmain) fuel st' h
    rw [hmain_pck] at this
    exact this
  · intro fuel st' h
    have := key c.PMC_PCK_CSS_SLOW_CLK (by rw [hslow_pck]; exact hslow) fuel st' h
    rw [hslow_pck] at this
    exact this

/-- C17 at a concrete input: `PMC_MCKR = 0x1001311` (source main, prescaler
DIV2, divider /3, PLLADIV2, H32MXDIV). After `pmc_switch_mck_to_pll` the CSS
field is the PLL-A code and the prescaler and divider fields are as before. -/
theorem switch_mck_writes_css_only_witness :
    ∃ fuel st', pmc_switch_mck_to_pll sama5d2 fuel
        { State.quiet 8 with PMC_MCKR := 0x1001311 } = .ret () st' ∧
      st'.PMC_MCKR &&& 0x3 = 0x2 ∧
      st'.PMC_MCKR &&& 0x70 = 0x1001311 &&& 0x70 ∧
      st'.PMC_MCKR &&& 0x300 = 0x1001311 &&& 0x300 ∧
      st'.PMC_MCKR &&& 0x1001000 = 0x1001311 &&& 0x1001000 := by
  have h := switch_mck_writes_css_only sama5d2
    { State.quiet 8 with PMC_MCKR := 0x1001311 } 0 (by decide) (by decide) (by decide)
    (by decide) (by decide) (by decide) (by decide) (by decide)
  obtain ⟨fuel, st', hr⟩ := h.1.1
  obtain ⟨-, hcss, -, hf⟩ := h.1.2 fuel st' hr
  exact ⟨fuel, st', hr, hcss, hf 0x70 (by decide), hf 0x300 (by decide),
    hf 0x1001000 (by decide)⟩

/-- C18. `pmc_disable_plla` returns having written `CKGR_PLLAR` only: the MULA
field of the new value is 0, every bit outside the MULA field is as it was, so
is every field disjoint from the MULA field (the DIVA field among them), and
the charge-pump register `PMC_PLLICPR` and all other registers are unchanged. -/
theorem disable_plla_clears_mula_only (c : Chip) (st : State)
    (h32 : st.CKGR_PLLAR < 2 ^ 32) :
    ∃ st', pmc_disable_plla c st = .ret () st' ∧
      st' = { st with CKGR_PLLAR := st'.CKGR_PLLAR } ∧
      st'.PMC_PLLICPR = st.PMC_PLLICPR ∧
      st'.CKGR_PLLAR &&& c.CKGR_PLLAR_MULA_Msk = 0 ∧
      (st'.CKGR_PLLAR &&& c.CKGR_PLLAR_MULA_Msk) >>> c.CKGR_PLLAR_MULA_Pos = 0 ∧
      (∀ i, c.CKGR_PLLAR_MULA_Msk.testBit i = false →
        st'.CKGR_PLLAR.testBit i = st.CKGR_PLLAR.testBit i) ∧
      (∀ f, f &&& c.CKGR_PLLAR_MULA_Msk = 0 →
        st'.CKGR_PLLAR &&& f = st.CKGR_PLLAR &&& f) := by
  have hz : CKGR_PLLAR_MULA c 0 = 0 := by
    simp [CKGR_PLLAR_MULA, shl32]
  have hfield : ((st.CKGR_PLLAR &&& not32 c.CKGR_PLLAR_MULA_Msk) ||| 0) &&&
      c.CKGR_PLLAR_MULA_Msk = 0 := by
    rw [field_replace_read, Nat.zero_and]
  refine ⟨_, rfl, rfl, rfl, ?_, ?_, ?_, ?_⟩
  · simp only [hz]; exact hfield
  · simp only [hz]; rw [hfield, Nat.zero_shiftRight]
  · intro i hi
    simp only [hz]
    exact field_replace_other_bits _ _ _ i h32 (Nat.zero_and _) hi
  · intro f hf
    simp only [hz]
    exact field_replace_other_field _ _ _ f h32 (Nat.zero_and _) hf

/-- C18 at a concrete input: `CKGR_PLLAR = 0x20243F01` (MULA 9, DIVA 1, other
fields set) becomes `0x20003F01`; the charge-pump register keeps its value. -/
theorem disable_plla_clears_mula_only_witness :
    ∃ st', pmc_disable_plla sama5d2
        { State.quiet 0 with CKGR_PLLAR := 0x20243F01, PMC_PLLICPR := 0x3 } = .ret () st' ∧
      st'.CKGR_PLLAR = 0x20003F01 ∧ st'.PMC_PLLICPR = 0x3 ∧
      st'.CKGR_PLLAR &&& 0xFF = 0x20243F01 &&& 0xFF :=
  let ⟨st', hr, _, hcp, _, _, _, hf⟩ := disable_plla_clears_mula_only sama5d2
    { State.quiet 0 with CKGR_PLLAR := 0x20243F01, PMC_PLLICPR := 0x3 } (by decide)
  ⟨st', hr, by
    simp only [pmc_disable_plla, Outcome.ret.injEq, true_and] at hr
    rw [← hr]; decide, hcp, hf 0xFF (by decide)⟩

/-! ### PLL-A configuration -/

/-- A busy-wait either returns or is still spinning; it fails in no other way. -/
theorem wait_sr_ret_or_spinning (bit : Nat) :
    ∀ (fuel : Nat) (st : State),
      (∃ st', wait_sr bit fuel st = .ret () st') ∨ wait_sr bit fuel st = .spinning := by
  intro fuel
  induction fuel with
  | zero => intro st; exact Or.inr rfl
  | succ k ih =>
    intro st
    by_cases hb : st.PMC_SR st.polls &&& bit = 0
    · simpa [wait_sr, hb] using ih { st with polls := st.polls + 1 }
    · exact Or.inl ⟨{ st with polls := st.polls + 1 }, by simp [wait_sr, hb]⟩

/-- A busy-wait on a bit the hardware never shows spins for every fuel. -/
theorem wait_sr_never (bit fuel : Nat) (st : State)
    (h : ∀ n, st.polls ≤ n → st.PMC_SR n &&& bit = 0) :
    wait_sr bit fuel st = .spinning := by
  rcases wait_sr_ret_or_spinning bit fuel st with ⟨st', hr⟩ | hs
  · obtain ⟨-, hlt, hbit⟩ := wait_sr_ret bit fuel st st' hr
    exact absurd (h (st'.polls - 1) (by omega)) hbit
  · exact hs

/-- C19. `pmc_set_plla(pll, cpcr)` writes `pll` to `CKGR_PLLAR` and `cpcr` to
`PMC_PLLICPR`. When the DIVA field of `pll` is 0 it returns at once, for every
status-register content and without polling it. When the DIVA field is not 0
it returns once the hardware shows `LOCKA`, whenever it returns its last poll
of `PMC_SR` saw `LOCKA` set, and while `LOCKA` never shows it does not return. -/
theorem set_plla_waits_for_lock (c : Chip) (st : State) (pll cpcr : Nat)
    (hdiva0 : c.CKGR_PLLAR_DIVA_0 = 0) :
    (pll &&& c.CKGR_PLLAR_DIVA_Msk = 0 →
      ∀ fuel, pmc_set_plla c fuel pll cpcr st =
        .ret () { st with CKGR_PLLAR := pll, PMC_PLLICPR := cpcr }) ∧
    (pll &&& c.CKGR_PLLAR_DIVA_Msk ≠ 0 →
      (∀ fuel st', pmc_set_plla c fuel pll cpcr st = .ret () st' →
        st' = { st with CKGR_PLLAR := pll, PMC_PLLICPR := cpcr, polls := st'.polls } ∧
        st.polls < st'.polls ∧
        st.PMC_SR (st'.polls - 1) &&& c.PMC_SR_LOCKA ≠ 0) ∧
      (∀ n, st.polls ≤ n → st.PMC_SR n &&& c.PMC_SR_LOCKA ≠ 0 →
        ∃ fuel st', pmc_set_plla c fuel pll cpcr st = .ret () st') ∧
      ((∀ n, st.polls ≤ n → st.PMC_SR n &&& c.PMC_SR_LOCKA = 0) →
        ∀ fuel, pmc_set_plla c fuel pll cpcr st = .spinning)) := by
  constructor
  · intro hz fuel
    simp [pmc_set_plla, hz, hdiva0]
  · intro hnz
    have hdef : ∀ fuel, pmc_set_plla c fuel pll cpcr st =
        wait_sr c.PMC_SR_LOCKA fuel { st with CKGR_PLLAR := pll, PMC_PLLICPR := cpcr } := by
      intro fuel
      simp [pmc_set_plla, hnz, hdiva0]
    refine ⟨?_, ?_, ?_⟩
    · intro fuel st' h
      rw [hdef] at h
      obtain ⟨h1, h2, h3⟩ := wait_sr_ret _ _ _ _ h
      exact ⟨h1, h2, h3⟩
    · intro n hn hrdy
      obtain ⟨fuel, st', hw⟩ := wait_sr_ready c.PMC_SR_LOCKA (n - st.polls)
        { st with CKGR_PLLAR := pll, PMC_PLLICPR := cpcr }
        (by simpa [Nat.add_sub_cancel' hn] using hrdy)
      exact ⟨fuel, st', by rw [hdef]; exact hw⟩
    · intro hnever fuel
      rw [hdef]
      exact wait_sr_never _ _ _ hnever

/-- C19 at concrete inputs: with DIVA 0 the call returns with no fuel at all on
a machine that never shows `LOCKA`; with DIVA 1 it returns on a machine that
shows `LOCKA`. -/
theorem set_plla_waits_for_lock_witness :
    pmc_set_plla sama5d2 0 0x240000 0x3 (State.quiet 0) =
      .ret () { State.quiet 0 with CKGR_PLLAR := 0x240000, PMC_PLLICPR := 0x3 } ∧
    (∃ fuel st', pmc_set_plla sama5d2 fuel 0x240001 0x3 (State.quiet 2) = .ret () st') ∧
    (∀ fuel, pmc_set_plla sama5d2 fuel 0x240001 0x3 (State.quiet 0) = .spinning) :=
  ⟨(set_plla_waits_for_lock sama5d2 (State.quiet 0) 0x240000 0x3 rfl).1 (by decide) 0,
   ((set_plla_waits_for_lock sama5d2 (State.quiet 2) 0x240001 0x3 rfl).2 (by decide)).2.1 0
      (by decide) (by decide),
   ((set_plla_waits_for_lock sama5d2 (State.quiet 0) 0x240001 0x3 rfl).2 (by decide)).2.2
      (fun _ _ => Nat.zero_and _)⟩

/-! ### Generated clock configuration -/

/-- Whatever the position `p` of a field that does not start at bit 0, the
value `2^(32 - p)` shifted left by `p` is 0 in 32 bits: the test
`div << Pos & ~Msk` of `pmc_configure_gck` cannot see it. -/
theorem shl32_shifted_out (p : Nat) (hp : p ≤ 32) : shl32 (2 ^ (32 - p)) p = 0 := by
  unfold shl32
  rw [Nat.shiftLeft_eq, ← Nat.pow_add, Nat.sub_add_cancel hp, Nat.mod_self]

/-- C20 (the code at a failing input). On the concrete chip the GCKDIV field is
8 bits wide at bit 20, so its largest value is 255. `pmc_configure_gck` rejects
a clock source with a bit outside the GCKCSS field and the divider 256, both
before `PMC_PCR` is touched; but it accepts the divider 4096, because
`4096 << 20` is 0 in 32 bits: the call returns and the control word of the
peripheral gets divider field 0. -/
theorem configure_gck_accepts_oversized_div :
    sama5d2.PMC_PCR_GCKDIV_Msk >>> sama5d2.PMC_PCR_GCKDIV_Pos = 255 ∧
    (pmc_configure_gck sama5d2 1 38 0x800 0
        { State.quiet 0x1000000 with pcr_sel := 5 }).aborted?.map
      (fun s => (s.pcr_sel, s.pcr_ctl 38, s.polls)) = some (5, 0, 0) ∧
    (pmc_configure_gck sama5d2 1 38 0x100 256
        { State.quiet 0x1000000 with pcr_sel := 5 }).aborted?.map
      (fun s => (s.pcr_sel, s.pcr_ctl 38, s.polls)) = some (5, 0, 0) ∧
    shl32 4096 sama5d2.PMC_PCR_GCKDIV_Pos &&& not32 sama5d2.PMC_PCR_GCKDIV_Msk = 0 ∧
    (pmc_configure_gck sama5d2 1 38 0x100 4096
        { State.quiet 0x1000000 with pcr_sel := 5 }).aborted?.isNone = true ∧
    (pmc_configure_gck sama5d2 1 38 0x100 4096
        { State.quiet 0x1000000 with pcr_sel := 5 }).state?.map
      (fun s => (s.pcr_sel, s.pcr_ctl 38,
        (s.pcr_ctl 38 &&& sama5d2.PMC_PCR_GCKDIV_Msk) >>> sama5d2.PMC_PCR_GCKDIV_Pos)) =
      some (38, 0x1100, 0) := by
  refine ⟨by decide, by decide, by decide, by decide, by decide, by decide⟩

/-! ### The UPLL slot of the master clock -/

/-- C21. With the cache unset and the CSS field of `PMC_MCKR` at the UPLL code,
the source frequency is `BOARD_MAIN_CLOCK_EXT_OSC`, and `pmc_get_master_clock`
returns that frequency after the prescaler step and then the MDIV step of the
current `PMC_MCKR`. The result is the same on every state with the same
`PMC_MCKR`, whatever `CKGR_PLLAR`, `CKGR_MOR` and `SCKC_CR` hold. -/
theorem master_clock_upll_slot (c : Chip) (st : State)
    (hlabels : c.css_labels.Nodup)
    (hcache : st._pmc_mck = 0)
    (hcss : st.PMC_MCKR &&& c.PMC_MCKR_CSS_Msk = c.PMC_MCKR_CSS_UPLL_CLK) :
    mck_css_clk c st = some c.BOARD_MAIN_CLOCK_EXT_OSC ∧
    ∃ v, mck_mdiv_clk c st.PMC_MCKR
        (mck_pres_clk c st.PMC_MCKR c.BOARD_MAIN_CLOCK_EXT_OSC) = some v ∧
      pmc_get_master_clock c st = .ret v { st with _pmc_mck := v } ∧
      ∀ st2 : State, st2._pmc_mck = 0 → st2.PMC_MCKR = st.PMC_MCKR →
        pmc_get_master_clock c st2 = .ret v { st2 with _pmc_mck := v } := by
  simp only [Chip.css_labels, List.nodup_cons, List.mem_cons, List.mem_singleton,
    not_or, List.not_mem_nil, not_false_eq_true, List.nodup_nil, and_true] at hlabels
  obtain ⟨⟨h01, h02, h03⟩, ⟨h12, h13⟩, h23⟩ := hlabels
  have hsrc : ∀ s : State, s.PMC_MCKR = st.PMC_MCKR →
      mck_css_clk c s = some c.BOARD_MAIN_CLOCK_EXT_OSC := by
    intro s hs
    simp [mck_css_clk, hs, hcss, Ne.symm h03, Ne.symm h13, Ne.symm h23]
  obtain ⟨v, hv⟩ := mck_mdiv_clk_isSome c st.PMC_MCKR
    (mck_pres_clk c st.PMC_MCKR c.BOARD_MAIN_CLOCK_EXT_OSC)
  have hval : ∀ s : State, s.PMC_MCKR = st.PMC_MCKR → mck_value c s = some v := by
    intro s hs
    simp [mck_value, mck_prescaled, hsrc s hs, hs, hv]
  refine ⟨hsrc st rfl, v, hv, pmc_get_master_clock_fresh c st v hcache (hval st rfl), ?_⟩
  intro st2 hc2 hm2
  exact pmc_get_master_clock_fresh c st2 v hc2 (hval st2 hm2)

/-- C21 at a concrete input: `PMC_MCKR = 0x313` (UPLL slot, prescaler DIV2,
divider /3) gives 12 MHz / 2 / 3 = 2 MHz, also with PLL-A programmed and both
oscillator selection bits set. -/
theorem master_clock_upll_slot_witness :
    pmc_get_master_clock sama5d2 { State.quiet 0 with PMC_MCKR := 0x313 } =
      .ret 2000000 { State.quiet 0 with PMC_MCKR := 0x313, _pmc_mck := 2000000 } ∧
    pmc_get_master_clock sama5d2
        { State.quiet 0 with PMC_MCKR := 0x313, CKGR_PLLAR := 0x240001,
                             CKGR_MOR := 0x1000000, SCKC_CR := 0x8 } =
      .ret 2000000
        { State.quiet 0 with PMC_MCKR := 0x313, CKGR_PLLAR := 0x240001,
                             CKGR_MOR := 0x1000000, SCKC_CR := 0x8,
                             _pmc_mck := 2000000 } := by
  obtain ⟨-, v, hv, hret, hall⟩ := master_clock_upll_slot sama5d2
    { State.quiet 0 with PMC_MCKR := 0x313 } (by decide) rfl (by decide)
  have hv2 : v = 2000000 := by
    have h2 : mck_mdiv_clk sama5d2 0x313 (mck_pres_clk sama5d2 0x313 12000000) =
        some 2000000 := by decide
    exact Option.some.inj (hv.symm.trans h2)
  subst hv2
  exact ⟨hret, hall _ rfl rfl⟩

/-! ### Oscillator selection against the resolvers -/

/-- A sequence returns exactly when its first part returns and the rest,
started from there, returns. -/
theorem Outcome.bind_eq_ret {α β : Type} (r : Outcome α) (k : α → State → Outcome β)
    (v : β) (s : State) :
    r.bind k = .ret v s ↔ ∃ a t, r = .ret a t ∧ k a t = .ret v s := by
  cases r with
  | ret a t =>
    simp only [Outcome.bind, Outcome.ret.injEq]
    constructor
    · intro h; exact ⟨a, t, ⟨rfl, rfl⟩, h⟩
    · rintro ⟨a', t', ⟨ha, ht⟩, h⟩
      rw [ha, ht]; exact h
  | assert_failed t => simp [Outcome.bind]
  | div_by_zero => simp [Outcome.bind]
  | spinning => simp [Outcome.bind]

/-- The wait on `CKGR_MOR` of line 406 returns only with `MOSCSEL` set, and
changes nothing. -/
theorem wait_moscsel_ret (c : Chip) :
    ∀ (fuel : Nat) (st st' : State), wait_moscsel c fuel st = .ret () st' →
      st' = st ∧ st.CKGR_MOR &&& c.CKGR_MOR_MOSCSEL = c.CKGR_MOR_MOSCSEL := by
  intro fuel
  induction fuel with
  | zero => intro st st' h; simp [wait_moscsel] at h
  | succ k ih =>
    intro st st' h
    by_cases hb : st.CKGR_MOR &&& c.CKGR_MOR_MOSCSEL = c.CKGR_MOR_MOSCSEL
    · simp only [wait_moscsel, hb, ne_eq, not_true_eq_false, if_false, Outcome.ret.injEq,
        true_and] at h
      exact ⟨h.symm, hb⟩
    · simp only [wait_moscsel, ne_eq, hb, not_false_eq_true, if_true] at h
      exact ih st st' h

/-- Whenever `pmc_select_external_osc` returns, `MOSCSEL` is set in `CKGR_MOR`,
so `pmc_get_main_clock` answers `MAIN_CLOCK_INT_OSC`, the frequency of the
internal RC oscillator. -/
theorem select_external_osc_then_main_clock (c : Chip) (fuel : Nat) (st st' : State)
    (hsel : c.CKGR_MOR_MOSCSEL ≠ 0)
    (h : pmc_select_external_osc c fuel st = .ret () st') :
    st'.CKGR_MOR &&& c.CKGR_MOR_MOSCSEL = c.CKGR_MOR_MOSCSEL ∧
      pmc_get_main_clock c st' = c.MAIN_CLOCK_INT_OSC := by
  have hset : st'.CKGR_MOR &&& c.CKGR_MOR_MOSCSEL = c.CKGR_MOR_MOSCSEL := by
    unfold pmc_select_external_osc at h
    by_cases h0 : st.CKGR_MOR &&& c.CKGR_MOR_MOSCSEL = c.CKGR_MOR_MOSCSEL
    · simp only [h0, if_true, Outcome.ret.injEq, true_and] at h
      rw [← h]; exact h0
    · simp only [h0, if_false] at h
      obtain ⟨_, s1, h1, h⟩ := (Outcome.bind_eq_ret _ _ _ _).mp h
      obtain ⟨_, s2, h2, h3⟩ := (Outcome.bind_eq_ret _ _ _ _).mp h
      obtain ⟨e2, hb⟩ := wait_moscsel_ret c _ _ _ h2
      obtain ⟨e3, -, -⟩ := wait_sr_ret _ _ _ _ h3
      rw [e3, e2]
      exact hb
  refine ⟨hset, ?_⟩
  simp [pmc_get_main_clock, hset, hsel]

/-- Whenever `pmc_select_internal_osc` returns, `MOSCSEL` is clear in
`CKGR_MOR`, so `pmc_get_main_clock` answers `BOARD_MAIN_CLOCK_EXT_OSC`, the
frequency of the external crystal. -/
theorem select_internal_osc_then_main_clock (c : Chip) (fuel : Nat) (st st' : State)
    (hkey : c.CKGR_MOR_KEY_PASSWD &&& c.CKGR_MOR_MOSCSEL = 0)
    (h : pmc_select_internal_osc c fuel st = .ret () st') :
    st'.CKGR_MOR &&& c.CKGR_MOR_MOSCSEL = 0 ∧
      pmc_get_main_clock c st' = c.BOARD_MAIN_CLOCK_EXT_OSC := by
  have hbits : ∀ m : Nat,
      ((((m &&& not32 c.CKGR_MOR_MOSCSEL) ||| c.CKGR_MOR_KEY_PASSWD) &&&
        not32 c.CKGR_MOR_MOSCXTEN) ||| c.CKGR_MOR_KEY_PASSWD) &&& c.CKGR_MOR_MOSCSEL = 0 := by
    intro m
    apply Nat.eq_of_testBit_eq
    intro i
    have hi : (c.CKGR_MOR_KEY_PASSWD.testBit i && c.CKGR_MOR_MOSCSEL.testBit i) = false := by
      rw [← Nat.testBit_and, hkey, Nat.zero_testBit]
    simp only [Nat.testBit_and, Nat.testBit_or, testBit_not32, Nat.zero_testBit]
    revert hi
    cases c.CKGR_MOR_KEY_PASSWD.testBit i <;> cases c.CKGR_MOR_MOSCSEL.testBit i <;>
      cases m.testBit i <;> simp
  have hclr : st'.CKGR_MOR &&& c.CKGR_MOR_MOSCSEL = 0 := by
    unfold pmc_select_internal_osc at h
    obtain ⟨_, s1, h1, h⟩ := (Outcome.bind_eq_ret _ _ _ _).mp h
    obtain ⟨_, s2, h2, h3⟩ := (Outcome.bind_eq_ret _ _ _ _).mp h
    obtain ⟨e2, -, -⟩ := wait_sr_ret _ _ _ _ h2
    obtain ⟨e3, -, -⟩ := wait_sr_ret _ _ _ _ h3
    rw [e3, e2]
    exact hbits _
  refine ⟨hclr, ?_⟩
  simp [pmc_get_main_clock, hclr]

/-- C22 (the code at a failing input). Board with a 24 MHz external crystal and
the 12 MHz internal RC oscillator. After `pmc_select_external_osc` the
`MOSCSEL` bit is set and `pmc_get_main_clock` returns 12 MHz, the internal
frequency; after `pmc_select_internal_osc` the bit is clear and
`pmc_get_main_clock` returns 24 MHz, the external one. -/
theorem main_clock_resolver_inverts_selection :
    ({ sama5d2 with BOARD_MAIN_CLOCK_EXT_OSC := 24000000 } : Chip).MAIN_CLOCK_INT_OSC =
      12000000 ∧
    (pmc_select_external_osc { sama5d2 with BOARD_MAIN_CLOCK_EXT_OSC := 24000000 } 1
        (State.quiet 0x10001)).state?.map
      (fun s => (s.CKGR_MOR &&& 0x1000000,
        pmc_get_main_clock { sama5d2 with BOARD_MAIN_CLOCK_EXT_OSC := 24000000 } s)) =
      some (0x1000000, 12000000) ∧
    (pmc_select_internal_osc { sama5d2 with BOARD_MAIN_CLOCK_EXT_OSC := 24000000 } 1
        { State.quiet 0x20008 with CKGR_MOR := 0x1000001 }).state?.map
      (fun s => (s.CKGR_MOR &&& 0x1000000,
        pmc_get_main_clock { sama5d2 with BOARD_MAIN_CLOCK_EXT_OSC := 24000000 } s)) =
      some (0, 24000000) := by
  refine ⟨by decide, by decide, by decide⟩

/-- Whenever `pmc_select_external_crystal` or `pmc_select_internal_crystal`
returns, with or without the detour of the master clock, `SCKC_CR` is its old
value with the OSCSEL field replaced by the code written. -/
theorem select_crystal_sckc (c : Chip) (fuel : Nat) (st st' : State) :
    (pmc_select_external_crystal c fuel st = .ret () st' →
      st'.SCKC_CR = (st.SCKC_CR &&& not32 c.SCKC_CR_OSCSEL) ||| c.SCKC_CR_OSCSEL_XTAL) ∧
    (pmc_select_internal_crystal c fuel st = .ret () st' →
      st'.SCKC_CR = (st.SCKC_CR &&& not32 c.SCKC_CR_OSCSEL) ||| c.SCKC_CR_OSCSEL_RC) := by
  by_cases hz : st.PMC_MCKR = PMC_MCKR_CSS c c.PMC_MCKR_CSS_SLOW_CLK
  · constructor
    · intro h
      simp only [pmc_select_external_crystal, hz, decide_True, if_true] at h
      obtain ⟨_, s1, h1, h2⟩ := (Outcome.bind_eq_ret _ _ _ _).mp h
      have e1 := switch_mck_ret c _ fuel st s1 h1
      have e2 := switch_mck_ret c _ fuel _ st' h2
      rw [e2]; simp only; rw [e1]
    · intro h
      simp only [pmc_select_internal_crystal, hz, decide_True, if_true] at h
      obtain ⟨_, s1, h1, h2⟩ := (Outcome.bind_eq_ret _ _ _ _).mp h
      have e1 := switch_mck_ret c _ fuel st s1 h1
      have e2 := switch_mck_ret c _ fuel _ st' h2
      rw [e2]; simp only; rw [e1]
  · obtain ⟨he, hi⟩ := select_crystal_without_switch c fuel st hz
    constructor
    · intro h
      rw [he] at h
      simp only [Outcome.ret.injEq, true_and] at h
      rw [← h]
    · intro h
      rw [hi] at h
      simp only [Outcome.ret.injEq, true_and] at h
      rw [← h]

/-- Whenever `pmc_select_external_crystal` returns, on a chip whose XTAL code
has the OSCSEL bit, `pmc_get_slow_clock` answers `SLOW_CLOCK_INT_OSC`; whenever
`pmc_select_internal_crystal` returns, on a chip whose RC code has no OSCSEL
bit, `pmc_get_slow_clock` answers `BOARD_SLOW_CLOCK_EXT_OSC`. -/
theorem select_crystal_then_slow_clock (c : Chip) (fuel : Nat) (st st' : State) :
    (c.SCKC_CR_OSCSEL_XTAL &&& c.SCKC_CR_OSCSEL ≠ 0 →
      pmc_select_external_crystal c fuel st = .ret () st' →
      pmc_get_slow_clock c st' = c.SLOW_CLOCK_INT_OSC) ∧
    (c.SCKC_CR_OSCSEL_RC &&& c.SCKC_CR_OSCSEL = 0 →
      pmc_select_internal_crystal c fuel st = .ret () st' →
      pmc_get_slow_clock c st' = c.BOARD_SLOW_CLOCK_EXT_OSC) := by
  obtain ⟨he, hi⟩ := select_crystal_sckc c fuel st st'
  constructor
  · intro hx h
    have hs := he h
    simp [pmc_get_slow_clock, hs, field_replace_read, hx]
  · intro hr h
    have hs := hi h
    simp [pmc_get_slow_clock, hs, field_replace_read, hr]

/-- C23 (the code at a failing input). External slow crystal 32768 Hz, internal
RC 32000 Hz. After `pmc_select_external_crystal` the OSCSEL bit is set and
`pmc_get_slow_clock` returns 32000, the internal frequency; after
`pmc_select_internal_crystal` the bit is clear and `pmc_get_slow_clock` returns
32768, the external one. -/
theorem slow_clock_resolver_inverts_selection :
    (sama5d2.BOARD_SLOW_CLOCK_EXT_OSC = 32768 ∧ sama5d2.SLOW_CLOCK_INT_OSC = 32000) ∧
    (pmc_select_external_crystal sama5d2 1
        { State.quiet 8 with PMC_MCKR := 0x1 }).state?.map
      (fun s => (s.SCKC_CR &&& sama5d2.SCKC_CR_OSCSEL, pmc_get_slow_clock sama5d2 s)) =
      some (0x8, 32000) ∧
    (pmc_select_internal_crystal sama5d2 1
        { State.quiet 8 with PMC_MCKR := 0x1, SCKC_CR := 0x8 }).state?.map
      (fun s => (s.SCKC_CR &&& sama5d2.SCKC_CR_OSCSEL, pmc_get_slow_clock sama5d2 s)) =
      some (0x0, 32768) := by
  refine ⟨⟨by decide, by decide⟩, by decide, by decide⟩

/-! ### Generated clock configuration against the resolver -/

/-- The control word `pmc_configure_gck` leaves for a valid id: the word read
back at entry, with the command flag set and GCKEN cleared by `pmc_disable_gck`,
and with the new source and divider or-ed onto it. The old source and divider
bits are still in it. -/
theorem pmc_configure_gck_word (c : Chip) (fuel id clock_source div : Nat) (st st' : State)
    (hcmd : c.PMC_PCR_CMD ≠ 0) (hpid : c.PMC_PCR_PID_Msk &&& c.PMC_PCR_CMD = 0)
    (h : pmc_configure_gck c fuel id clock_source div st = .ret () st') :
    st'.pcr_ctl (PMC_PCR_PID c id &&& c.PMC_PCR_PID_Msk) =
      (c.PMC_PCR_CMD |||
          (st.pcr_ctl (PMC_PCR_PID c id &&& c.PMC_PCR_PID_Msk) &&& not32 c.PMC_PCR_GCKEN)) |||
        (clock_source &&& c.PMC_PCR_GCKCSS_Msk) ||| c.PMC_PCR_CMD ||| PMC_PCR_GCKDIV c div := by
  have hsel := pid_word_no_cmd c id hpid
  have hw2 : ∀ x y z : Nat, (x ||| y ||| c.PMC_PCR_CMD ||| z) &&& c.PMC_PCR_CMD ≠ 0 := by
    intro x y z
    have h2 : (x ||| y ||| c.PMC_PCR_CMD ||| z) &&& c.PMC_PCR_CMD = c.PMC_PCR_CMD := by
      apply Nat.eq_of_testBit_eq
      intro i
      simp only [Nat.testBit_and, Nat.testBit_or]
      cases c.PMC_PCR_CMD.testBit i <;> simp
    rw [h2]; exact hcmd
  unfold pmc_configure_gck at h
  split_ifs at h with hv ha1 ha2
  obtain ⟨_, s1, h1, h2⟩ := (Outcome.bind_eq_ret _ _ _ _).mp h
  unfold pmc_disable_gck at h1
  simp only [hv, not_true_eq_false, if_false] at h1
  obtain ⟨e1, -, -⟩ := wait_sr_ret _ _ _ _ h1
  simp only [Outcome.ret.injEq, true_and] at h2
  rw [← h2, e1]
  simp [pcr_write, pcr_read, hsel, disable_word_cmd _ _ c.PMC_PCR_GCKEN hcmd, hw2]

/-- C24 (the code at a failing input). Peripheral 38 has the control word
`0x300200` (source PLL-A, divider field 3). After
`pmc_configure_gck(38, MAIN_CLK, 4)` the word is `0x701300`: its source field
is `0x300`, the UPLL code, not the main-clock code `0x100`, and its divider
field is 7, not 4; `pmc_get_gck_clock(38)` returns 0. Starting from the control
word 0 the same call leaves source field `0x100` and divider field 4, and
`pmc_get_gck_clock(38)` returns 12 MHz / 5. -/
theorem configure_gck_keeps_old_fields :
    ((pmc_configure_gck sama5d2 1 38 0x100 4
        { State.quiet 0x1000000 with pcr_ctl := fun _ => 0x300200 }).state?.map
      (fun s => (s.pcr_ctl 38, s.pcr_ctl 38 &&& sama5d2.PMC_PCR_GCKCSS_Msk,
        (s.pcr_ctl 38 &&& sama5d2.PMC_PCR_GCKDIV_Msk) >>> sama5d2.PMC_PCR_GCKDIV_Pos,
        (pmc_get_gck_clock sama5d2 38 s).val?)) =
      some (0x701300, 0x300, 7, some 0)) ∧
    ((pmc_configure_gck sama5d2 1 38 0x100 4
        { State.quiet 0x1000000 with pcr_ctl := fun _ => 0 }).state?.map
      (fun s => (s.pcr_ctl 38, s.pcr_ctl 38 &&& sama5d2.PMC_PCR_GCKCSS_Msk,
        (s.pcr_ctl 38 &&& sama5d2.PMC_PCR_GCKDIV_Msk) >>> sama5d2.PMC_PCR_GCKDIV_Pos,
        (pmc_get_gck_clock sama5d2 38 s).val?)) =
      some (0x401100, 0x100, 4, some 2400000)) := by
  refine ⟨by decide, by decide⟩

/-! ### Programmable clock configuration -/

/-- A finished wait on `PMC_SCSR` has only advanced the poll counter. -/
theorem wait_scsr_clear_ret (bit : Nat) :
    ∀ (fuel : Nat) (st st' : State), wait_scsr_clear bit fuel st = .ret () st' →
      st' = { st with polls := st'.polls } := by
  intro fuel
  induction fuel with
  | zero => intro st st' h; simp [wait_scsr_clear] at h
  | succ k ih =>
    intro st st' h
    by_cases hb : st.PMC_SCSR st.polls &&& bit = 0
    · simp only [wait_scsr_clear, hb, ne_eq, not_true_eq_false, if_false, Outcome.ret.injEq,
        true_and] at h
      rw [← h]
    · simp only [wait_scsr_clear, ne_eq, hb, not_false_eq_true, if_true] at h
      have h1 := ih _ _ h
      rw [h1]

/-- The wait on `PMC_SCSR` finishes once the hardware shows the bit clear. -/
theorem wait_scsr_clear_ready (bit : Nat) :
    ∀ (d : Nat) (st : State), st.PMC_SCSR (st.polls + d) &&& bit = 0 →
      ∃ fuel st', wait_scsr_clear bit fuel st = .ret () st' := by
  intro d
  induction d with
  | zero =>
    intro st h
    exact ⟨1, { st with polls := st.polls + 1 }, by simpa [wait_scsr_clear] using h⟩
  | succ k ih =>
    intro st h
    by_cases hb : st.PMC_SCSR st.polls &&& bit = 0
    · exact ⟨1, { st with polls := st.polls + 1 }, by simp [wait_scsr_clear, hb]⟩
    · obtain ⟨fuel, st', hw⟩ := ih { st with polls := st.polls + 1 }
        (by simpa [Nat.add_assoc, Nat.add_comm 1 k] using h)
      exact ⟨fuel + 1, st', by simpa [wait_scsr_clear, hb] using hw⟩

/-- Two values lying in disjoint fields can be read back from their union. -/
theorem fields_of_or (s q m1 m2 : Nat) (hs : s &&& m1 = s) (hq : q &&& m2 = q)
    (hd : m1 &&& m2 = 0) :
    (s ||| q) &&& m1 = s ∧ (s ||| q) &&& m2 = q := by
  have hbit : ∀ i, (m1.testBit i && m2.testBit i) = false := by
    intro i; rw [← Nat.testBit_and, hd, Nat.zero_testBit]
  have hsb : ∀ i, (s.testBit i && m1.testBit i) = s.testBit i := by
    intro i; rw [← Nat.testBit_and, hs]
  have hqb : ∀ i, (q.testBit i && m2.testBit i) = q.testBit i := by
    intro i; rw [← Nat.testBit_and, hq]
  constructor
  · apply Nat.eq_of_testBit_eq
    intro i
    have h1 := hbit i; have h2 := hsb i; have h3 := hqb i
    simp only [Nat.testBit_and, Nat.testBit_or]
    revert h1 h2 h3
    cases s.testBit i <;> cases q.testBit i <;> cases m1.testBit i <;>
      cases m2.testBit i <;> simp
  · apply Nat.eq_of_testBit_eq
    intro i
    have h1 := hbit i; have h2 := hsb i; have h3 := hqb i
    simp only [Nat.testBit_and, Nat.testBit_or]
    revert h1 h2 h3
    cases s.testBit i <;> cases q.testBit i <;> cases m1.testBit i <;>
      cases m2.testBit i <;> simp

/-- The macro `PMC_PCK_PRES` on a prescaler that fits the PRES field is the
prescaler shifted to the position of the field. -/
theorem PMC_PCK_PRES_of_fits (c : Chip) (p : Nat)
    (hp : p <<< c.PMC_PCK_PRES_Pos &&& c.PMC_PCK_PRES_Msk = p <<< c.PMC_PCK_PRES_Pos)
    (hp32 : p <<< c.PMC_PCK_PRES_Pos < 2 ^ 32) :
    PMC_PCK_PRES c p = p <<< c.PMC_PCK_PRES_Pos := by
  unfold PMC_PCK_PRES shl32
  rw [Nat.mod_eq_of_lt hp32, Nat.and_comm, hp]

/-- The source `switch` of `_pmc_get_pck_clock` looks at the CSS field of the
word only. -/
theorem pck_css_clk_congr (c : Chip) (pck1 pck2 : Nat) (st : State)
    (h : pck1 &&& c.PMC_PCK_CSS_Msk = pck2 &&& c.PMC_PCK_CSS_Msk) :
    pck_css_clk c pck1 st = pck_css_clk c pck2 st := by
  simp [pck_css_clk, h]

/-- The common body of `pmc_configure_pck0`, `pmc_configure_pck1` and
`pmc_configure_pck2`: disable command, wait on `PMC_SCSR`, write of the whole
`PMC_PCK[idx]`. -/
theorem configure_pck_ret (scdr bit idx w fuel : Nat) (st st' : State)
    (h : (wait_scsr_clear bit fuel { st with PMC_SCDR := scdr }).bind
        (fun _ st => Outcome.ret () { st with
          PMC_PCK := Function.update st.PMC_PCK idx w }) = .ret () st') :
    st' = { st with PMC_SCDR := scdr, polls := st'.polls,
                    PMC_PCK := Function.update st.PMC_PCK idx w } := by
  obtain ⟨_, s1, h1, h2⟩ := (Outcome.bind_eq_ret _ _ _ _).mp h
  have e1 := wait_scsr_clear_ret _ _ _ _ h1
  simp only [Outcome.ret.injEq, true_and] at h2
  rw [← h2, e1]

/-- The common body of the three `pmc_configure_pck` functions returns once the
hardware shows the channel's `PMC_SCSR` bit clear. -/
theorem configure_pck_returns (scdr bit idx w n : Nat) (st : State)
    (hn : st.polls ≤ n) (hclr : st.PMC_SCSR n &&& bit = 0) :
    ∃ fuel st', (wait_scsr_clear bit fuel { st with PMC_SCDR := scdr }).bind
        (fun _ st => Outcome.ret () { st with
          PMC_PCK := Function.update st.PMC_PCK idx w }) = .ret () st' := by
  obtain ⟨fuel, s, hw⟩ := wait_scsr_clear_ready bit (n - st.polls)
    { st with PMC_SCDR := scdr } (by simpa [Nat.add_sub_cancel' hn] using hclr)
  exact ⟨fuel, { s with PMC_PCK := Function.update s.PMC_PCK idx w }, by
    simp [hw, Outcome.bind]⟩

/-- What a state with a freshly written `PMC_PCK[idx]` looks like to the
resolver: the channel holds exactly the source `s` and the prescaler `p`, the
other channels are as they were, and `_pmc_get_pck_clock` returns the frequency
of the source `s` divided by `p + 1`. -/
theorem configured_pck_channel (c : Chip) (st st' : State) (idx s p : Nat)
    (hs : s &&& c.PMC_PCK_CSS_Msk = s)
    (hp : p <<< c.PMC_PCK_PRES_Pos &&& c.PMC_PCK_PRES_Msk = p <<< c.PMC_PCK_PRES_Pos)
    (hp32 : p <<< c.PMC_PCK_PRES_Pos < 2 ^ 32)
    (hdisj : c.PMC_PCK_CSS_Msk &&& c.PMC_PCK_PRES_Msk = 0)
    (hwidth : (c.PMC_PCK_PRES_Msk >>> c.PMC_PCK_PRES_Pos) + 1 < 2 ^ 32)
    (hst : st'.PMC_PCK = Function.update st.PMC_PCK idx
      ((s &&& c.PMC_PCK_CSS_Msk) ||| PMC_PCK_PRES c p)) :
    st'.PMC_PCK idx = s ||| (p <<< c.PMC_PCK_PRES_Pos) ∧
    st'.PMC_PCK idx &&& c.PMC_PCK_CSS_Msk = s ∧
    (st'.PMC_PCK idx &&& c.PMC_PCK_PRES_Msk) >>> c.PMC_PCK_PRES_Pos = p ∧
    (∀ j, j ≠ idx → st'.PMC_PCK j = st.PMC_PCK j) ∧
    ∃ F st'', pck_css_clk c s st' = .ret F st'' ∧
      _pmc_get_pck_clock c idx st' = .ret (F / (p + 1)) st'' := by
  have hword : st'.PMC_PCK idx = s ||| (p <<< c.PMC_PCK_PRES_Pos) := by
    rw [hst, Function.update_same, hs, PMC_PCK_PRES_of_fits c p hp hp32]
  obtain ⟨hcss, hpres⟩ := fields_of_or s (p <<< c.PMC_PCK_PRES_Pos) _ _ hs hp hdisj
  have hfield : (st'.PMC_PCK idx &&& c.PMC_PCK_PRES_Msk) >>> c.PMC_PCK_PRES_Pos = p := by
    rw [hword, hpres, Nat.shiftLeft_shiftRight]
  refine ⟨hword, by rw [hword, hcss], hfield, ?_, ?_⟩
  · intro j hj
    rw [hst, Function.update_noteq hj]
  · obtain ⟨F, st'', hF, -⟩ := pck_css_clk_returns c s st'
    have hF' : pck_css_clk c (st'.PMC_PCK idx) st' = .ret F st'' := by
      rw [pck_css_clk_congr c (st'.PMC_PCK idx) s st' (by rw [hword, hcss, hs])]
      exact hF
    have hret := _pmc_get_pck_clock_ret c idx st' st'' F hwidth hF'
    rw [hfield] at hret
    exact ⟨F, st'', hF, hret⟩

/-- C25. For each channel 0, 1, 2, a source selector `s` inside the CSS field
and a prescaler `p` inside the PRES field: `pmc_configure_pckN(s, p)` returns
once the hardware shows the channel disabled, and whenever it returns
`PMC_PCK[N]` is exactly `s | (p << PRES_Pos)`, whatever it held before: its
source field is `s`, its prescaler field is `p`, the registers of the other two
channels are unchanged, and `pmc_get_pckN_clock` returns the frequency of the
source `s` divided by `p + 1`. -/
theorem configure_pck_sets_channel (c : Chip) (st : State) (s p n : Nat)
    (hs : s &&& c.PMC_PCK_CSS_Msk = s)
    (hp : p <<< c.PMC_PCK_PRES_Pos &&& c.PMC_PCK_PRES_Msk = p <<< c.PMC_PCK_PRES_Pos)
    (hp32 : p <<< c.PMC_PCK_PRES_Pos < 2 ^ 32)
    (hdisj : c.PMC_PCK_CSS_Msk &&& c.PMC_PCK_PRES_Msk = 0)
    (hwidth : (c.PMC_PCK_PRES_Msk >>> c.PMC_PCK_PRES_Pos) + 1 < 2 ^ 32)
    (hn : st.polls ≤ n)
    (h0 : st.PMC_SCSR n &&& c.PMC_SCSR_PCK0 = 0)
    (h1 : st.PMC_SCSR n &&& c.PMC_SCSR_PCK1 = 0)
    (h2 : st.PMC_SCSR n &&& c.PMC_SCSR_PCK2 = 0) :
    ((∃ fuel st', pmc_configure_pck0 c fuel s p st = .ret () st') ∧
      ∀ fuel st', pmc_configure_pck0 c fuel s p st = .ret () st' →
        st'.PMC_PCK 0 = s ||| (p <<< c.PMC_PCK_PRES_Pos) ∧
        st'.PMC_PCK 0 &&& c.PMC_PCK_CSS_Msk = s ∧
        (st'.PMC_PCK 0 &&& c.PMC_PCK_PRES_Msk) >>> c.PMC_PCK_PRES_Pos = p ∧
        st'.PMC_PCK 1 = st.PMC_PCK 1 ∧ st'.PMC_PCK 2 = st.PMC_PCK 2 ∧
        ∃ F st'', pck_css_clk c s st' = .ret F st'' ∧
          pmc_get_pck0_clock c st' = .ret (F / (p + 1)) st'') ∧
    ((∃ fuel st', pmc_configure_pck1 c fuel s p st = .ret () st') ∧
      ∀ fuel st', pmc_configure_pck1 c fuel s p st = .ret () st' →
        st'.PMC_PCK 1 = s ||| (p <<< c.PMC_PCK_PRES_Pos) ∧
        st'.PMC_PCK 1 &&& c.PMC_PCK_CSS_Msk = s ∧
        (st'.PMC_PCK 1 &&& c.PMC_PCK_PRES_Msk) >>> c.PMC_PCK_PRES_Pos = p ∧
        st'.PMC_PCK 0 = st.PMC_PCK 0 ∧ st'.PMC_PCK 2 = st.PMC_PCK 2 ∧
        ∃ F st'', pck_css_clk c s st' = .ret F st'' ∧
          pmc_get_pck1_clock c st' = .ret (F / (p + 1)) st'') ∧
    ((∃ fuel st', pmc_configure_pck2 c fuel s p st = .ret () st') ∧
      ∀ fuel st', pmc_configure_pck2 c fuel s p st = .ret () st' →
        st'.PMC_PCK 2 = s ||| (p <<< c.PMC_PCK_PRES_Pos) ∧
        st'.PMC_PCK 2 &&& c.PMC_PCK_CSS_Msk = s ∧
        (st'.PMC_PCK 2 &&& c.PMC_PCK_PRES_Msk) >>> c.PMC_PCK_PRES_Pos = p ∧
        st'.PMC_PCK 0 = st.PMC_PCK 0 ∧ st'.PMC_PCK 1 = st.PMC_PCK 1 ∧
        ∃ F st'', pck_css_clk c s st' = .ret F st'' ∧
          pmc_get_pck2_clock c st' = .ret (F / (p + 1)) st'') := by
  refine ⟨⟨configure_pck_returns _ _ 0 _ n st hn h0, ?_⟩,
    ⟨configure_pck_returns _ _ 1 _ n st hn h1, ?_⟩,
    ⟨configure_pck_returns _ _ 2 _ n st hn h2, ?_⟩⟩
  · intro fuel st' h
    have hst := configure_pck_ret _ _ 0 _ fuel st st' h
    obtain ⟨a, b, d, e, f⟩ := configured_pck_channel c st st' 0 s p hs hp hp32 hdisj hwidth
      (by rw [hst])
    exact ⟨a, b, d, e 1 (by decide), e 2 (by decide), f⟩
  · intro fuel st' h
    have hst := configure_pck_ret _ _ 1 _ fuel st st' h
    obtain ⟨a, b, d, e, f⟩ := configured_pck_channel c st st' 1 s p hs hp hp32 hdisj hwidth
      (by rw [hst])
    exact ⟨a, b, d, e 0 (by decide), e 2 (by decide), f⟩
  · intro fuel st' h
    have hst := configure_pck_ret _ _ 2 _ fuel st st' h
    obtain ⟨a, b, d, e, f⟩ := configured_pck_channel c st st' 2 s p hs hp hp32 hdisj hwidth
      (by rw [hst])
    exact ⟨a, b, d, e 0 (by decide), e 1 (by decide), f⟩

/-- C25 at a concrete input: channel 1 holds `0xFF2` (source PLL-A, prescaler
255) and is configured with source main clock and prescaler 5: the register
becomes `0x51` and `pmc_get_pck1_clock` returns 12 MHz / 6. -/
theorem configure_pck_sets_channel_witness :
    ∃ fuel st', pmc_configure_pck1 sama5d2 fuel 0x1 5
        { State.quiet 0 with PMC_PCK := fun _ => 0xFF2 } = .ret () st' ∧
      st'.PMC_PCK 1 = 0x51 ∧ st'.PMC_PCK 0 = 0xFF2 ∧ st'.PMC_PCK 2 = 0xFF2 ∧
      (pmc_get_pck1_clock sama5d2 st').val? = some 2000000 := by
  have h := (configure_pck_sets_channel sama5d2
    { State.quiet 0 with PMC_PCK := fun _ => 0xFF2 } 0x1 5 0 (by decide) (by decide)
    (by decide) (by decide) (by decide) (by decide) (by decide) (by decide) (by decide)).2.1
  obtain ⟨fuel, st', hr⟩ := h.1
  obtain ⟨hw, -, -, h0, h2, F, st'', hF, hclk⟩ := h.2 fuel st' hr
  refine ⟨fuel, st', hr, hw, h0, h2, ?_⟩
  have hF2 : F = 12000000 := by
    have hF3 : pck_css_clk sama5d2 0x1 st' = .ret 12000000 st' := by
      simp [pck_css_clk, pmc_get_main_clock, sama5d2]
    rw [hF3] at hF
    simp only [Outcome.ret.injEq] at hF
    exact hF.1.symm
  rw [hclk, hF2]
  rfl

/-! ### What the peripheral gate leaves alone -/

/-- The word `pcr | PMC_PCR_CMD | PMC_PCR_EN` agrees with `pcr` on every field
disjoint from the command flag and the enable bit. -/
theorem enable_word_other_field (pcr cmd en f : Nat) (hf : f &&& (en ||| cmd) = 0) :
    (pcr ||| cmd ||| en) &&& f = pcr &&& f := by
  apply Nat.eq_of_testBit_eq
  intro i
  have hi : (f.testBit i && (en.testBit i || cmd.testBit i)) = false := by
    rw [← Nat.testBit_or, ← Nat.testBit_and, hf, Nat.zero_testBit]
  simp only [Nat.testBit_and, Nat.testBit_or]
  revert hi
  cases f.testBit i <;> cases en.testBit i <;> cases cmd.testBit i <;>
    cases pcr.testBit i <;> simp

/-- The word `PMC_PCR_CMD | (pcr & ~PMC_PCR_EN)` agrees with a 32-bit `pcr` on
every field disjoint from the command flag and the enable bit. -/
theorem disable_word_other_field (pcr cmd en f : Nat) (h32 : pcr < 2 ^ 32)
    (hf : f &&& (en ||| cmd) = 0) :
    (cmd ||| (pcr &&& not32 en)) &&& f = pcr &&& f := by
  apply Nat.eq_of_testBit_eq
  intro i
  have hi : (f.testBit i && (en.testBit i || cmd.testBit i)) = false := by
    rw [← Nat.testBit_or, ← Nat.testBit_and, hf, Nat.zero_testBit]
  have hlt : pcr.testBit i = true → i < 32 := testBit_of_lt_two_pow_32 pcr i h32
  simp only [Nat.testBit_and, Nat.testBit_or, testBit_not32]
  revert hi hlt
  cases f.testBit i <;> cases en.testBit i <;> cases cmd.testBit i <;>
    cases pcr.testBit i <;> simp

/-- C26. For a valid peripheral id and every 32-bit prior control word,
`pmc_enable_peripheral(id)` and `pmc_disable_peripheral(id)` return having
written `PMC_PCR` only: `PMC_MCKR`, the cache `_pmc_mck` and every other
register are as they were, the control words of the other identifiers are as
they were, and the control word read back for `id` differs from the prior one
in the enable bit (set by enable, cleared by disable) and the command flag
only: its GCKEN bit, its source field and its divider field are unchanged, as
is every field disjoint from the enable bit and the command flag. -/
theorem peripheral_gate_changes_enable_only (c : Chip) (st : State) (id : Nat)
    (hcmd : c.PMC_PCR_CMD ≠ 0) (hpid : c.PMC_PCR_PID_Msk &&& c.PMC_PCR_CMD = 0)
    (hdisj : c.PMC_PCR_CMD &&& c.PMC_PCR_EN = 0)
    (hgcken : c.PMC_PCR_GCKEN &&& (c.PMC_PCR_EN ||| c.PMC_PCR_CMD) = 0)
    (hgckcss : c.PMC_PCR_GCKCSS_Msk &&& (c.PMC_PCR_EN ||| c.PMC_PCR_CMD) = 0)
    (hgckdiv : c.PMC_PCR_GCKDIV_Msk &&& (c.PMC_PCR_EN ||| c.PMC_PCR_CMD) = 0)
    (hlo : 1 < id) (hhi : id < c.ID_PERIPH_COUNT)
    (h32 : st.pcr_ctl (PMC_PCR_PID c id &&& c.PMC_PCR_PID_Msk) < 2 ^ 32) :
    (∃ st', pmc_enable_peripheral c id st = .ret () st' ∧
      st' = { st with pcr_sel := PMC_PCR_PID c id &&& c.PMC_PCR_PID_Msk,
                      pcr_ctl := st'.pcr_ctl } ∧
      st'.PMC_MCKR = st.PMC_MCKR ∧ st'._pmc_mck = st._pmc_mck ∧
      (∀ k, k ≠ PMC_PCR_PID c id &&& c.PMC_PCR_PID_Msk → st'.pcr_ctl k = st.pcr_ctl k) ∧
      pcr_read st' &&& c.PMC_PCR_EN = c.PMC_PCR_EN ∧
      pcr_read st' &&& c.PMC_PCR_GCKEN =
        st.pcr_ctl (PMC_PCR_PID c id &&& c.PMC_PCR_PID_Msk) &&& c.PMC_PCR_GCKEN ∧
      pcr_read st' &&& c.PMC_PCR_GCKCSS_Msk =
        st.pcr_ctl (PMC_PCR_PID c id &&& c.PMC_PCR_PID_Msk) &&& c.PMC_PCR_GCKCSS_Msk ∧
      pcr_read st' &&& c.PMC_PCR_GCKDIV_Msk =
        st.pcr_ctl (PMC_PCR_PID c id &&& c.PMC_PCR_PID_Msk) &&& c.PMC_PCR_GCKDIV_Msk ∧
      (∀ f, f &&& (c.PMC_PCR_EN ||| c.PMC_PCR_CMD) = 0 →
        pcr_read st' &&& f = st.pcr_ctl (PMC_PCR_PID c id &&& c.PMC_PCR_PID_Msk) &&& f)) ∧
    (∃ st', pmc_disable_peripheral c id st = .ret () st' ∧
      st' = { st with pcr_sel := PMC_PCR_PID c id &&& c.PMC_PCR_PID_Msk,
                      pcr_ctl := st'.pcr_ctl } ∧
      st'.PMC_MCKR = st.PMC_MCKR ∧ st'._pmc_mck = st._pmc_mck ∧
      (∀ k, k ≠ PMC_PCR_PID c id &&& c.PMC_PCR_PID_Msk → st'.pcr_ctl k = st.pcr_ctl k) ∧
      pcr_read st' &&& c.PMC_PCR_EN = 0 ∧
      pcr_read st' &&& c.PMC_PCR_GCKEN =
        st.pcr_ctl (PMC_PCR_PID c id &&& c.PMC_PCR_PID_Msk) &&& c.PMC_PCR_GCKEN ∧
      pcr_read st' &&& c.PMC_PCR_GCKCSS_Msk =
        st.pcr_ctl (PMC_PCR_PID c id &&& c.PMC_PCR_PID_Msk) &&& c.PMC_PCR_GCKCSS_Msk ∧
      pcr_read st' &&& c.PMC_PCR_GCKDIV_Msk =
        st.pcr_ctl (PMC_PCR_PID c id &&& c.PMC_PCR_PID_Msk) &&& c.PMC_PCR_GCKDIV_Msk ∧
      (∀ f, f &&& (c.PMC_PCR_EN ||| c.PMC_PCR_CMD) = 0 →
        pcr_read st' &&& f = st.pcr_ctl (PMC_PCR_PID c id &&& c.PMC_PCR_PID_Msk) &&& f)) := by
  have hv : id > 1 ∧ id < c.ID_PERIPH_COUNT := ⟨hlo, hhi⟩
  constructor
  · refine ⟨_, pmc_enable_peripheral_ret c st id hcmd hpid hv, rfl, rfl, rfl, ?_, ?_, ?_, ?_,
      ?_, ?_⟩
    · intro k hk
      simp only [Function.update_noteq hk]
    · simp only [pcr_read, Function.update_same, or_and_self_right]
    · simp only [pcr_read, Function.update_same]
      exact enable_word_other_field _ _ _ _ hgcken
    · simp only [pcr_read, Function.update_same]
      exact enable_word_other_field _ _ _ _ hgckcss
    · simp only [pcr_read, Function.update_same]
      exact enable_word_other_field _ _ _ _ hgckdiv
    · intro f hf
      simp only [pcr_read, Function.update_same]
      exact enable_word_other_field _ _ _ _ hf
  · refine ⟨_, pmc_disable_peripheral_ret c st id hcmd hpid hv, rfl, rfl, rfl, ?_, ?_, ?_, ?_,
      ?_, ?_⟩
    · intro k hk
      simp only [Function.update_noteq hk]
    · simp only [pcr_read, Function.update_same]
      exact disable_word_en _ _ _ hdisj
    · simp only [pcr_read, Function.update_same]
      exact disable_word_other_field _ _ _ _ h32 hgcken
    · simp only [pcr_read, Function.update_same]
      exact disable_word_other_field _ _ _ _ h32 hgckcss
    · simp only [pcr_read, Function.update_same]
      exact disable_word_other_field _ _ _ _ h32 hgckdiv
    · intro f hf
      simp only [pcr_read, Function.update_same]
      exact disable_word_other_field _ _ _ _ h32 hf

/-- C26 at a concrete input: peripheral 38 with control word `0x20301200`
(GCKEN set, divider field 3, source PLL-A, command flag) on a machine with
`PMC_MCKR = 0x312` and 20 MHz cached. Enable makes the word `0x30301200`,
disable leaves it `0x20301200`; `PMC_MCKR` and the cache keep their values. -/
theorem peripheral_gate_changes_enable_only_witness :
    (∃ st', pmc_enable_peripheral sama5d2 38
        { State.quiet 0 with PMC_MCKR := 0x312, _pmc_mck := 20000000,
                             pcr_ctl := fun _ => 0x20301200 } = .ret () st' ∧
      st'.PMC_MCKR = 0x312 ∧ st'._pmc_mck = 20000000 ∧
      pcr_read st' &&& 0x10000000 = 0x10000000 ∧
      pcr_read st' &&& 0x2FF00700 = 0x20301200 &&& 0x2FF00700) ∧
    (∃ st', pmc_disable_peripheral sama5d2 38
        { State.quiet 0 with PMC_MCKR := 0x312, _pmc_mck := 20000000,
                             pcr_ctl := fun _ => 0x20301200 } = .ret () st' ∧
      st'.PMC_MCKR = 0x312 ∧ st'._pmc_mck = 20000000 ∧
      pcr_read st' &&& 0x10000000 = 0 ∧
      pcr_read st' &&& 0x2FF00700 = 0x20301200 &&& 0x2FF00700) := by
  have h := peripheral_gate_changes_enable_only sama5d2
    { State.quiet 0 with PMC_MCKR := 0x312, _pmc_mck := 20000000,
                         pcr_ctl := fun _ => 0x20301200 } 38
    (by decide) (by decide) (by decide) (by decide) (by decide) (by decide) (by decide)
    (by decide) (by decide)
  obtain ⟨⟨s1, hr1, -, hm1, hc1, -, hen1, -, -, -, hf1⟩,
    ⟨s2, hr2, -, hm2, hc2, -, hen2, -, -, -, hf2⟩⟩ := h
  exact ⟨⟨s1, hr1, hm1, hc1, hen1, hf1 0x2FF00700 (by decide)⟩,
    ⟨s2, hr2, hm2, hc2, hen2, hf2 0x2FF00700 (by decide)⟩⟩

end PMC
